import Mathlib

/-!
# go-fsm: the transition engine

A shallow embedding of `fsm.go`, `callback.go`, `errors.go` and `repository.go`.

Modelling conventions.

* A Go `map[string]V` is a finite partial function, embedded as `String → Option V`
  (`GoMap V`).  Reading a missing key gives `none`; `m[k] = v` is `GoMap.set`.
* `interface{}` payloads (hook arguments, metadata values) are values of `Value`.
* The entity is used from one goroutine: the lock `mu` has no counterpart.
* Everything outside the engine (hooks, the unknown-state resolver, the storage
  collaborator, the backoff function, the clock and the context) is a function of
  an external world `σ` that it may read and change.  These collaborators are
  non-nil where the code calls them without a nil check, return normally, and reach
  the entity only through their return values.
* `int` loop counters are unbounded integers (`attempt` never wraps around).
* `St.trace` is a ghost log of what an execution did.  No code reads it; it exists
  only so that statements of the form "the hook ran exactly once" can be written.
-/

namespace GoFsm

/-! ## Maps and dynamic values -/

/-- A Go `map[string]V`. -/
abbrev GoMap (V : Type) := String → Option V

/-- The result of `make(map[string]V)`. -/
def GoMap.empty {V : Type} : GoMap V := fun _ => none

/-- The assignment `m[k] = v`. -/
def GoMap.set {V : Type} (m : GoMap V) (k : String) (v : V) : GoMap V :=
  fun k' => if k' = k then some v else m k'

/-- A value of type `interface{}`. -/
inductive Value where
  | nil
  | str (s : String)
  | int (n : Int)
  | time (t : Nat)
  | obj (fields : List (String × Value))

/-! ## errors.go -/

/-- The two errors a `context.Context` reports once it is done. -/
inductive CtxError where
  | Canceled
  | DeadlineExceeded
  deriving DecidableEq, Repr

/-- Error values.  The first four are the package's sentinels; `new` is
`errors.New(message)`, `errorf` is `fmt.Errorf(text + ": %w", wrapped)`, `context`
is the value of `ctx.Err()` and `external` any other error made by a collaborator. -/
inductive Error where
  | ErrInvalidTransition
  | ErrMaxRetriesExceeded
  | ErrNotFound
  | ErrUnknownState
  | new (message : String)
  | errorf (text : String) (wrapped : Error)
  | context (c : CtxError)
  | external (tag : String)
  deriving DecidableEq, Repr

/-- The call `errors.Is(err, target)` for a sentinel `target`: a wrapper built by
`fmt.Errorf` is never the sentinel itself, so it is unwrapped; any other error is
compared with the target. -/
def Error.Is : Error → Error → Bool
  | .errorf _ wrapped, target => Error.Is wrapped target
  | e, target => decide (e = target)

/-! ## callback.go -/

/-- The type `CallbackStatus`, an `int`. -/
abbrev CallbackStatus := Int

def StatusSuccess : CallbackStatus := 0
def StatusFailure : CallbackStatus := 1
def StatusUnknown : CallbackStatus := 2
def StatusRetry : CallbackStatus := 3

/-- The struct `CallbackResult`; a nil `Metadata` map is `none`. -/
structure CallbackResult where
  Message : String
  Status : CallbackStatus
  Metadata : Option (GoMap Value)
  RetryAfter : Int

/-- The type `CallbackFunc`: `(transition, from, to, args)` to a result, in a world. -/
abbrev CallbackFunc (σ : Type) :=
  String → String → String → Value → σ → CallbackResult × σ

/-- The struct `transitionConfig`. -/
structure transitionConfig (σ : Type) where
  maxRetries : Int
  backoff : Int → σ → Int × σ

/-- The type `TransitionOption`, a function that edits the configuration. -/
abbrev TransitionOption (σ : Type) := transitionConfig σ → transitionConfig σ

def defaultTransitionConfig {σ : Type} : transitionConfig σ :=
  { maxRetries := 0, backoff := fun _ w => (0, w) }

def WithRetry {σ : Type} (maxRetries : Int) (backoff : Int → σ → Int × σ) :
    TransitionOption σ :=
  fun c => { c with maxRetries := maxRetries, backoff := backoff }

/-! ## repository.go -/

/-- Which context a collaborator is handed: the caller's or `context.Background()`. -/
inductive Ctx where
  | caller
  | background
  deriving DecidableEq, Repr

/-- The interface `Repository`. -/
structure Repository (σ : Type) where
  Save : Ctx → String → String → GoMap Value → σ → Option Error × σ
  Load : Ctx → String → σ → (String × GoMap Value × Option Error) × σ

/-! ## fsm.go -/

/-- The struct `callbacks`. -/
structure callbacks (σ : Type) where
  before : GoMap (CallbackFunc σ)
  after : GoMap (CallbackFunc σ)

/-- The struct `FSM` without its lock; a nil `repo` or `unknownStateHandler` is `none`. -/
structure FSM (σ : Type) where
  id : String
  current : String
  transitions : GoMap (GoMap String)
  metadata : GoMap Value
  repo : Option (Repository σ)
  callbacks : callbacks σ
  unknownStateHandler : Option (String → String → Value → σ → String × σ)

/-- The phase of a hook. -/
inductive Phase where
  | before
  | after
  deriving DecidableEq, Repr

/-- What the ghost log records. -/
inductive Event where
  | attempt (frm condition : String)
  | hook (phase : Phase) (condition frm dst : String) (args : Value) (result : CallbackResult)
  | resolver (frm condition : String) (args : Value) (ret : String)
  | save (ctx : Ctx) (id state : String) (metadata : GoMap Value) (err : Option Error)
  | backoff (attempt : Int) (d : Int)
  | wait (d : Int) (cancelled : Bool)

/-- An entity together with the world around it and the ghost log. -/
structure St (σ : Type) where
  fsm : FSM σ
  world : σ
  trace : List Event

/-- What a `Transition` call is given besides its arguments: the clock (`time.Now`),
the race of `time.After(d)` against `ctx.Done()` (`true` when the context wins) and
`ctx.Err()`. -/
structure Env (σ : Type) where
  now : σ → Nat
  wait : Int → σ → Bool × σ
  ctxErr : σ → CtxError

def New {σ : Type} (id initialState : String) (repo : Option (Repository σ))
    (unknownHandler : Option (String → String → Value → σ → String × σ)) : FSM σ :=
  { id := id
    current := initialState
    transitions := GoMap.empty
    metadata := GoMap.empty
    repo := repo
    callbacks := { before := GoMap.empty, after := GoMap.empty }
    unknownStateHandler := unknownHandler }

def AddTransition {σ : Type} (f : FSM σ) (frm dst condition : String) : FSM σ :=
  let inner : GoMap String :=
    match f.transitions frm with
    | some m => m
    | none => GoMap.empty
  { f with transitions := f.transitions.set frm (inner.set condition dst) }

def RegisterBefore {σ : Type} (f : FSM σ) (condition : String) (cb : CallbackFunc σ) :
    FSM σ :=
  { f with callbacks := { f.callbacks with before := f.callbacks.before.set condition cb } }

def RegisterAfter {σ : Type} (f : FSM σ) (condition : String) (cb : CallbackFunc σ) :
    FSM σ :=
  { f with callbacks := { f.callbacks with after := f.callbacks.after.set condition cb } }

/-- The two-level read `f.transitions[from][condition]` with its `valid` flag. -/
def lookupTransition (t : GoMap (GoMap String)) (frm condition : String) : Option String :=
  match t frm with
  | none => none
  | some m => m condition

def Current {σ : Type} (f : FSM σ) : String := f.current

def Metadata {σ : Type} (f : FSM σ) : GoMap Value := fun k => f.metadata k

def persist {σ : Type} (ctx : Ctx) (s : St σ) : Option Error × St σ :=
  match s.fsm.repo with
  | none => (none, s)
  | some repo =>
    let r := repo.Save ctx s.fsm.id s.fsm.current s.fsm.metadata s.world
    (r.1, { s with
      world := r.2
      trace := s.trace ++ [Event.save ctx s.fsm.id s.fsm.current s.fsm.metadata r.1] })

/-- Ranging over a Go map visits every key once, so the loop of `mergeMetadata` is
the pointwise override of the metadata by the updates. -/
def mergeMetadata {σ : Type} (updates : Option (GoMap Value)) (s : St σ) : St σ :=
  match updates with
  | none => s
  | some u =>
    { s with fsm := { s.fsm with
        metadata := fun k =>
          match u k with
          | some v => some v
          | none => s.fsm.metadata k } }

def handleUnknownState {σ : Type} (env : Env σ) (condition frm : String) (args : Value)
    (s : St σ) : Error × St σ :=
  let s1 : St σ :=
    match s.fsm.unknownStateHandler with
    | none => s
    | some h =>
      let r := h frm condition args s.world
      (persist Ctx.background
        { fsm := { s.fsm with current := r.1 }
          world := r.2
          trace := s.trace ++ [Event.resolver frm condition args r.1] }).2
  (Error.ErrUnknownState,
    { s1 with fsm := { s1.fsm with
        metadata := s1.fsm.metadata.set "unknown_state"
          (Value.obj [("condition", Value.str condition), ("from", Value.str frm),
            ("args", args), ("timestamp", Value.time (env.now s1.world))]) } })

def handleCallbackError {σ : Type} (env : Env σ) (condition frm dst message : String)
    (s : St σ) : Error × St σ :=
  (Error.new message,
    { s with fsm := { s.fsm with
        metadata := s.fsm.metadata.set "callback_error"
          (Value.obj [("condition", Value.str condition), ("from", Value.str frm),
            ("to", Value.str dst), ("error", Value.str message),
            ("timestamp", Value.time (env.now s.world))]) } })

/-- Lines 108-120 of `executeTransition`: the after callback. -/
def executeTransition_after {σ : Type} (env : Env σ) (condition : String) (args : Value)
    (frm dst : String) (s : St σ) : Option Error × St σ :=
  match s.fsm.callbacks.after condition with
  | some cb =>
    let r := cb condition frm dst args s.world
    let s1 : St σ :=
      { s with world := r.2
               trace := s.trace ++ [Event.hook Phase.after condition frm dst args r.1] }
    if r.1.Status = StatusFailure then
      let h := handleCallbackError env condition frm dst r.1.Message s1
      (some h.1, h.2)
    else if r.1.Status = StatusUnknown then
      let h := handleUnknownState env condition frm args s1
      (some h.1, h.2)
    else (none, mergeMetadata r.1.Metadata s1)
  | none => (none, s)

/-- Lines 101-120 of `executeTransition`: change state, persist, roll back when the
save failed, otherwise go on with the after callback. -/
def executeTransition_change {σ : Type} (env : Env σ) (condition : String) (args : Value)
    (frm dst : String) (s : St σ) : Option Error × St σ :=
  let p := persist Ctx.caller { s with fsm := { s.fsm with current := dst } }
  match p.1 with
  | some err =>
    (some (Error.errorf "persistence failed" err),
      { p.2 with fsm := { p.2.fsm with current := frm } })
  | none => executeTransition_after env condition args frm dst p.2

def executeTransition {σ : Type} (env : Env σ) (condition : String) (args : Value)
    (s : St σ) : Option Error × St σ :=
  let frm := s.fsm.current
  let s0 : St σ := { s with trace := s.trace ++ [Event.attempt frm condition] }
  match lookupTransition s0.fsm.transitions frm condition with
  | none => (some Error.ErrInvalidTransition, s0)
  | some dst =>
    match s0.fsm.callbacks.before condition with
    | some cb =>
      let r := cb condition frm dst args s0.world
      let s1 : St σ :=
        { s0 with world := r.2
                  trace := s0.trace ++ [Event.hook Phase.before condition frm dst args r.1] }
      if r.1.Status = StatusFailure then
        let h := handleCallbackError env condition frm dst r.1.Message s1
        (some h.1, h.2)
      else if r.1.Status = StatusUnknown then
        let h := handleUnknownState env condition frm args s1
        (some h.1, h.2)
      else executeTransition_change env condition args frm dst (mergeMetadata r.1.Metadata s1)
    | none => executeTransition_change env condition args frm dst s0

/-- The retry loop of `Transition`, entered with the loop variable at `attempt`. -/
def transitionLoop {σ : Type} (env : Env σ) (config : transitionConfig σ)
    (condition : String) (args : Value) (attempt : Int) (s : St σ) : Option Error × St σ :=
  if attempt ≤ config.maxRetries then
    let x := executeTransition env condition args s
    match x.1 with
    | none => (none, x.2)
    | some err =>
      if Error.Is err Error.ErrUnknownState then
        (some (Error.errorf "operation aborted due to unknown state" err), x.2)
      else if attempt < config.maxRetries then
        let b := config.backoff attempt x.2.world
        let w := env.wait b.1 b.2
        let s2 : St σ :=
          { x.2 with world := w.2
                     trace := x.2.trace ++ [Event.backoff attempt b.1, Event.wait b.1 w.1] }
        if w.1 then (some (Error.context (env.ctxErr w.2)), s2)
        else transitionLoop env config condition args (attempt + 1) s2
      else transitionLoop env config condition args (attempt + 1) x.2
  else (some Error.ErrMaxRetriesExceeded, s)
termination_by (config.maxRetries + 1 - attempt).toNat
decreasing_by
  all_goals simp_wf
  all_goals omega

/-- Lines 53-56 of `Transition`: the options are applied, in order, to the default
configuration. -/
def applyOptions {σ : Type} (opts : List (TransitionOption σ)) : transitionConfig σ :=
  opts.foldl (fun c opt => opt c) defaultTransitionConfig

def Transition {σ : Type} (env : Env σ) (condition : String) (args : Value)
    (opts : List (TransitionOption σ)) (s : St σ) : Option Error × St σ :=
  transitionLoop env (applyOptions opts) condition args 0 s

/-! ## Reading the ghost log -/

def Event.isAttempt : Event → Bool
  | .attempt _ _ => true
  | _ => false

def Event.isHook : Event → Bool
  | .hook _ _ _ _ _ _ => true
  | _ => false

def Event.isBeforeHook : Event → Bool
  | .hook Phase.before _ _ _ _ _ => true
  | _ => false

def Event.isSave : Event → Bool
  | .save _ _ _ _ _ => true
  | _ => false

def Event.isBackoff : Event → Bool
  | .backoff _ _ => true
  | _ => false

def Event.isWait : Event → Bool
  | .wait _ _ => true
  | _ => false

/-- How many times `executeTransition` was entered. -/
def attemptCalls (t : List Event) : Nat := t.countP Event.isAttempt

/-- How many times a hook of either phase was invoked. -/
def hookCalls (t : List Event) : Nat := t.countP Event.isHook

/-- How many times a before-hook was invoked. -/
def beforeHookCalls (t : List Event) : Nat := t.countP Event.isBeforeHook

/-- How many times the storage collaborator was asked to save. -/
def saveCalls (t : List Event) : Nat := t.countP Event.isSave

/-- How many times the backoff function was consulted. -/
def backoffCalls (t : List Event) : Nat := t.countP Event.isBackoff

/-- How many times the call waited. -/
def waitCalls (t : List Event) : Nat := t.countP Event.isWait

/-! ## Auxiliary definitions for the statements -/

/-- The state in which the loop leaves a failed attempt once it has consulted the
backoff function and waited. -/
def afterWait {σ : Type} (env : Env σ) (config : transitionConfig σ) (attempt : Int) (s1 : St σ) : St σ :=
  let b := config.backoff attempt s1.world
  let w := env.wait b.1 b.2
  { s1 with world := w.2
            trace := s1.trace ++ [Event.backoff attempt b.1, Event.wait b.1 w.1] }

/-- Whether the context wins the wait that follows a failed attempt. -/
def cancelledAt {σ : Type} (env : Env σ) (config : transitionConfig σ) (attempt : Int) (s1 : St σ) : Bool :=
  (env.wait (config.backoff attempt s1.world).1 (config.backoff attempt s1.world).2).1

/-- The part of an entity that no attempt changes: everything but `current` and
`metadata`. -/
def sameSetup {σ : Type} (f g : FSM σ) : Prop :=
  g.id = f.id ∧ g.transitions = f.transitions ∧ g.repo = f.repo ∧
    g.callbacks = f.callbacks ∧ g.unknownStateHandler = f.unknownStateHandler

/-- The state right after `executeTransition` was entered. -/
def entered {σ : Type} (condition : String) (s : St σ) : St σ :=
  { s with trace := s.trace ++ [Event.attempt s.fsm.current condition] }

/-- The state right after a hook returned `r`. -/
def hooked {σ : Type} (phase : Phase) (condition frm dst : String) (args : Value)
    (r : CallbackResult × σ) (s : St σ) : St σ :=
  { s with world := r.2
           trace := s.trace ++ [Event.hook phase condition frm dst args r.1] }

/-- The state handed to `persist` by `executeTransition`. -/
def moved {σ : Type} (dst : String) (s : St σ) : St σ :=
  { s with fsm := { s.fsm with current := dst } }

/-- No after-hook registered for the condition ever reports failure. -/
def afterNeverFails {σ : Type} (f : FSM σ) (condition : String) : Prop :=
  ∀ cb, f.callbacks.after condition = some cb →
    ∀ frm dst args w, (cb condition frm dst args w).1.Status ≠ StatusFailure

/-- The four ways a run of the retry loop ends, when every loop head `(k, s)` it
passes through satisfies `P k s`. -/
inductive Finished {σ : Type} (env : Env σ) (config : transitionConfig σ)
    (condition : String) (args : Value) (P : Int → St σ → Prop) : Option Error × St σ → Prop where
  | exhausted (k : Int) (s : St σ) (hk : config.maxRetries < k) (hP : P k s) :
      Finished env config condition args P (some Error.ErrMaxRetriesExceeded, s)
  | ok (k : Int) (s : St σ) (hk : k ≤ config.maxRetries) (hP : P k s)
      (hx : (executeTransition env condition args s).1 = none) :
      Finished env config condition args P (none, (executeTransition env condition args s).2)
  | unknown (k : Int) (s : St σ) (e : Error) (hk : k ≤ config.maxRetries) (hP : P k s)
      (hx : (executeTransition env condition args s).1 = some e)
      (hu : Error.Is e Error.ErrUnknownState = true) :
      Finished env config condition args P (some (Error.errorf "operation aborted due to unknown state" e),
        (executeTransition env condition args s).2)
  | cancelled (k : Int) (s : St σ) (e : Error) (hk : k < config.maxRetries) (hP : P k s)
      (hx : (executeTransition env condition args s).1 = some e)
      (hu : Error.Is e Error.ErrUnknownState = false)
      (hc : cancelledAt env config k (executeTransition env condition args s).2 = true) :
      Finished env config condition args P
        (some (Error.context (env.ctxErr
            (afterWait env config k (executeTransition env condition args s).2).world)),
          afterWait env config k (executeTransition env condition args s).2)

/-- The loop head `(k', s')` is reached from the loop head `(k, s)`: every attempt in
between failed with an error other than unknown-state and was followed by a wait
that the timer won. -/
inductive Reaches {σ : Type} (env : Env σ) (config : transitionConfig σ)
    (condition : String) (args : Value) : Int → St σ → Int → St σ → Prop where
  | here (k : Int) (s : St σ) : Reaches env config condition args k s k s
  | retry (k : Int) (s : St σ) (e : Error) (k' : Int) (s' : St σ)
      (hk : k < config.maxRetries)
      (hx : (executeTransition env condition args s).1 = some e)
      (hu : Error.Is e Error.ErrUnknownState = false)
      (hc : cancelledAt env config k (executeTransition env condition args s).2 = false)
      (hr : Reaches env config condition args (k + 1)
        (afterWait env config k (executeTransition env condition args s).2) k' s') :
      Reaches env config condition args k s k' s'

/-- The entity has a storage collaborator whose `Save` fails whatever it is given. -/
def saveAlwaysFails {σ : Type} (f : FSM σ) : Prop :=
  ∃ repo, f.repo = some repo ∧ ∀ ctx id state m w, (repo.Save ctx id state m w).1 ≠ none

/-- No before-hook registered for the condition ever reports unknown. -/
def beforeNeverUnknown {σ : Type} (f : FSM σ) (condition : String) : Prop :=
  ∀ cb, f.callbacks.before condition = some cb →
    ∀ frm dst args w, (cb condition frm dst args w).1.Status ≠ StatusUnknown

def Event.isFailedSave : Event → Bool
  | .save _ _ _ _ (some _) => true
  | _ => false

/-- How many times the storage collaborator was asked to save and failed. -/
def failedSaveCalls (t : List Event) : Nat := t.countP Event.isFailedSave

/-- The result a logged hook invocation returned. -/
def Event.result : Event → Option CallbackResult
  | .hook _ _ _ _ _ r => some r
  | _ => none

/-- Every hook invocation logged in `l` returned the metadata delta `D`. -/
def hooksReturn (D : GoMap Value) (l : List Event) : Prop :=
  ∀ e ∈ l, ∀ r, e.result = some r → r.Metadata = some D

/-- No hook invocation logged in `l` reported failure. -/
def noHookFailed (l : List Event) : Prop :=
  ∀ e ∈ l, ∀ r, e.result = some r → r.Status ≠ StatusFailure

/-- A hook of either phase is registered for the condition. -/
def hasHook {σ : Type} (f : FSM σ) (condition : String) : Prop :=
  f.callbacks.before condition ≠ none ∨ f.callbacks.after condition ≠ none

/-- Every key of `D` is in the metadata of `f`, with the value `D` gives it. -/
def holdsDelta {σ : Type} (D : GoMap Value) (f : FSM σ) : Prop :=
  ∀ k v, D k = some v → f.metadata k = some v

/-- The attempt that starts in `s` finds the destination `dst` and gets past its
before-hook phase: no before-hook is registered, or the one registered reports
neither failure nor unknown and its delta is merged.  It goes on in state `s1`. -/
def passesBefore {σ : Type} (condition : String) (args : Value) (s : St σ) (dst : String)
    (s1 : St σ) : Prop :=
  lookupTransition s.fsm.transitions s.fsm.current condition = some dst ∧
  ((s.fsm.callbacks.before condition = none ∧ s1 = entered condition s) ∨
    ∃ cb, s.fsm.callbacks.before condition = some cb ∧
      (cb condition s.fsm.current dst args s.world).1.Status ≠ StatusFailure ∧
      (cb condition s.fsm.current dst args s.world).1.Status ≠ StatusUnknown ∧
      s1 = mergeMetadata (cb condition s.fsm.current dst args s.world).1.Metadata
        (hooked Phase.before condition s.fsm.current dst args
          (cb condition s.fsm.current dst args s.world) (entered condition s)))

/-- The attempt that starts in `s` finds the destination `dst`, gets past its
before-hook phase and its save succeeds: it reaches the after-hook phase in state `s2`,
with the change to `dst` committed. -/
def commits {σ : Type} (condition : String) (args : Value) (s : St σ) (dst : String)
    (s2 : St σ) : Prop :=
  ∃ s1, passesBefore condition args s dst s1 ∧
    (persist Ctx.caller (moved dst s1)).1 = none ∧
    s2 = (persist Ctx.caller (moved dst s1)).2

def Event.isAfterHook : Event → Bool
  | .hook Phase.after _ _ _ _ _ => true
  | _ => false

/-- How many times an after-hook was invoked. -/
def afterHookCalls (t : List Event) : Nat := t.countP Event.isAfterHook

/-- The field `k` of a record value (a `map[string]interface{}` literal). -/
def Value.field : Value → String → Option Value
  | .obj fields, k => fields.lookup k
  | _, _ => none

/-- The keys of a record value. -/
def Value.keys : Value → List String
  | .obj fields => fields.map Prod.fst
  | _ => []

/-- The field `states` of a `MemoryRepository`: per id, the saved state and metadata. -/
abbrev MemoryStates := GoMap (String × GoMap Value)

/-- The methods of `MemoryRepository`, acting on its field `states`.  `Save` stores a
copy of the metadata, so the record is the map as it was when `Save` was called. -/
def MemoryRepository : Repository MemoryStates :=
  { Save := fun _ id state metadata w => (none, w.set id (state, fun k => metadata k))
    Load := fun _ id w =>
      match w id with
      | none => (("", GoMap.empty, some Error.ErrNotFound), w)
      | some data => ((data.1, (fun k => data.2 k), none), w) }

/-- The field `states` of the repository `NewMemoryRepository()` returns. -/
def NewMemoryRepository : MemoryStates := GoMap.empty

/-- Whether the logged event wrote the metadata key `k`: a hook that reported
failure made the engine write `callback_error`, one that reported unknown made it
write `unknown_state`, and any other hook result had its delta merged. -/
def Event.writes (k : String) : Event → Bool
  | .hook _ _ _ _ _ r =>
    if r.Status = StatusFailure then decide (k = "callback_error")
    else if r.Status = StatusUnknown then decide (k = "unknown_state")
    else
      match r.Metadata with
      | some D => (D k).isSome
      | none => false
  | _ => false

/-- The chain `errors.Unwrap` walks: the error itself, then what it wraps. -/
def Error.chain : Error → List Error
  | .errorf text wrapped => .errorf text wrapped :: Error.chain wrapped
  | e => [e]

/-! ### Two runs that differ in what the hooks return besides the status -/

/-- Two hooks report the same status whenever they are invoked with the same
arguments in worlds related by `R`, and leave related worlds. -/
def sameStatus {σ : Type} (R : σ → σ → Prop) (cb1 cb2 : CallbackFunc σ) : Prop :=
  ∀ c frm dst a w1 w2, R w1 w2 →
    (cb1 c frm dst a w1).1.Status = (cb2 c frm dst a w2).1.Status ∧
    R (cb1 c frm dst a w1).2 (cb2 c frm dst a w2).2

/-- Two registries agree on the condition: both have no hook for it, or both have
one and the two report the same statuses. -/
def hooksAgree {σ : Type} (R : σ → σ → Prop) (h1 h2 : GoMap (CallbackFunc σ))
    (condition : String) : Prop :=
  match h1 condition, h2 condition with
  | none, none => True
  | some cb1, some cb2 => sameStatus R cb1 cb2
  | _, _ => False

/-- Two storage collaborators have the same outcomes: both are nil, or `Save` returns
the same error in related worlds, whatever metadata it is given. -/
def storageAgrees {σ : Type} (R : σ → σ → Prop) (r1 r2 : Option (Repository σ)) : Prop :=
  match r1, r2 with
  | none, none => True
  | some a, some b =>
    ∀ ctx id state m1 m2 w1 w2, R w1 w2 →
      (a.Save ctx id state m1 w1).1 = (b.Save ctx id state m2 w2).1 ∧
      R (a.Save ctx id state m1 w1).2 (b.Save ctx id state m2 w2).2
  | _, _ => False

/-- Two resolvers agree: both are nil, or they return the same state in related
worlds. -/
def resolverAgrees {σ : Type} (R : σ → σ → Prop)
    (h1 h2 : Option (String → String → Value → σ → String × σ)) : Prop :=
  match h1, h2 with
  | none, none => True
  | some a, some b =>
    ∀ frm c args w1 w2, R w1 w2 →
      (a frm c args w1).1 = (b frm c args w2).1 ∧ R (a frm c args w1).2 (b frm c args w2).2
  | _, _ => False

/-- Two states of two runs are related: same id, table and current state, agreeing
storage, hooks and resolver, and related worlds.  Nothing is asked of the metadata,
nor of the messages, deltas and retry delays the hooks return. -/
def related {σ : Type} (R : σ → σ → Prop) (condition : String) (s1 s2 : St σ) : Prop :=
  s1.fsm.id = s2.fsm.id ∧ s1.fsm.transitions = s2.fsm.transitions ∧
  s1.fsm.current = s2.fsm.current ∧
  storageAgrees R s1.fsm.repo s2.fsm.repo ∧
  hooksAgree R s1.fsm.callbacks.before s2.fsm.callbacks.before condition ∧
  hooksAgree R s1.fsm.callbacks.after s2.fsm.callbacks.after condition ∧
  resolverAgrees R s1.fsm.unknownStateHandler s2.fsm.unknownStateHandler ∧
  R s1.world s2.world

/-- The cancellation behaviour and the backoff function do not tell related worlds
apart. -/
def respects {σ : Type} (R : σ → σ → Prop) (env : Env σ) (config : transitionConfig σ) :
    Prop :=
  (∀ d w1 w2, R w1 w2 →
    (env.wait d w1).1 = (env.wait d w2).1 ∧ R (env.wait d w1).2 (env.wait d w2).2) ∧
  (∀ w1 w2, R w1 w2 → env.ctxErr w1 = env.ctxErr w2) ∧
  (∀ k w1 w2, R w1 w2 →
    (config.backoff k w1).1 = (config.backoff k w2).1 ∧
    R (config.backoff k w1).2 (config.backoff k w2).2)

/-- Two attempts have the same outcome as far as the retry loop can tell: both
succeed, or both fail, both with or both without unknown-state, and with the same
error when it is unknown-state. -/
def sameOutcome (e1 e2 : Option Error) : Prop :=
  match e1, e2 with
  | none, none => True
  | some a, some b =>
    Error.Is a Error.ErrUnknownState = Error.Is b Error.ErrUnknownState ∧
    (Error.Is a Error.ErrUnknownState = true → a = b)
  | _, _ => False

/-- The state `handleUnknownState` reaches before it records its diagnostic: the
resolver, when there is one, has set the current state and the best-effort save is
done. -/
def resolved {σ : Type} (condition frm : String) (args : Value) (s : St σ) : St σ :=
  match s.fsm.unknownStateHandler with
  | none => s
  | some h =>
    (persist Ctx.background
      { fsm := { s.fsm with current := (h frm condition args s.world).1 }
        world := (h frm condition args s.world).2
        trace := s.trace ++ [Event.resolver frm condition args
          (h frm condition args s.world).1] }).2

/-! ## Example entities -/

/-- A context that is never cancelled, with the clock stuck at zero. -/
def quietEnv : Env Unit :=
  { now := fun _ => 0, wait := fun _ w => (false, w), ctxErr := fun _ => CtxError.Canceled }

/-- A backoff function that asks for no delay. -/
def noDelay : Int → Unit → Int × Unit := fun _ w => (0, w)

/-- The table of `examples/processing_orders.go` on an entity without storage,
resolver or hooks. -/
def orderFSM : FSM Unit :=
  AddTransition
    (AddTransition
      (AddTransition (New "order-123" "created" none none) "created" "processing" "process")
      "processing" "done" "final")
    "error" "created" "reset"

/-- The entity `orderFSM` at rest: nothing logged yet. -/
def orderSt : St Unit := { fsm := orderFSM, world := (), trace := [] }

/-- The before-hook of `examples/processing_orders.go` on the branch where the
external service times out. -/
def timeoutHook : CallbackFunc Unit := fun _ _ _ _ w =>
  ({ Message := "connection timeout"
     Status := StatusUnknown
     Metadata := some ((GoMap.empty.set "service" (Value.str "payment_gateway")).set
       "error" (Value.str "connection timeout"))
     RetryAfter := 0 }, w)

/-- The resolver of `examples/processing_orders.go`: it moves to `error`. -/
def unknownHandler : String → String → Value → Unit → String × Unit :=
  fun _ _ _ w => ("error", w)

/-- A storage collaborator whose `Save` always fails. -/
def failingRepo : Repository Unit :=
  { Save := fun _ _ _ _ w => (some (Error.external "disk full"), w)
    Load := fun _ _ w => (("", GoMap.empty, some Error.ErrNotFound), w) }

/-- The entity of `examples/processing_orders.go`, with its resolver and its
before-hook on `process`, on a storage that is forced to fail. -/
def gatewaySt : St Unit :=
  { fsm := RegisterBefore
      (AddTransition (New "order-123" "created" (some failingRepo) (some unknownHandler))
        "created" "processing" "process")
      "process" timeoutHook
    world := ()
    trace := [] }

/-- A before-hook that always reports failure. -/
def refusingHook : CallbackFunc Unit := fun _ _ _ _ w =>
  ({ Message := "refused", Status := StatusFailure, Metadata := none, RetryAfter := 0 }, w)

/-- The entity `orderFSM` with `refusingHook` before `process`. -/
def refusedSt : St Unit :=
  { fsm := RegisterBefore orderFSM "process" refusingHook, world := (), trace := [] }

/-- An after-hook that reports failure for transitions out of `created` only. -/
def lateHook : CallbackFunc Unit := fun _ frm _ _ w =>
  ({ Message := "not yet"
     Status := if frm = "created" then StatusFailure else StatusSuccess
     Metadata := none
     RetryAfter := 0 }, w)

/-- An entity whose condition `next` leads from `created` to `processing` and from
`processing` to `done`, with `lateHook` after `next`. -/
def relaySt : St Unit :=
  { fsm := RegisterAfter
      (AddTransition
        (AddTransition (New "order-123" "created" none none) "created" "processing" "next")
        "processing" "done" "next")
      "next" lateHook
    world := ()
    trace := [] }

/-- The entity `orderFSM` on a storage that is forced to fail. -/
def stuckSt : St Unit :=
  { fsm := AddTransition (New "order-123" "created" (some failingRepo) none)
      "created" "processing" "process"
    world := ()
    trace := [] }

/-- A metadata delta that happens to use the key `callback_error`. -/
def noteDelta : GoMap Value := GoMap.empty.set "callback_error" (Value.str "none")

/-- A metadata delta with the single key `stage`. -/
def stageDelta : GoMap Value := GoMap.empty.set "stage" (Value.str "shipping")

/-- A before-hook that succeeds and returns `noteDelta`. -/
def noteHook : CallbackFunc Unit := fun _ _ _ _ w =>
  ({ Message := "", Status := StatusSuccess, Metadata := some noteDelta, RetryAfter := 0 }, w)

/-- A before-hook that succeeds and returns `stageDelta`. -/
def stageHook : CallbackFunc Unit := fun _ _ _ _ w =>
  ({ Message := "", Status := StatusSuccess, Metadata := some stageDelta, RetryAfter := 0 }, w)

/-- An after-hook that returns `stageDelta` and reports failure for transitions out
of `created` only. -/
def lateStageHook : CallbackFunc Unit := fun _ frm _ _ w =>
  ({ Message := "not yet"
     Status := if frm = "created" then StatusFailure else StatusSuccess
     Metadata := some stageDelta
     RetryAfter := 0 }, w)

/-- An entity in state `draft`: `open` leads to `created` (before-hook `noteHook`),
`process` leads from `created` to `processing` (before-hook `stageHook`), and `next`
leads from `created` to `processing` and on to `done` (after-hook `lateStageHook`). -/
def parcelSt : St Unit :=
  { fsm := RegisterAfter
      (RegisterBefore
        (RegisterBefore
          (AddTransition
            (AddTransition
              (AddTransition
                (AddTransition (New "parcel-7" "draft" none none) "draft" "created" "open")
                "created" "processing" "process")
              "created" "processing" "next")
            "processing" "done" "next")
          "open" noteHook)
        "process" stageHook)
      "next" lateStageHook
    world := ()
    trace := [] }

/-- The entity `parcelSt` after `open` succeeded on its first attempt. -/
def parcelOpened : St Unit := (executeTransition quietEnv "open" Value.nil parcelSt).2

/-- What the call `open` on `parcelSt` logs. -/
def openEvents : List Event :=
  [Event.attempt "draft" "open",
   Event.hook Phase.before "open" "draft" "created" Value.nil
     (noteHook "open" "draft" "created" Value.nil ()).1]

/-- What the call `process` on `parcelOpened` logs. -/
def processEvents : List Event :=
  [Event.attempt "created" "process",
   Event.hook Phase.before "process" "created" "processing" Value.nil
     (stageHook "process" "created" "processing" Value.nil ()).1]

/-- What the call `next` with one retry on `parcelOpened` logs. -/
def nextEvents : List Event :=
  [Event.attempt "created" "next",
   Event.hook Phase.after "next" "created" "processing" Value.nil
     (lateStageHook "next" "created" "processing" Value.nil ()).1,
   Event.backoff 0 0,
   Event.wait 0 false,
   Event.attempt "processing" "next",
   Event.hook Phase.after "next" "processing" "done" Value.nil
     (lateStageHook "next" "processing" "done" Value.nil ()).1]

/-- A context that is cancelled during every wait. -/
def cancellingEnv : Env Unit :=
  { now := fun _ => 0, wait := fun _ w => (true, w), ctxErr := fun _ => CtxError.Canceled }

/-- A storage collaborator on which every `Save` succeeds. -/
def acceptingRepo : Repository Unit :=
  { Save := fun _ _ _ _ w => (none, w)
    Load := fun _ _ w => (("", GoMap.empty, some Error.ErrNotFound), w) }

/-- The entity of `examples/processing_orders.go` with its resolver, on a storage
that accepts every save, with the hook that times out registered after `process`. -/
def auditSt : St Unit :=
  { fsm := RegisterAfter
      (AddTransition (New "order-123" "created" (some acceptingRepo) (some unknownHandler))
        "created" "processing" "process")
      "process" timeoutHook
    world := ()
    trace := [] }

/-- The entity `auditSt` constructed without a resolver. -/
def auditNoResolverSt : St Unit :=
  { fsm := RegisterAfter
      (AddTransition (New "order-123" "created" (some acceptingRepo) none)
        "created" "processing" "process")
      "process" timeoutHook
    world := ()
    trace := [] }

/-- The entity of `examples/processing_orders.go` without resolver and storage, with
the hook that times out registered before `process`. -/
def gatewayNoResolverSt : St Unit :=
  { fsm := RegisterBefore
      (AddTransition (New "order-123" "created" none none) "created" "processing" "process")
      "process" timeoutHook
    world := ()
    trace := [] }

/-- The state in which the attempt `process` on `auditSt` reaches its after-hook:
the change to `processing` is saved. -/
def auditCommitted : St Unit :=
  (persist Ctx.caller (moved "processing" (entered "process" auditSt))).2

/-- The state in which the attempt `process` on `auditNoResolverSt` reaches its
after-hook. -/
def auditNoResolverCommitted : St Unit :=
  (persist Ctx.caller (moved "processing" (entered "process" auditNoResolverSt))).2

/-- The first argument of a logged resolver invocation. -/
def Event.resolverArg : Event → Option String
  | .resolver frm _ _ _ => some frm
  | _ => none

/-- The entity `stuckSt`, on a storage that is forced to fail, with `stageHook`
before `process`. -/
def stuckStageSt : St Unit :=
  { fsm := RegisterBefore stuckSt.fsm "process" stageHook, world := (), trace := [] }

/-- The record the attempt `process` on `gatewayNoResolverSt` leaves under
`unknown_state`. -/
def timeoutRecord : Value :=
  Value.obj [("condition", Value.str "process"), ("from", Value.str "created"),
    ("args", Value.nil), ("timestamp", Value.time 0)]

/-- The entity `parcelSt` on a fresh `MemoryRepository`: `process` has the before-hook
`stageHook`, here acting in the world of the repository. -/
def storedSt : St MemoryStates :=
  { fsm := RegisterBefore
      (AddTransition (New "parcel-7" "created" (some MemoryRepository) none)
        "created" "processing" "process")
      "process"
      (fun _ _ _ _ w =>
        ({ Message := "", Status := StatusSuccess, Metadata := some stageDelta,
           RetryAfter := 0 }, w))
    world := NewMemoryRepository
    trace := [] }

/-- A context that is never cancelled, in the world of a `MemoryRepository`. -/
def storedEnv : Env MemoryStates :=
  { now := fun _ => 0, wait := fun _ w => (false, w), ctxErr := fun _ => CtxError.Canceled }

/-- A storage collaborator whose `Save` fails with an error of its own that wraps
`ErrUnknownState`. -/
def offlineRepo : Repository Unit :=
  { Save := fun _ _ _ _ w => (some (Error.errorf "disk offline" Error.ErrUnknownState), w)
    Load := fun _ _ w => (("", GoMap.empty, some Error.ErrNotFound), w) }

/-- The table of the example on `offlineRepo`, without hooks and resolver. -/
def offlineSt : St Unit :=
  { fsm := AddTransition (New "order-123" "created" (some offlineRepo) none)
      "created" "processing" "process"
    world := ()
    trace := [] }

/-- A before-hook that always reports failure, like `refusingHook`, with another
message, a metadata delta and a retry delay. -/
def verboseRefusingHook : CallbackFunc Unit := fun _ _ _ _ w =>
  ({ Message := "try again later", Status := StatusFailure, Metadata := some stageDelta,
     RetryAfter := 30 }, w)

/-- The entity `orderFSM` with `verboseRefusingHook` before `process`. -/
def verboseRefusedSt : St Unit :=
  { fsm := RegisterBefore orderFSM "process" verboseRefusingHook, world := (), trace := [] }

/-! ## One turn of the retry loop -/

section Loop

variable {σ : Type} (env : Env σ) (config : transitionConfig σ) (condition : String)
  (args : Value)

theorem transitionLoop_exit (attempt : Int) (s : St σ) (h : ¬ attempt ≤ config.maxRetries) :
    transitionLoop env config condition args attempt s
      = (some Error.ErrMaxRetriesExceeded, s) := by
  rw [transitionLoop, if_neg h]

theorem transitionLoop_ok (attempt : Int) (s : St σ) (h : attempt ≤ config.maxRetries)
    (hx : (executeTransition env condition args s).1 = none) :
    transitionLoop env config condition args attempt s
      = (none, (executeTransition env condition args s).2) := by
  rw [transitionLoop, if_pos h]
  simp only [hx]

theorem transitionLoop_unknown (attempt : Int) (s : St σ) (e : Error)
    (h : attempt ≤ config.maxRetries)
    (hx : (executeTransition env condition args s).1 = some e)
    (hu : Error.Is e Error.ErrUnknownState = true) :
    transitionLoop env config condition args attempt s
      = (some (Error.errorf "operation aborted due to unknown state" e),
          (executeTransition env condition args s).2) := by
  rw [transitionLoop, if_pos h]
  simp only [hx, hu, if_true]

theorem transitionLoop_cancel (attempt : Int) (s : St σ) (e : Error)
    (h : attempt < config.maxRetries)
    (hx : (executeTransition env condition args s).1 = some e)
    (hu : Error.Is e Error.ErrUnknownState = false)
    (hc : cancelledAt env config attempt (executeTransition env condition args s).2 = true) :
    transitionLoop env config condition args attempt s
      = (some (Error.context (env.ctxErr
            (afterWait env config attempt (executeTransition env condition args s).2).world)),
          afterWait env config attempt (executeTransition env condition args s).2) := by
  rw [transitionLoop, if_pos (le_of_lt h)]
  simp only [cancelledAt] at hc
  simp [hx, hu, h, hc, afterWait]

theorem transitionLoop_retry (attempt : Int) (s : St σ) (e : Error)
    (h : attempt < config.maxRetries)
    (hx : (executeTransition env condition args s).1 = some e)
    (hu : Error.Is e Error.ErrUnknownState = false)
    (hc : cancelledAt env config attempt (executeTransition env condition args s).2 = false) :
    transitionLoop env config condition args attempt s
      = transitionLoop env config condition args (attempt + 1)
          (afterWait env config attempt (executeTransition env condition args s).2) := by
  rw [transitionLoop, if_pos (le_of_lt h)]
  simp only [cancelledAt] at hc
  simp [hx, hu, h, hc, afterWait]

theorem transitionLoop_last (s : St σ) (e : Error)
    (hx : (executeTransition env condition args s).1 = some e)
    (hu : Error.Is e Error.ErrUnknownState = false) :
    transitionLoop env config condition args config.maxRetries s
      = (some Error.ErrMaxRetriesExceeded, (executeTransition env condition args s).2) := by
  rw [transitionLoop, if_pos (le_refl _)]
  simp only [hx, hu, lt_irrefl, if_false]
  rw [transitionLoop_exit]
  · simp
  · omega

end Loop

/-! ## One attempt -/

section Attempt

variable {σ : Type} (env : Env σ) (condition : String) (args : Value)

theorem sameSetup_refl (f : FSM σ) : sameSetup f f := ⟨rfl, rfl, rfl, rfl, rfl⟩

theorem sameSetup_trans {f g h : FSM σ} (a : sameSetup f g) (b : sameSetup g h) :
    sameSetup f h :=
  ⟨b.1.trans a.1, b.2.1.trans a.2.1, b.2.2.1.trans a.2.2.1, b.2.2.2.1.trans a.2.2.2.1,
    b.2.2.2.2.trans a.2.2.2.2⟩

theorem persist_fsm (ctx : Ctx) (s : St σ) : (persist ctx s).2.fsm = s.fsm := by
  unfold persist
  cases s.fsm.repo <;> rfl

theorem persist_hookCalls (ctx : Ctx) (s : St σ) :
    hookCalls (persist ctx s).2.trace = hookCalls s.trace := by
  unfold persist
  cases s.fsm.repo <;> simp [hookCalls, Event.isHook]

theorem executeTransition_invalid (s : St σ)
    (h : lookupTransition s.fsm.transitions s.fsm.current condition = none) :
    executeTransition env condition args s
      = (some Error.ErrInvalidTransition,
          { s with trace := s.trace ++ [Event.attempt s.fsm.current condition] }) := by
  unfold executeTransition
  simp only [h]

theorem handleUnknownState_sameSetup (frm : String) (s : St σ) :
    sameSetup s.fsm (handleUnknownState env condition frm args s).2.fsm := by
  unfold handleUnknownState
  cases h : s.fsm.unknownStateHandler <;> simp [sameSetup, persist_fsm]

theorem executeTransition_after_sameSetup (frm dst : String) (s : St σ) :
    sameSetup s.fsm (executeTransition_after env condition args frm dst s).2.fsm := by
  unfold executeTransition_after
  split
  · dsimp only
    split
    · simp [sameSetup, handleCallbackError]
    · split
      · exact handleUnknownState_sameSetup env condition args frm _
      · unfold mergeMetadata
        split <;> simp [sameSetup]
  · exact sameSetup_refl _

theorem executeTransition_change_sameSetup (frm dst : String) (s : St σ) :
    sameSetup s.fsm (executeTransition_change env condition args frm dst s).2.fsm := by
  unfold executeTransition_change
  dsimp only
  split
  · simp [sameSetup, persist_fsm]
  · refine sameSetup_trans ?_ (executeTransition_after_sameSetup env condition args frm dst _)
    simp [sameSetup, persist_fsm]

theorem executeTransition_sameSetup (s : St σ) :
    sameSetup s.fsm (executeTransition env condition args s).2.fsm := by
  unfold executeTransition
  dsimp only
  split
  · exact sameSetup_refl _
  · split
    · split
      · simp [sameSetup, handleCallbackError]
      · split
        · exact handleUnknownState_sameSetup env condition args _ _
        · refine sameSetup_trans ?_
            (executeTransition_change_sameSetup env condition args _ _ _)
          unfold mergeMetadata
          split <;> simp [sameSetup]
    · exact executeTransition_change_sameSetup env condition args _ _ _

end Attempt

/-! ## The retry loop on an unregistered condition -/

section Invalid

variable {σ : Type} (env : Env σ) (config : transitionConfig σ) (condition : String)
  (args : Value)

theorem afterWait_fsm (attempt : Int) (s : St σ) :
    (afterWait env config attempt s).fsm = s.fsm := rfl

theorem afterWait_trace (attempt : Int) (s : St σ) :
    (afterWait env config attempt s).trace
      = s.trace ++ [Event.backoff attempt (config.backoff attempt s.world).1,
          Event.wait (config.backoff attempt s.world).1
            (cancelledAt env config attempt s)] := rfl

theorem Is_invalid_unknown :
    Error.Is Error.ErrInvalidTransition Error.ErrUnknownState = false := by
  simp [Error.Is]

/-- Whatever the context does, a call on an unregistered condition leaves the
entity as it was, invokes no hook and no save, and returns `ErrMaxRetriesExceeded`
or the context's error. -/
theorem transitionLoop_invalid (n : Nat) : ∀ (attempt : Int) (s : St σ),
    (config.maxRetries + 1 - attempt).toNat = n →
    lookupTransition s.fsm.transitions s.fsm.current condition = none →
    (transitionLoop env config condition args attempt s).2.fsm = s.fsm ∧
    ((transitionLoop env config condition args attempt s).1
        = some Error.ErrMaxRetriesExceeded ∨
      ∃ c, (transitionLoop env config condition args attempt s).1
        = some (Error.context c)) ∧
    hookCalls (transitionLoop env config condition args attempt s).2.trace
      = hookCalls s.trace ∧
    saveCalls (transitionLoop env config condition args attempt s).2.trace
      = saveCalls s.trace := by
  induction n with
  | zero =>
    intro attempt s hn _
    have h : ¬ attempt ≤ config.maxRetries := by omega
    rw [transitionLoop_exit env config condition args attempt s h]
    exact ⟨rfl, Or.inl rfl, rfl, rfl⟩
  | succ n ih =>
    intro attempt s hn hl
    have hx := executeTransition_invalid env condition args s hl
    have hx1 : (executeTransition env condition args s).1
        = some Error.ErrInvalidTransition := by rw [hx]
    rcases lt_or_eq_of_le (show attempt ≤ config.maxRetries by omega) with hlt | heq
    · cases hc : cancelledAt env config attempt (executeTransition env condition args s).2
      · rw [transitionLoop_retry env config condition args attempt s _ hlt hx1
          Is_invalid_unknown hc]
        have hn' : (config.maxRetries + 1 - (attempt + 1)).toNat = n := by omega
        have := ih (attempt + 1)
          (afterWait env config attempt (executeTransition env condition args s).2) hn'
          (by rw [afterWait_fsm, hx]; exact hl)
        rw [afterWait_fsm, afterWait_trace, hx] at this
        rw [hx]
        refine ⟨this.1, this.2.1, ?_, ?_⟩
        · rw [this.2.2.1]
          simp [hookCalls, Event.isHook]
        · rw [this.2.2.2]
          simp [saveCalls, Event.isSave]
      · rw [transitionLoop_cancel env config condition args attempt s _ hlt hx1
          Is_invalid_unknown hc]
        refine ⟨?_, Or.inr ⟨_, rfl⟩, ?_, ?_⟩
        · rw [afterWait_fsm, hx]
        · rw [afterWait_trace, hx]
          simp [hookCalls, Event.isHook]
        · rw [afterWait_trace, hx]
          simp [saveCalls, Event.isSave]
    · subst heq
      rw [transitionLoop_last env config condition args s _ hx1 Is_invalid_unknown, hx]
      refine ⟨rfl, Or.inl rfl, ?_, ?_⟩
      · simp [hookCalls, Event.isHook]
      · simp [saveCalls, Event.isSave]

/-- When the context never wins a wait, a call on an unregistered condition makes
every attempt the budget allows. -/
theorem transitionLoop_invalid_counts (hw : ∀ d w, (env.wait d w).1 = false) (n : Nat) :
    ∀ (attempt : Int) (s : St σ),
    (config.maxRetries + 1 - attempt).toNat = n →
    lookupTransition s.fsm.transitions s.fsm.current condition = none →
    (transitionLoop env config condition args attempt s).1
      = some Error.ErrMaxRetriesExceeded ∧
    attemptCalls (transitionLoop env config condition args attempt s).2.trace
      = attemptCalls s.trace + n ∧
    backoffCalls (transitionLoop env config condition args attempt s).2.trace
      = backoffCalls s.trace + (n - 1) ∧
    waitCalls (transitionLoop env config condition args attempt s).2.trace
      = waitCalls s.trace + (n - 1) := by
  induction n with
  | zero =>
    intro attempt s hn _
    have h : ¬ attempt ≤ config.maxRetries := by omega
    rw [transitionLoop_exit env config condition args attempt s h]
    exact ⟨rfl, rfl, rfl, rfl⟩
  | succ n ih =>
    intro attempt s hn hl
    have hx := executeTransition_invalid env condition args s hl
    have hx1 : (executeTransition env condition args s).1
        = some Error.ErrInvalidTransition := by rw [hx]
    rcases lt_or_eq_of_le (show attempt ≤ config.maxRetries by omega) with hlt | heq
    · have hc : cancelledAt env config attempt (executeTransition env condition args s).2
          = false := hw _ _
      rw [transitionLoop_retry env config condition args attempt s _ hlt hx1
        Is_invalid_unknown hc]
      have hn' : (config.maxRetries + 1 - (attempt + 1)).toNat = n := by omega
      have := ih (attempt + 1)
        (afterWait env config attempt (executeTransition env condition args s).2) hn'
        (by rw [afterWait_fsm, hx]; exact hl)
      rw [afterWait_trace, hx] at this
      rw [hx]
      have hpos : 0 < n := by omega
      refine ⟨this.1, ?_, ?_, ?_⟩
      · rw [this.2.1]
        simp [attemptCalls, Event.isAttempt]
        omega
      · rw [this.2.2.1]
        simp [backoffCalls, Event.isBackoff]
        omega
      · rw [this.2.2.2]
        simp [waitCalls, Event.isWait]
        omega
    · subst heq
      rw [transitionLoop_last env config condition args s _ hx1 Is_invalid_unknown, hx]
      have hn0 : n = 0 := by omega
      subst hn0
      refine ⟨rfl, ?_, ?_, ?_⟩
      · simp [attemptCalls, Event.isAttempt]
      · simp [backoffCalls, Event.isBackoff]
      · simp [waitCalls, Event.isWait]

end Invalid

/-! ## The paths through one attempt -/

section Paths

variable {σ : Type} (env : Env σ) (condition : String) (args : Value)

theorem executeTransition_after_cases (frm dst : String) (s : St σ) :
    (s.fsm.callbacks.after condition = none ∧
      executeTransition_after env condition args frm dst s = (none, s)) ∨
    ∃ cb, s.fsm.callbacks.after condition = some cb ∧
      ((cb condition frm dst args s.world).1.Status = StatusFailure ∧
        executeTransition_after env condition args frm dst s
          = (some (Error.new (cb condition frm dst args s.world).1.Message),
              (handleCallbackError env condition frm dst
                (cb condition frm dst args s.world).1.Message
                (hooked Phase.after condition frm dst args
                  (cb condition frm dst args s.world) s)).2) ∨
       (cb condition frm dst args s.world).1.Status ≠ StatusFailure ∧
        (cb condition frm dst args s.world).1.Status = StatusUnknown ∧
        executeTransition_after env condition args frm dst s
          = (some Error.ErrUnknownState,
              (handleUnknownState env condition frm args
                (hooked Phase.after condition frm dst args
                  (cb condition frm dst args s.world) s)).2) ∨
       (cb condition frm dst args s.world).1.Status ≠ StatusFailure ∧
        (cb condition frm dst args s.world).1.Status ≠ StatusUnknown ∧
        executeTransition_after env condition args frm dst s
          = (none, mergeMetadata (cb condition frm dst args s.world).1.Metadata
              (hooked Phase.after condition frm dst args
                (cb condition frm dst args s.world) s))) := by
  unfold executeTransition_after
  cases hcb : s.fsm.callbacks.after condition with
  | none => exact Or.inl ⟨rfl, rfl⟩
  | some cb =>
    refine Or.inr ⟨cb, rfl, ?_⟩
    dsimp only
    by_cases hf : (cb condition frm dst args s.world).1.Status = StatusFailure
    · exact Or.inl ⟨hf, by rw [if_pos hf]; rfl⟩
    · by_cases hu : (cb condition frm dst args s.world).1.Status = StatusUnknown
      · exact Or.inr (Or.inl ⟨hf, hu, by rw [if_neg hf, if_pos hu]; rfl⟩)
      · exact Or.inr (Or.inr ⟨hf, hu, by rw [if_neg hf, if_neg hu]; rfl⟩)

theorem executeTransition_change_cases (frm dst : String) (s : St σ) :
    (∃ err, (persist Ctx.caller (moved dst s)).1 = some err ∧
      executeTransition_change env condition args frm dst s
        = (some (Error.errorf "persistence failed" err),
            moved frm (persist Ctx.caller (moved dst s)).2)) ∨
    ((persist Ctx.caller (moved dst s)).1 = none ∧
      executeTransition_change env condition args frm dst s
        = executeTransition_after env condition args frm dst
            (persist Ctx.caller (moved dst s)).2) := by
  unfold executeTransition_change
  cases hp : (persist Ctx.caller (moved dst s)).1 with
  | none =>
    refine Or.inr ⟨rfl, ?_⟩
    simp only [moved] at hp
    simp [hp, moved]
  | some err =>
    refine Or.inl ⟨err, rfl, ?_⟩
    simp only [moved] at hp
    simp [hp, moved]

theorem executeTransition_cases (s : St σ) :
    (lookupTransition s.fsm.transitions s.fsm.current condition = none ∧
      executeTransition env condition args s
        = (some Error.ErrInvalidTransition, entered condition s)) ∨
    ∃ dst, lookupTransition s.fsm.transitions s.fsm.current condition = some dst ∧
      ((s.fsm.callbacks.before condition = none ∧
        executeTransition env condition args s
          = executeTransition_change env condition args s.fsm.current dst
              (entered condition s)) ∨
       ∃ cb, s.fsm.callbacks.before condition = some cb ∧
        ((cb condition s.fsm.current dst args s.world).1.Status = StatusFailure ∧
          executeTransition env condition args s
            = (some (Error.new (cb condition s.fsm.current dst args s.world).1.Message),
                (handleCallbackError env condition s.fsm.current dst
                  (cb condition s.fsm.current dst args s.world).1.Message
                  (hooked Phase.before condition s.fsm.current dst args
                    (cb condition s.fsm.current dst args s.world)
                    (entered condition s))).2) ∨
         (cb condition s.fsm.current dst args s.world).1.Status ≠ StatusFailure ∧
          (cb condition s.fsm.current dst args s.world).1.Status = StatusUnknown ∧
          executeTransition env condition args s
            = (some Error.ErrUnknownState,
                (handleUnknownState env condition s.fsm.current args
                  (hooked Phase.before condition s.fsm.current dst args
                    (cb condition s.fsm.current dst args s.world)
                    (entered condition s))).2) ∨
         (cb condition s.fsm.current dst args s.world).1.Status ≠ StatusFailure ∧
          (cb condition s.fsm.current dst args s.world).1.Status ≠ StatusUnknown ∧
          executeTransition env condition args s
            = executeTransition_change env condition args s.fsm.current dst
                (mergeMetadata (cb condition s.fsm.current dst args s.world).1.Metadata
                  (hooked Phase.before condition s.fsm.current dst args
                    (cb condition s.fsm.current dst args s.world)
                    (entered condition s))))) := by
  unfold executeTransition
  cases hl : lookupTransition s.fsm.transitions s.fsm.current condition with
  | none => exact Or.inl ⟨rfl, by simp [hl, entered]⟩
  | some dst =>
    refine Or.inr ⟨dst, rfl, ?_⟩
    cases hcb : s.fsm.callbacks.before condition with
    | none => exact Or.inl ⟨rfl, by simp [hl, hcb, entered]⟩
    | some cb =>
      refine Or.inr ⟨cb, rfl, ?_⟩
      dsimp only
      rw [hl]
      dsimp only
      rw [hcb]
      dsimp only
      by_cases hf : (cb condition s.fsm.current dst args s.world).1.Status = StatusFailure
      · exact Or.inl ⟨hf, by rw [if_pos hf]; rfl⟩
      · by_cases hu : (cb condition s.fsm.current dst args s.world).1.Status = StatusUnknown
        · exact Or.inr (Or.inl ⟨hf, hu, by rw [if_neg hf, if_pos hu]; rfl⟩)
        · exact Or.inr (Or.inr ⟨hf, hu, by rw [if_neg hf, if_neg hu]; rfl⟩)

end Paths

/-! ## What one attempt does to the current state -/

section Current

variable {σ : Type} (env : Env σ) (condition : String) (args : Value)

theorem Is_unknown_unknown :
    Error.Is Error.ErrUnknownState Error.ErrUnknownState = true := by
  simp [Error.Is]

@[simp]
theorem mergeMetadata_current (u : Option (GoMap Value)) (s : St σ) :
    (mergeMetadata u s).fsm.current = s.fsm.current := by
  cases u <;> rfl

@[simp]
theorem mergeMetadata_callbacks (u : Option (GoMap Value)) (s : St σ) :
    (mergeMetadata u s).fsm.callbacks = s.fsm.callbacks := by
  cases u <;> rfl

@[simp]
theorem mergeMetadata_repo (u : Option (GoMap Value)) (s : St σ) :
    (mergeMetadata u s).fsm.repo = s.fsm.repo := by
  cases u <;> rfl

@[simp]
theorem mergeMetadata_handler (u : Option (GoMap Value)) (s : St σ) :
    (mergeMetadata u s).fsm.unknownStateHandler = s.fsm.unknownStateHandler := by
  cases u <;> rfl

@[simp]
theorem mergeMetadata_trace (u : Option (GoMap Value)) (s : St σ) :
    (mergeMetadata u s).trace = s.trace := by
  cases u <;> rfl

@[simp]
theorem mergeMetadata_world (u : Option (GoMap Value)) (s : St σ) :
    (mergeMetadata u s).world = s.world := by
  cases u <;> rfl

@[simp]
theorem handleCallbackError_current (frm dst m : String) (s : St σ) :
    (handleCallbackError env condition frm dst m s).2.fsm.current = s.fsm.current := rfl

@[simp]
theorem handleCallbackError_trace (frm dst m : String) (s : St σ) :
    (handleCallbackError env condition frm dst m s).2.trace = s.trace := rfl

@[simp]
theorem hooked_fsm (phase : Phase) (frm dst : String) (r : CallbackResult × σ)
    (s : St σ) : (hooked phase condition frm dst args r s).fsm = s.fsm := rfl

@[simp]
theorem hooked_trace (phase : Phase) (frm dst : String) (r : CallbackResult × σ)
    (s : St σ) :
    (hooked phase condition frm dst args r s).trace
      = s.trace ++ [Event.hook phase condition frm dst args r.1] := rfl

@[simp]
theorem entered_fsm (s : St σ) : (entered condition s).fsm = s.fsm := rfl

@[simp]
theorem entered_world (s : St σ) : (entered condition s).world = s.world := rfl

@[simp]
theorem entered_trace (s : St σ) :
    (entered condition s).trace = s.trace ++ [Event.attempt s.fsm.current condition] := rfl

@[simp]
theorem moved_current (dst : String) (s : St σ) :
    (moved dst s).fsm.current = dst := rfl

@[simp]
theorem moved_callbacks (dst : String) (s : St σ) :
    (moved dst s).fsm.callbacks = s.fsm.callbacks := rfl

@[simp]
theorem moved_trace (dst : String) (s : St σ) : (moved dst s).trace = s.trace := rfl

theorem executeTransition_after_ok (frm dst : String) (s : St σ)
    (h : (executeTransition_after env condition args frm dst s).1 = none) :
    (executeTransition_after env condition args frm dst s).2.fsm.current
      = s.fsm.current := by
  rcases executeTransition_after_cases env condition args frm dst s with
    ⟨_, hr⟩ | ⟨cb, _, ⟨_, hr⟩ | ⟨_, _, hr⟩ | ⟨_, _, hr⟩⟩
  all_goals rw [hr] at h ⊢
  all_goals simp at h ⊢

theorem executeTransition_after_err (frm dst : String) (s : St σ) (e : Error)
    (h : (executeTransition_after env condition args frm dst s).1 = some e)
    (hu : Error.Is e Error.ErrUnknownState = false) :
    ¬ afterNeverFails s.fsm condition := by
  intro hnf
  rcases executeTransition_after_cases env condition args frm dst s with
    ⟨_, hr⟩ | ⟨cb, hcb, ⟨hf, _⟩ | ⟨_, _, hr⟩ | ⟨_, _, hr⟩⟩
  · rw [hr] at h
    simp at h
  · exact hnf cb hcb _ _ _ _ hf
  · rw [hr] at h
    simp only [Option.some.injEq] at h
    subst h
    simp [Error.Is] at hu
  · rw [hr] at h
    simp at h

theorem executeTransition_change_ok (frm dst : String) (s : St σ)
    (h : (executeTransition_change env condition args frm dst s).1 = none) :
    (executeTransition_change env condition args frm dst s).2.fsm.current = dst := by
  rcases executeTransition_change_cases env condition args frm dst s with
    ⟨err, _, hr⟩ | ⟨_, hr⟩
  · rw [hr] at h
    simp at h
  · rw [hr] at h ⊢
    rw [executeTransition_after_ok env condition args frm dst _ h, persist_fsm]
    rfl

theorem executeTransition_change_err (frm dst : String) (s : St σ) (e : Error)
    (h : (executeTransition_change env condition args frm dst s).1 = some e)
    (hu : Error.Is e Error.ErrUnknownState = false)
    (hnf : afterNeverFails s.fsm condition) :
    (executeTransition_change env condition args frm dst s).2.fsm.current = frm := by
  rcases executeTransition_change_cases env condition args frm dst s with
    ⟨err, _, hr⟩ | ⟨_, hr⟩
  · rw [hr]
    rfl
  · rw [hr] at h
    exfalso
    refine executeTransition_after_err env condition args frm dst _ e h hu ?_
    rw [persist_fsm]
    exact hnf

/-- A successful attempt ends in the destination the table gives for the state it
started from. -/
theorem executeTransition_ok_current (s : St σ)
    (h : (executeTransition env condition args s).1 = none) :
    lookupTransition s.fsm.transitions s.fsm.current condition
      = some (executeTransition env condition args s).2.fsm.current := by
  rcases executeTransition_cases env condition args s with
    ⟨_, hr⟩ | ⟨dst, hl, ⟨_, hr⟩ | ⟨cb, _, ⟨_, hr⟩ | ⟨_, _, hr⟩ | ⟨_, _, hr⟩⟩⟩
  · rw [hr] at h
    simp at h
  · rw [hr] at h ⊢
    rw [hl, executeTransition_change_ok env condition args _ _ _ h]
  · rw [hr] at h
    simp at h
  · rw [hr] at h
    simp at h
  · rw [hr] at h ⊢
    rw [hl, executeTransition_change_ok env condition args _ _ _ h]

/-- A failed attempt that is not an unknown-state abort leaves the current state
where it was, provided the after-hook never reports failure. -/
theorem executeTransition_err_current (s : St σ) (e : Error)
    (h : (executeTransition env condition args s).1 = some e)
    (hu : Error.Is e Error.ErrUnknownState = false)
    (hnf : afterNeverFails s.fsm condition) :
    (executeTransition env condition args s).2.fsm.current = s.fsm.current := by
  rcases executeTransition_cases env condition args s with
    ⟨_, hr⟩ | ⟨dst, hl, ⟨_, hr⟩ | ⟨cb, _, ⟨_, hr⟩ | ⟨_, _, hr⟩ | ⟨_, _, hr⟩⟩⟩
  · rw [hr]
    rfl
  · rw [hr] at h ⊢
    exact executeTransition_change_err env condition args _ _ _ e h hu hnf
  · rw [hr]
    rfl
  · rw [hr] at h
    simp only [Option.some.injEq] at h
    subst h
    simp [Error.Is] at hu
  · rw [hr] at h ⊢
    refine executeTransition_change_err env condition args _ _ _ e h hu ?_
    unfold afterNeverFails at hnf ⊢
    rw [mergeMetadata_callbacks]
    exact hnf

end Current

/-! ## How the retry loop ends -/

section Finished

variable {σ : Type} (env : Env σ) (config : transitionConfig σ) (condition : String)
  (args : Value)

/-- An invariant of the loop heads, kept by a retried attempt and by the last failed
attempt, describes how the loop ends. -/
theorem transitionLoop_finished (P : Int → St σ → Prop)
    (hretry : ∀ k s e, k < config.maxRetries → P k s →
      (executeTransition env condition args s).1 = some e →
      Error.Is e Error.ErrUnknownState = false →
      cancelledAt env config k (executeTransition env condition args s).2 = false →
      P (k + 1) (afterWait env config k (executeTransition env condition args s).2))
    (hlast : ∀ s e, P config.maxRetries s →
      (executeTransition env condition args s).1 = some e →
      Error.Is e Error.ErrUnknownState = false →
      P (config.maxRetries + 1) (executeTransition env condition args s).2)
    (n : Nat) : ∀ (attempt : Int) (s : St σ),
    (config.maxRetries + 1 - attempt).toNat = n → P attempt s →
    Finished env config condition args P
      (transitionLoop env config condition args attempt s) := by
  induction n with
  | zero =>
    intro attempt s hn hP
    have h : ¬ attempt ≤ config.maxRetries := by omega
    rw [transitionLoop_exit env config condition args attempt s h]
    exact Finished.exhausted attempt s (by omega) hP
  | succ n ih =>
    intro attempt s hn hP
    have hle : attempt ≤ config.maxRetries := by omega
    cases hx : (executeTransition env condition args s).1 with
    | none =>
      rw [transitionLoop_ok env config condition args attempt s hle hx]
      exact Finished.ok attempt s hle hP hx
    | some e =>
      cases hu : Error.Is e Error.ErrUnknownState with
      | true =>
        rw [transitionLoop_unknown env config condition args attempt s e hle hx hu]
        exact Finished.unknown attempt s e hle hP hx hu
      | false =>
        rcases lt_or_eq_of_le hle with hlt | heq
        · cases hc : cancelledAt env config attempt
              (executeTransition env condition args s).2 with
          | true =>
            rw [transitionLoop_cancel env config condition args attempt s e hlt hx hu hc]
            exact Finished.cancelled attempt s e hlt hP hx hu hc
          | false =>
            rw [transitionLoop_retry env config condition args attempt s e hlt hx hu hc]
            exact ih (attempt + 1) _ (by omega) (hretry attempt s e hlt hP hx hu hc)
        · subst heq
          rw [transitionLoop_last env config condition args s e hx hu]
          exact Finished.exhausted (config.maxRetries + 1) _ (by omega) (hlast s e hP hx hu)

end Finished

/-! ## Attempts whose before-hook reports unknown or failure -/

section BeforeHook

variable {σ : Type} (env : Env σ) (condition : String) (args : Value)

theorem handleUnknownState_hookCalls (frm : String) (s : St σ) :
    hookCalls (handleUnknownState env condition frm args s).2.trace = hookCalls s.trace := by
  unfold handleUnknownState
  cases s.fsm.unknownStateHandler with
  | none => rfl
  | some h =>
    dsimp only
    rw [persist_hookCalls]
    simp [hookCalls, Event.isHook]

theorem hookCalls_entered_hooked (phase : Phase) (frm dst : String)
    (r : CallbackResult × σ) (s : St σ) :
    hookCalls (hooked phase condition frm dst args r (entered condition s)).trace
      = hookCalls s.trace + 1 := by
  simp [hookCalls, Event.isHook]

/-- An attempt whose before-hook reports unknown fails with `ErrUnknownState` after
one hook invocation. -/
theorem executeTransition_before_unknown (s : St σ) (dst : String) (cb : CallbackFunc σ)
    (hl : lookupTransition s.fsm.transitions s.fsm.current condition = some dst)
    (hcb : s.fsm.callbacks.before condition = some cb)
    (hu : (cb condition s.fsm.current dst args s.world).1.Status = StatusUnknown) :
    (executeTransition env condition args s).1 = some Error.ErrUnknownState ∧
    hookCalls (executeTransition env condition args s).2.trace = hookCalls s.trace + 1 := by
  have hne : StatusUnknown ≠ StatusFailure := by decide
  rcases executeTransition_cases env condition args s with
    ⟨hl', _⟩ | ⟨dst', hl', ⟨hcb', _⟩ | ⟨cb', hcb', h⟩⟩
  · rw [hl] at hl'
    cases hl'
  · rw [hcb] at hcb'
    cases hcb'
  · rw [hl] at hl'
    rw [hcb] at hcb'
    cases hl'
    cases hcb'
    rcases h with ⟨hf, _⟩ | ⟨_, _, hr⟩ | ⟨_, hnu, _⟩
    · rw [hu] at hf
      exact absurd hf hne
    · rw [hr]
      exact ⟨rfl, by
        rw [handleUnknownState_hookCalls]
        exact hookCalls_entered_hooked condition args _ _ _ _ _⟩
    · exact absurd hu hnu

/-- An attempt whose before-hook reports failure fails with the hook's message after
one hook invocation, and the current state stays. -/
theorem executeTransition_before_failure (s : St σ) (dst : String) (cb : CallbackFunc σ)
    (hl : lookupTransition s.fsm.transitions s.fsm.current condition = some dst)
    (hcb : s.fsm.callbacks.before condition = some cb)
    (hf : (cb condition s.fsm.current dst args s.world).1.Status = StatusFailure) :
    (executeTransition env condition args s).1
      = some (Error.new (cb condition s.fsm.current dst args s.world).1.Message) ∧
    (executeTransition env condition args s).2.fsm.current = s.fsm.current ∧
    hookCalls (executeTransition env condition args s).2.trace = hookCalls s.trace + 1 := by
  rcases executeTransition_cases env condition args s with
    ⟨hl', _⟩ | ⟨dst', hl', ⟨hcb', _⟩ | ⟨cb', hcb', h⟩⟩
  · rw [hl] at hl'
    cases hl'
  · rw [hcb] at hcb'
    cases hcb'
  · rw [hl] at hl'
    rw [hcb] at hcb'
    cases hl'
    cases hcb'
    rcases h with ⟨_, hr⟩ | ⟨hnf, _, _⟩ | ⟨hnf, _, _⟩
    · rw [hr]
      exact ⟨rfl, rfl, hookCalls_entered_hooked condition args _ _ _ _ _⟩
    · exact absurd hf hnf
    · exact absurd hf hnf

theorem afterWait_hookCalls (config : transitionConfig σ) (attempt : Int) (s : St σ) :
    hookCalls (afterWait env config attempt s).trace = hookCalls s.trace := by
  rw [afterWait_trace]
  simp [hookCalls, Event.isHook]

end BeforeHook

/-! ## Claims on an unregistered condition -/

/-- C3, as stated, fails: with the default options, a call on the unregistered
condition `ship` returns `ErrMaxRetriesExceeded`, which neither is nor wraps
`ErrInvalidTransition`. -/
theorem C3_counterexample :
    lookupTransition orderSt.fsm.transitions orderSt.fsm.current "ship" = none ∧
    (Transition quietEnv "ship" Value.nil [] orderSt).1
      = some Error.ErrMaxRetriesExceeded ∧
    Error.Is Error.ErrMaxRetriesExceeded Error.ErrInvalidTransition = false := by
  have hl : lookupTransition orderSt.fsm.transitions orderSt.fsm.current "ship" = none := by
    decide
  refine ⟨hl, ?_, by decide⟩
  exact (transitionLoop_invalid_counts quietEnv (applyOptions []) "ship" Value.nil
    (fun _ _ => rfl) 1 0 orderSt (by decide) hl).1

/-- C3, amended: when the table has no entry for (current state, condition), the
attempt itself fails with `ErrInvalidTransition`, but `Transition` returns
`ErrMaxRetriesExceeded` or the context's error, and what it returns neither is nor
wraps `ErrInvalidTransition`. -/
theorem C3_invalid_transition_is_superseded {σ : Type} (env : Env σ) (condition : String)
    (args : Value) (opts : List (TransitionOption σ)) (s : St σ)
    (h : lookupTransition s.fsm.transitions s.fsm.current condition = none) :
    (executeTransition env condition args s).1 = some Error.ErrInvalidTransition ∧
    ((Transition env condition args opts s).1 = some Error.ErrMaxRetriesExceeded ∨
      ∃ c, (Transition env condition args opts s).1 = some (Error.context c)) ∧
    ∀ e, (Transition env condition args opts s).1 = some e →
      Error.Is e Error.ErrInvalidTransition = false := by
  have hx := executeTransition_invalid env condition args s h
  have hr := (transitionLoop_invalid env (applyOptions opts) condition args _ 0 s rfl h).2.1
  refine ⟨by rw [hx], hr, ?_⟩
  intro e he
  unfold Transition at he
  rcases hr with hr | ⟨c, hr⟩
  · rw [hr] at he
    cases he
    simp [Error.Is]
  · rw [hr] at he
    cases he
    simp [Error.Is]

/-- Witness for C3 (amended): the entity of the example, asked for the unregistered
condition `ship` with the default options. -/
theorem C3_invalid_transition_is_superseded_witness :
    lookupTransition orderSt.fsm.transitions orderSt.fsm.current "ship" = none ∧
    ((executeTransition quietEnv "ship" Value.nil orderSt).1
        = some Error.ErrInvalidTransition ∧
      ((Transition quietEnv "ship" Value.nil [] orderSt).1
          = some Error.ErrMaxRetriesExceeded ∨
        ∃ c, (Transition quietEnv "ship" Value.nil [] orderSt).1
          = some (Error.context c)) ∧
      ∀ e, (Transition quietEnv "ship" Value.nil [] orderSt).1 = some e →
        Error.Is e Error.ErrInvalidTransition = false) :=
  ⟨by decide,
    C3_invalid_transition_is_superseded quietEnv "ship" Value.nil [] orderSt (by decide)⟩

/-- C4: when the table has no entry for (current state, condition), a `Transition`
call with any options leaves `Current()` and `Metadata()` as they were and invokes
neither `Save` nor any hook. -/
theorem C4_invalid_transition_changes_nothing {σ : Type} (env : Env σ) (condition : String)
    (args : Value) (opts : List (TransitionOption σ)) (s : St σ)
    (h : lookupTransition s.fsm.transitions s.fsm.current condition = none) :
    Current (Transition env condition args opts s).2.fsm = Current s.fsm ∧
    Metadata (Transition env condition args opts s).2.fsm = Metadata s.fsm ∧
    saveCalls (Transition env condition args opts s).2.trace = saveCalls s.trace ∧
    hookCalls (Transition env condition args opts s).2.trace = hookCalls s.trace := by
  have hr := transitionLoop_invalid env (applyOptions opts) condition args _ 0 s rfl h
  unfold Transition
  refine ⟨by rw [hr.1], by rw [hr.1], hr.2.2.2, hr.2.2.1⟩

/-- Witness for C4: the entity of the example, asked for the unregistered condition
`ship` with two retries. -/
theorem C4_invalid_transition_changes_nothing_witness :
    lookupTransition orderSt.fsm.transitions orderSt.fsm.current "ship" = none ∧
    (Current (Transition quietEnv "ship" Value.nil [WithRetry 2 noDelay] orderSt).2.fsm
        = Current orderSt.fsm ∧
      Metadata (Transition quietEnv "ship" Value.nil [WithRetry 2 noDelay] orderSt).2.fsm
        = Metadata orderSt.fsm ∧
      saveCalls (Transition quietEnv "ship" Value.nil [WithRetry 2 noDelay] orderSt).2.trace
        = saveCalls orderSt.trace ∧
      hookCalls (Transition quietEnv "ship" Value.nil [WithRetry 2 noDelay] orderSt).2.trace
        = hookCalls orderSt.trace) :=
  ⟨by decide,
    C4_invalid_transition_changes_nothing quietEnv "ship" Value.nil [WithRetry 2 noDelay]
      orderSt (by decide)⟩

/-- C5, as stated, fails: with `maxRetries = 1` a call on the unregistered condition
`ship` makes two attempts, consults the backoff function once and waits once. -/
theorem C5_counterexample :
    lookupTransition orderSt.fsm.transitions orderSt.fsm.current "ship" = none ∧
    attemptCalls (Transition quietEnv "ship" Value.nil [WithRetry 1 noDelay] orderSt).2.trace
      = 2 ∧
    backoffCalls (Transition quietEnv "ship" Value.nil [WithRetry 1 noDelay] orderSt).2.trace
      = 1 ∧
    waitCalls (Transition quietEnv "ship" Value.nil [WithRetry 1 noDelay] orderSt).2.trace
      = 1 := by
  have hl : lookupTransition orderSt.fsm.transitions orderSt.fsm.current "ship" = none := by
    decide
  exact ⟨hl, (transitionLoop_invalid_counts quietEnv (applyOptions [WithRetry 1 noDelay])
    "ship" Value.nil (fun _ _ => rfl) 2 0 orderSt (by decide) hl).2⟩

/-- C5, amended: an `InvalidTransition` failure is retried like any other failure
that is not unknown-state.  With no table entry for (current state, condition),
`maxRetries = n ≥ 1` and a context that is never cancelled, `Transition` makes
`n + 1` attempts, consults the backoff function `n` times, waits `n` times and
returns `ErrMaxRetriesExceeded`. -/
theorem C5_invalid_transition_is_retried {σ : Type} (env : Env σ) (condition : String)
    (args : Value) (n : Int) (backoff : Int → σ → Int × σ) (s : St σ)
    (hn : 1 ≤ n)
    (h : lookupTransition s.fsm.transitions s.fsm.current condition = none)
    (hw : ∀ d w, (env.wait d w).1 = false) :
    (Transition env condition args [WithRetry n backoff] s).1
      = some Error.ErrMaxRetriesExceeded ∧
    attemptCalls (Transition env condition args [WithRetry n backoff] s).2.trace
      = attemptCalls s.trace + (n.toNat + 1) ∧
    backoffCalls (Transition env condition args [WithRetry n backoff] s).2.trace
      = backoffCalls s.trace + n.toNat ∧
    waitCalls (Transition env condition args [WithRetry n backoff] s).2.trace
      = waitCalls s.trace + n.toNat := by
  have hm : ((applyOptions [WithRetry n backoff]).maxRetries + 1 - 0).toNat
      = n.toNat + 1 := by
    show (n + 1 - 0).toNat = n.toNat + 1
    omega
  have hr := transitionLoop_invalid_counts env (applyOptions [WithRetry n backoff])
    condition args hw (n.toNat + 1) 0 s hm h
  exact hr

/-- Witness for C5 (amended): the entity of the example, asked for the unregistered
condition `ship` with three retries. -/
theorem C5_invalid_transition_is_retried_witness :
    (1 : Int) ≤ 3 ∧
    lookupTransition orderSt.fsm.transitions orderSt.fsm.current "ship" = none ∧
    (∀ d w, (quietEnv.wait d w).1 = false) ∧
    ((Transition quietEnv "ship" Value.nil [WithRetry 3 noDelay] orderSt).1
        = some Error.ErrMaxRetriesExceeded ∧
      attemptCalls (Transition quietEnv "ship" Value.nil [WithRetry 3 noDelay] orderSt).2.trace
        = attemptCalls orderSt.trace + ((3 : Int).toNat + 1) ∧
      backoffCalls (Transition quietEnv "ship" Value.nil [WithRetry 3 noDelay] orderSt).2.trace
        = backoffCalls orderSt.trace + (3 : Int).toNat ∧
      waitCalls (Transition quietEnv "ship" Value.nil [WithRetry 3 noDelay] orderSt).2.trace
        = waitCalls orderSt.trace + (3 : Int).toNat) :=
  ⟨by decide, by decide, fun _ _ => rfl,
    C5_invalid_transition_is_retried quietEnv "ship" Value.nil 3 noDelay orderSt
      (by decide) (by decide) (fun _ _ => rfl)⟩

/-! ## Claims on the before-hook -/

/-- C6: the unknown-state path is never retried.  For every `maxRetries = n ≥ 0` and
every backoff, on an entity with a table entry for (current state, condition) whose
before-hook always reports unknown, `Transition` invokes a hook exactly once and
returns an error that wraps `ErrUnknownState`. -/
theorem C6_unknown_state_is_never_retried {σ : Type} (env : Env σ) (condition : String)
    (args : Value) (n : Int) (backoff : Int → σ → Int × σ) (s : St σ) (dst : String)
    (cb : CallbackFunc σ)
    (hn : 0 ≤ n)
    (hl : lookupTransition s.fsm.transitions s.fsm.current condition = some dst)
    (hcb : s.fsm.callbacks.before condition = some cb)
    (hu : ∀ c frm to_ a w, (cb c frm to_ a w).1.Status = StatusUnknown) :
    hookCalls (Transition env condition args [WithRetry n backoff] s).2.trace
      = hookCalls s.trace + 1 ∧
    (Transition env condition args [WithRetry n backoff] s).1
      = some (Error.errorf "operation aborted due to unknown state" Error.ErrUnknownState) ∧
    ∃ e, (Transition env condition args [WithRetry n backoff] s).1 = some e ∧
      Error.Is e Error.ErrUnknownState = true := by
  have hx := executeTransition_before_unknown env condition args s dst cb hl hcb (hu _ _ _ _ _)
  have hr := transitionLoop_unknown env (applyOptions [WithRetry n backoff]) condition args
    0 s Error.ErrUnknownState hn hx.1 Is_unknown_unknown
  unfold Transition
  rw [hr]
  exact ⟨hx.2, rfl, _, rfl, by simp [Error.Is]⟩

/-- C7: retry exhaustion.  For every `maxRetries = n ≥ 0`, on an entity with a table
entry for (current state, condition) whose before-hook always reports failure, and
with a context that is never cancelled, `Transition` invokes the hook `n + 1` times
and returns exactly `ErrMaxRetriesExceeded`. -/
theorem C7_retry_exhaustion {σ : Type} (env : Env σ) (condition : String)
    (args : Value) (n : Int) (backoff : Int → σ → Int × σ) (s : St σ) (dst : String)
    (cb : CallbackFunc σ)
    (hn : 0 ≤ n)
    (hl : lookupTransition s.fsm.transitions s.fsm.current condition = some dst)
    (hcb : s.fsm.callbacks.before condition = some cb)
    (hf : ∀ c frm to_ a w, (cb c frm to_ a w).1.Status = StatusFailure)
    (hw : ∀ d w, (env.wait d w).1 = false) :
    hookCalls (Transition env condition args [WithRetry n backoff] s).2.trace
      = hookCalls s.trace + (n.toNat + 1) ∧
    (Transition env condition args [WithRetry n backoff] s).1
      = some Error.ErrMaxRetriesExceeded := by
  have hmax : (applyOptions [WithRetry n backoff]).maxRetries = n := rfl
  have key : ∀ (s' : St σ),
      (sameSetup s.fsm s'.fsm ∧ s'.fsm.current = s.fsm.current) →
      (executeTransition env condition args s').1
        = some (Error.new (cb condition s'.fsm.current dst args s'.world).1.Message) ∧
      (sameSetup s.fsm (executeTransition env condition args s').2.fsm ∧
        (executeTransition env condition args s').2.fsm.current = s.fsm.current) ∧
      hookCalls (executeTransition env condition args s').2.trace
        = hookCalls s'.trace + 1 := by
    intro s' hP
    have hl' : lookupTransition s'.fsm.transitions s'.fsm.current condition = some dst := by
      rw [hP.1.2.1, hP.2]
      exact hl
    have hcb' : s'.fsm.callbacks.before condition = some cb := by
      rw [hP.1.2.2.2.1]
      exact hcb
    have hx := executeTransition_before_failure env condition args s' dst cb hl' hcb'
      (hf _ _ _ _ _)
    exact ⟨hx.1, ⟨sameSetup_trans hP.1 (executeTransition_sameSetup env condition args s'),
      hx.2.1.trans hP.2⟩, hx.2.2⟩
  have fin := transitionLoop_finished env (applyOptions [WithRetry n backoff]) condition args
    (fun k s' => (sameSetup s.fsm s'.fsm ∧ s'.fsm.current = s.fsm.current) ∧
      0 ≤ k ∧ k ≤ n + 1 ∧ hookCalls s'.trace = hookCalls s.trace + k.toNat)
    (by
      intro k s' e hk hP _ _ _
      rw [hmax] at hk
      have hx := key s' hP.1
      refine ⟨hx.2.1, by omega, by omega, ?_⟩
      rw [afterWait_hookCalls, hx.2.2, hP.2.2.2]
      omega)
    (by
      intro s' e hP _ _
      rw [hmax] at hP ⊢
      have hx := key s' hP.1
      refine ⟨hx.2.1, by omega, le_refl _, ?_⟩
      rw [hx.2.2, hP.2.2.2]
      omega)
    _ 0 s rfl ⟨⟨sameSetup_refl _, rfl⟩, le_refl _, by omega, rfl⟩
  unfold Transition
  generalize transitionLoop env (applyOptions [WithRetry n backoff]) condition args 0 s
    = r at fin
  cases fin with
  | exhausted k s' hk hP =>
    rw [hmax] at hk
    refine ⟨?_, rfl⟩
    rw [hP.2.2.2]
    omega
  | ok k s' hk hP hx =>
    rw [(key s' hP.1).1] at hx
    cases hx
  | unknown k s' e hk hP hx hu =>
    rw [(key s' hP.1).1] at hx
    cases hx
    simp [Error.Is] at hu
  | cancelled k s' e hk hP hx hu hc =>
    rw [cancelledAt, hw] at hc
    cases hc

/-- Witness for C6: the entity of the example, whose before-hook on `process` times
out, called with five retries. -/
theorem C6_unknown_state_is_never_retried_witness :
    (0 : Int) ≤ 5 ∧
    lookupTransition gatewaySt.fsm.transitions gatewaySt.fsm.current "process"
      = some "processing" ∧
    gatewaySt.fsm.callbacks.before "process" = some timeoutHook ∧
    (∀ c frm to_ a w, (timeoutHook c frm to_ a w).1.Status = StatusUnknown) ∧
    (hookCalls (Transition quietEnv "process" Value.nil [WithRetry 5 noDelay] gatewaySt).2.trace
        = hookCalls gatewaySt.trace + 1 ∧
      (Transition quietEnv "process" Value.nil [WithRetry 5 noDelay] gatewaySt).1
        = some (Error.errorf "operation aborted due to unknown state"
            Error.ErrUnknownState) ∧
      ∃ e, (Transition quietEnv "process" Value.nil [WithRetry 5 noDelay] gatewaySt).1
          = some e ∧ Error.Is e Error.ErrUnknownState = true) :=
  ⟨by decide, by decide, rfl, fun _ _ _ _ _ => rfl,
    C6_unknown_state_is_never_retried quietEnv "process" Value.nil 5 noDelay gatewaySt
      "processing" timeoutHook (by decide) (by decide) rfl (fun _ _ _ _ _ => rfl)⟩

/-- Witness for C7: `refusingHook` before `process`, called with two retries: three
hook invocations. -/
theorem C7_retry_exhaustion_witness :
    (0 : Int) ≤ 2 ∧
    lookupTransition refusedSt.fsm.transitions refusedSt.fsm.current "process"
      = some "processing" ∧
    refusedSt.fsm.callbacks.before "process" = some refusingHook ∧
    (∀ c frm to_ a w, (refusingHook c frm to_ a w).1.Status = StatusFailure) ∧
    (∀ d w, (quietEnv.wait d w).1 = false) ∧
    (hookCalls (Transition quietEnv "process" Value.nil [WithRetry 2 noDelay] refusedSt).2.trace
        = hookCalls refusedSt.trace + ((2 : Int).toNat + 1) ∧
      (Transition quietEnv "process" Value.nil [WithRetry 2 noDelay] refusedSt).1
        = some Error.ErrMaxRetriesExceeded) :=
  ⟨by decide, by decide, rfl, fun _ _ _ _ _ => rfl, fun _ _ => rfl,
    C7_retry_exhaustion quietEnv "process" Value.nil 2 noDelay refusedSt "processing"
      refusingHook (by decide) (by decide) rfl (fun _ _ _ _ _ => rfl) (fun _ _ => rfl)⟩

/-! ## Cancellation -/

theorem transitionLoop_reaches {σ : Type} (env : Env σ) (config : transitionConfig σ)
    (condition : String) (args : Value) (k : Int) (s : St σ) (k' : Int) (s' : St σ)
    (h : Reaches env config condition args k s k' s') :
    transitionLoop env config condition args k s
      = transitionLoop env config condition args k' s' := by
  induction h with
  | here k s => rfl
  | retry k s e k' s' hk hx hu hc _ ih =>
    rw [transitionLoop_retry env config condition args k s e hk hx hu hc]
    exact ih

theorem afterWait_counts {σ : Type} (env : Env σ) (config : transitionConfig σ)
    (attempt : Int) (s : St σ) :
    attemptCalls (afterWait env config attempt s).trace = attemptCalls s.trace ∧
    hookCalls (afterWait env config attempt s).trace = hookCalls s.trace ∧
    saveCalls (afterWait env config attempt s).trace = saveCalls s.trace := by
  rw [afterWait_trace]
  simp [attemptCalls, hookCalls, saveCalls, Event.isAttempt, Event.isHook, Event.isSave]

/-- C8: cancellation during backoff.  If a `Transition` call reaches an attempt that
fails with an error other than unknown-state while attempts remain, and the context
wins the wait that follows, then `Transition` returns the context's error, which is
not `ErrMaxRetriesExceeded`, and nothing happens after that attempt: no further
attempt (lookup), hook invocation or `Save`, and the entity stays as the attempt
left it. -/
theorem C8_cancellation_during_backoff {σ : Type} (env : Env σ) (condition : String)
    (args : Value) (opts : List (TransitionOption σ)) (s0 : St σ) (k : Int) (s : St σ)
    (e : Error)
    (hreach : Reaches env (applyOptions opts) condition args 0 s0 k s)
    (hx : (executeTransition env condition args s).1 = some e)
    (hu : Error.Is e Error.ErrUnknownState = false)
    (hk : k < (applyOptions opts).maxRetries)
    (hc : cancelledAt env (applyOptions opts) k (executeTransition env condition args s).2
      = true) :
    (Transition env condition args opts s0).1
      = some (Error.context (env.ctxErr (Transition env condition args opts s0).2.world)) ∧
    (Transition env condition args opts s0).1 ≠ some Error.ErrMaxRetriesExceeded ∧
    (Transition env condition args opts s0).2.fsm
      = (executeTransition env condition args s).2.fsm ∧
    attemptCalls (Transition env condition args opts s0).2.trace
      = attemptCalls (executeTransition env condition args s).2.trace ∧
    hookCalls (Transition env condition args opts s0).2.trace
      = hookCalls (executeTransition env condition args s).2.trace ∧
    saveCalls (Transition env condition args opts s0).2.trace
      = saveCalls (executeTransition env condition args s).2.trace := by
  unfold Transition
  rw [transitionLoop_reaches env (applyOptions opts) condition args 0 s0 k s hreach,
    transitionLoop_cancel env (applyOptions opts) condition args k s e hk hx hu hc]
  have hcnt := afterWait_counts env (applyOptions opts) k
    (executeTransition env condition args s).2
  exact ⟨rfl, by simp, rfl, hcnt.1, hcnt.2.1, hcnt.2.2⟩

/-- Witness for C8: `refusingHook` before `process`, one retry allowed, and a context
that is cancelled during the first wait. -/
theorem C8_cancellation_during_backoff_witness :
    Reaches cancellingEnv (applyOptions [WithRetry 1 noDelay]) "process" Value.nil
      0 refusedSt 0 refusedSt ∧
    (executeTransition cancellingEnv "process" Value.nil refusedSt).1
      = some (Error.new "refused") ∧
    Error.Is (Error.new "refused") Error.ErrUnknownState = false ∧
    (0 : Int) < (applyOptions [WithRetry 1 noDelay]).maxRetries ∧
    cancelledAt cancellingEnv (applyOptions [WithRetry 1 noDelay]) 0
      (executeTransition cancellingEnv "process" Value.nil refusedSt).2 = true ∧
    ((Transition cancellingEnv "process" Value.nil [WithRetry 1 noDelay] refusedSt).1
        = some (Error.context (cancellingEnv.ctxErr
            (Transition cancellingEnv "process" Value.nil [WithRetry 1 noDelay]
              refusedSt).2.world)) ∧
      (Transition cancellingEnv "process" Value.nil [WithRetry 1 noDelay] refusedSt).1
        ≠ some Error.ErrMaxRetriesExceeded ∧
      (Transition cancellingEnv "process" Value.nil [WithRetry 1 noDelay] refusedSt).2.fsm
        = (executeTransition cancellingEnv "process" Value.nil refusedSt).2.fsm ∧
      attemptCalls
          (Transition cancellingEnv "process" Value.nil [WithRetry 1 noDelay] refusedSt).2.trace
        = attemptCalls (executeTransition cancellingEnv "process" Value.nil refusedSt).2.trace ∧
      hookCalls
          (Transition cancellingEnv "process" Value.nil [WithRetry 1 noDelay] refusedSt).2.trace
        = hookCalls (executeTransition cancellingEnv "process" Value.nil refusedSt).2.trace ∧
      saveCalls
          (Transition cancellingEnv "process" Value.nil [WithRetry 1 noDelay] refusedSt).2.trace
        = saveCalls (executeTransition cancellingEnv "process" Value.nil refusedSt).2.trace) :=
  ⟨Reaches.here 0 refusedSt, by decide, by decide, by decide, rfl,
    C8_cancellation_during_backoff cancellingEnv "process" Value.nil [WithRetry 1 noDelay]
      refusedSt 0 refusedSt (Error.new "refused") (Reaches.here 0 refusedSt) (by decide)
      (by decide) (by decide) rfl⟩

/-! ## Registration -/

theorem lookupTransition_AddTransition_same {σ : Type} (f : FSM σ)
    (frm dst condition : String) :
    lookupTransition (AddTransition f frm dst condition).transitions frm condition
      = some dst := by
  simp [lookupTransition, AddTransition, GoMap.set]

theorem lookupTransition_AddTransition_other {σ : Type} (f : FSM σ)
    (frm dst condition frm' condition' : String)
    (h : ¬ (frm' = frm ∧ condition' = condition)) :
    lookupTransition (AddTransition f frm dst condition).transitions frm' condition'
      = lookupTransition f.transitions frm' condition' := by
  unfold lookupTransition AddTransition GoMap.set
  dsimp only
  by_cases hf : frm' = frm
  · subst hf
    have hc : condition' ≠ condition := fun hc => h ⟨rfl, hc⟩
    rw [if_pos rfl]
    dsimp only
    rw [if_neg hc]
    cases f.transitions frm' <;> rfl
  · rw [if_neg hf]

/-- C10: registration is last-write-wins.  After `AddTransition(from, to1, condition)`
and then `AddTransition(from, to2, condition)` the table maps (from, condition) to
`to2`, it is the table a single registration of `to2` gives, and every other entry
is as it was before both registrations (and after the first). -/
theorem C10_registration_last_write_wins {σ : Type} (f : FSM σ)
    (frm condition to1 to2 : String) :
    lookupTransition
        (AddTransition (AddTransition f frm to1 condition) frm to2 condition).transitions
        frm condition = some to2 ∧
    (∀ frm' condition',
      lookupTransition
          (AddTransition (AddTransition f frm to1 condition) frm to2 condition).transitions
          frm' condition'
        = lookupTransition (AddTransition f frm to2 condition).transitions
            frm' condition') ∧
    (∀ frm' condition', ¬ (frm' = frm ∧ condition' = condition) →
      lookupTransition
          (AddTransition (AddTransition f frm to1 condition) frm to2 condition).transitions
          frm' condition'
        = lookupTransition f.transitions frm' condition' ∧
      lookupTransition (AddTransition f frm to1 condition).transitions frm' condition'
        = lookupTransition f.transitions frm' condition') := by
  refine ⟨lookupTransition_AddTransition_same _ _ _ _, ?_, ?_⟩
  · intro frm' condition'
    by_cases h : frm' = frm ∧ condition' = condition
    · rw [h.1, h.2, lookupTransition_AddTransition_same, lookupTransition_AddTransition_same]
    · rw [lookupTransition_AddTransition_other _ _ _ _ _ _ h,
        lookupTransition_AddTransition_other _ _ _ _ _ _ h,
        lookupTransition_AddTransition_other _ _ _ _ _ _ h]
  · intro frm' condition' h
    rw [lookupTransition_AddTransition_other _ _ _ _ _ _ h,
      lookupTransition_AddTransition_other _ _ _ _ _ _ h]
    exact ⟨rfl, rfl⟩

/-- Witness for C10: `process` registered twice out of `created`; the entry for
(`processing`, `final`) is untouched. -/
theorem C10_registration_last_write_wins_witness :
    ¬ ("processing" = "created" ∧ "final" = "process") ∧
    lookupTransition
        (AddTransition (AddTransition orderFSM "created" "failed" "process")
          "created" "cancelled" "process").transitions "processing" "final"
      = lookupTransition orderFSM.transitions "processing" "final" :=
  ⟨by decide,
    ((C10_registration_last_write_wins orderFSM "created" "process" "failed"
      "cancelled").2.2 "processing" "final" (by decide)).1⟩

/-! ## The current state after a call -/

section CallCurrent

variable {σ : Type} (env : Env σ) (config : transitionConfig σ) (condition : String)
  (args : Value)

/-- What every attempt and every wait keeps, the whole loop keeps. -/
theorem transitionLoop_preserves (Inv : St σ → Prop)
    (hexec : ∀ s, Inv s → Inv (executeTransition env condition args s).2)
    (hwait : ∀ k s, Inv s → Inv (afterWait env config k s))
    (attempt : Int) (s : St σ) (h : Inv s) :
    Inv (transitionLoop env config condition args attempt s).2 := by
  have fin := transitionLoop_finished env config condition args (fun _ s' => Inv s')
    (fun k s' _ _ hP _ _ _ => hwait k _ (hexec s' hP))
    (fun s' _ hP _ _ => hexec s' hP) _ attempt s rfl h
  generalize transitionLoop env config condition args attempt s = r at fin
  cases fin with
  | exhausted k s' hk hP => exact hP
  | ok k s' hk hP hx => exact hexec s' hP
  | unknown k s' e hk hP hx hu => exact hexec s' hP
  | cancelled k s' e hk hP hx hu hc => exact hwait k _ (hexec s' hP)

theorem persist_fails (ctx : Ctx) (s : St σ) (h : saveAlwaysFails s.fsm) :
    (persist ctx s).1 ≠ none := by
  obtain ⟨repo, hr, hf⟩ := h
  unfold persist
  rw [hr]
  exact hf _ _ _ _ _

theorem executeTransition_change_rollback (frm dst : String) (s : St σ)
    (h : saveAlwaysFails s.fsm) :
    (executeTransition_change env condition args frm dst s).2.fsm.current = frm := by
  rcases executeTransition_change_cases env condition args frm dst s with
    ⟨err, _, hr⟩ | ⟨hp, _⟩
  · rw [hr]
    rfl
  · exact absurd hp (persist_fails Ctx.caller (moved dst s) h)

theorem handleUnknownState_current_of_no_handler (frm : String) (s : St σ)
    (h : s.fsm.unknownStateHandler = none) :
    (handleUnknownState env condition frm args s).2.fsm.current = s.fsm.current := by
  unfold handleUnknownState
  rw [h]

/-- When every save fails, an attempt that does not run the resolver leaves the
current state where it was. -/
theorem executeTransition_current_of_failing_storage (s : St σ)
    (hs : saveAlwaysFails s.fsm)
    (hu : s.fsm.unknownStateHandler = none ∨ beforeNeverUnknown s.fsm condition) :
    (executeTransition env condition args s).2.fsm.current = s.fsm.current := by
  rcases executeTransition_cases env condition args s with
    ⟨_, hr⟩ | ⟨dst, hl, ⟨_, hr⟩ | ⟨cb, hcb, ⟨_, hr⟩ | ⟨_, hk, hr⟩ | ⟨_, _, hr⟩⟩⟩
  · rw [hr]
    rfl
  · rw [hr]
    exact executeTransition_change_rollback env condition args _ _ _ hs
  · rw [hr]
    rfl
  · rw [hr]
    rcases hu with hu | hu
    · exact handleUnknownState_current_of_no_handler env condition args _ _ hu
    · exact absurd hk (hu cb hcb _ _ _ _)
  · rw [hr]
    refine executeTransition_change_rollback env condition args _ _ _ ?_
    unfold saveAlwaysFails
    rw [mergeMetadata_repo]
    exact hs

end CallCurrent

/-- C1, as stated, fails: with one retry, the first attempt moves `created` to
`processing` and its after-hook reports failure; the second attempt starts from
`processing` and succeeds.  `Transition` returns no error and `Current()` is `done`,
while the table gives `processing` for (`created`, `next`). -/
theorem C1_counterexample :
    (Transition quietEnv "next" Value.nil [WithRetry 1 noDelay] relaySt).1 = none ∧
    Current (Transition quietEnv "next" Value.nil [WithRetry 1 noDelay] relaySt).2.fsm
      = "done" ∧
    lookupTransition relaySt.fsm.transitions (Current relaySt.fsm) "next"
      = some "processing" := by
  have h1 : (executeTransition quietEnv "next" Value.nil relaySt).1
      = some (Error.new "not yet") := by decide
  have h2 : (executeTransition quietEnv "next" Value.nil
      (afterWait quietEnv (applyOptions [WithRetry 1 noDelay]) 0
        (executeTransition quietEnv "next" Value.nil relaySt).2)).1 = none := by decide
  have hr : Transition quietEnv "next" Value.nil [WithRetry 1 noDelay] relaySt
      = (none, (executeTransition quietEnv "next" Value.nil
          (afterWait quietEnv (applyOptions [WithRetry 1 noDelay]) 0
            (executeTransition quietEnv "next" Value.nil relaySt).2)).2) := by
    unfold Transition
    rw [transitionLoop_retry quietEnv (applyOptions [WithRetry 1 noDelay]) "next" Value.nil
      0 relaySt (Error.new "not yet") (by decide) h1 (by decide) rfl]
    exact transitionLoop_ok quietEnv (applyOptions [WithRetry 1 noDelay]) "next" Value.nil
      (0 + 1) _ (by decide) h2
  rw [hr]
  exact ⟨rfl, by decide, by decide⟩

/-- C1, amended: if `Transition` returns no error and the call makes a single
attempt (`maxRetries ≤ 0`, as with the default options) or no after-hook registered
for the condition ever reports failure, then `Current()` after the call is the
destination the table gives for (`Current()` before the call, condition). -/
theorem C1_success_reaches_table_destination {σ : Type} (env : Env σ) (condition : String)
    (args : Value) (opts : List (TransitionOption σ)) (s : St σ)
    (hok : (Transition env condition args opts s).1 = none)
    (h : (applyOptions opts).maxRetries ≤ 0 ∨ afterNeverFails s.fsm condition) :
    lookupTransition s.fsm.transitions (Current s.fsm) condition
      = some (Current (Transition env condition args opts s).2.fsm) := by
  unfold Transition at hok ⊢
  unfold Current
  rcases h with h | h
  · have fin := transitionLoop_finished env (applyOptions opts) condition args
      (fun k s' => 0 ≤ k ∧ (k = 0 → s' = s))
      (by
        intro k s' e hk hP _ _ _
        omega)
      (by
        intro s' e hP _ _
        exact ⟨by omega, by omega⟩)
      _ 0 s rfl ⟨le_refl _, fun _ => rfl⟩
    generalize transitionLoop env (applyOptions opts) condition args 0 s = r at fin hok
    cases fin with
    | exhausted k s' hk hP => cases hok
    | ok k s' hk hP hx =>
      have hs : s' = s := hP.2 (by omega)
      subst hs
      exact executeTransition_ok_current env condition args s' hx
    | unknown k s' e hk hP hx hu => cases hok
    | cancelled k s' e hk hP hx hu hc => cases hok
  · have keep : ∀ (s' : St σ) (e : Error),
        (sameSetup s.fsm s'.fsm ∧ s'.fsm.current = s.fsm.current) →
        (executeTransition env condition args s').1 = some e →
        Error.Is e Error.ErrUnknownState = false →
        sameSetup s.fsm (executeTransition env condition args s').2.fsm ∧
          (executeTransition env condition args s').2.fsm.current = s.fsm.current := by
      intro s' e hP hx hu
      refine ⟨sameSetup_trans hP.1 (executeTransition_sameSetup env condition args s'), ?_⟩
      rw [executeTransition_err_current env condition args s' e hx hu
        (by unfold afterNeverFails; rw [hP.1.2.2.2.1]; exact h)]
      exact hP.2
    have fin := transitionLoop_finished env (applyOptions opts) condition args
      (fun _ s' => sameSetup s.fsm s'.fsm ∧ s'.fsm.current = s.fsm.current)
      (fun k s' e _ hP hx hu _ => keep s' e hP hx hu)
      (fun s' e hP hx hu => keep s' e hP hx hu)
      _ 0 s rfl ⟨sameSetup_refl _, rfl⟩
    generalize transitionLoop env (applyOptions opts) condition args 0 s = r at fin hok
    cases fin with
    | exhausted k s' hk hP => cases hok
    | ok k s' hk hP hx =>
      have := executeTransition_ok_current env condition args s' hx
      rw [hP.1.2.1, hP.2] at this
      exact this
    | unknown k s' e hk hP hx hu => cases hok
    | cancelled k s' e hk hP hx hu hc => cases hok

/-- Witness for C1 (amended): the entity of the example without hooks, `process`
with the default options. -/
theorem C1_success_reaches_table_destination_witness :
    (Transition quietEnv "process" Value.nil [] orderSt).1 = none ∧
    ((applyOptions ([] : List (TransitionOption Unit))).maxRetries ≤ 0 ∨
      afterNeverFails orderSt.fsm "process") ∧
    lookupTransition orderSt.fsm.transitions (Current orderSt.fsm) "process"
      = some (Current (Transition quietEnv "process" Value.nil [] orderSt).2.fsm) :=
  have hok : (Transition quietEnv "process" Value.nil [] orderSt).1 = none := by
    unfold Transition
    rw [transitionLoop_ok quietEnv (applyOptions []) "process" Value.nil 0 orderSt
      (by decide) (by decide)]
  ⟨hok, Or.inl (by decide),
    C1_success_reaches_table_destination quietEnv "process" Value.nil [] orderSt hok
      (Or.inl (by decide))⟩

/-- C2, as stated, fails: on a storage that is forced to fail, the before-hook of the
example reports unknown, the resolver moves the entity to `error`, the best-effort
`Save` fails and is swallowed, and `Current()` is `error` instead of `created`. -/
theorem C2_counterexample :
    saveAlwaysFails gatewaySt.fsm ∧
    failedSaveCalls (Transition quietEnv "process" Value.nil [] gatewaySt).2.trace = 1 ∧
    Current gatewaySt.fsm = "created" ∧
    Current (Transition quietEnv "process" Value.nil [] gatewaySt).2.fsm = "error" := by
  have hx : (executeTransition quietEnv "process" Value.nil gatewaySt).1
      = some Error.ErrUnknownState := by decide
  have hr := transitionLoop_unknown quietEnv (applyOptions []) "process" Value.nil 0
    gatewaySt Error.ErrUnknownState (by decide) hx (by decide)
  unfold Transition
  rw [hr]
  refine ⟨⟨failingRepo, rfl, ?_⟩, by decide, by decide, by decide⟩
  intro _ _ _ _ _ h
  cases h

/-- C2, amended: if the storage collaborator's `Save` fails whenever it is called,
and the unknown-state resolver cannot run (the entity has none, or the before-hook
never reports unknown), then `Current()` after a `Transition` call equals
`Current()` before it. -/
theorem C2_failed_save_rolls_back {σ : Type} (env : Env σ) (condition : String)
    (args : Value) (opts : List (TransitionOption σ)) (s : St σ)
    (hs : saveAlwaysFails s.fsm)
    (hu : s.fsm.unknownStateHandler = none ∨ beforeNeverUnknown s.fsm condition) :
    Current (Transition env condition args opts s).2.fsm = Current s.fsm := by
  unfold Transition Current
  refine (transitionLoop_preserves env (applyOptions opts) condition args
    (fun s' => sameSetup s.fsm s'.fsm ∧ s'.fsm.current = s.fsm.current)
    ?_ (fun _ _ h => h) 0 s ⟨sameSetup_refl _, rfl⟩).2
  intro s' hP
  refine ⟨sameSetup_trans hP.1 (executeTransition_sameSetup env condition args s'), ?_⟩
  rw [executeTransition_current_of_failing_storage env condition args s' ?_ ?_]
  · exact hP.2
  · unfold saveAlwaysFails
    rw [hP.1.2.2.1]
    exact hs
  · unfold beforeNeverUnknown
    rw [hP.1.2.2.2.1, hP.1.2.2.2.2]
    exact hu

/-- Witness for C2 (amended): an entity without resolver on a storage that is forced
to fail. -/
theorem C2_failed_save_rolls_back_witness :
    saveAlwaysFails stuckSt.fsm ∧
    (stuckSt.fsm.unknownStateHandler = none ∨ beforeNeverUnknown stuckSt.fsm "process") ∧
    Current (Transition quietEnv "process" Value.nil [WithRetry 2 noDelay] stuckSt).2.fsm
      = Current stuckSt.fsm :=
  have hs : saveAlwaysFails stuckSt.fsm :=
    ⟨failingRepo, rfl, fun _ _ _ _ _ h => by cases h⟩
  ⟨hs, Or.inl rfl,
    C2_failed_save_rolls_back quietEnv "process" Value.nil [WithRetry 2 noDelay] stuckSt
      hs (Or.inl rfl)⟩

/-! ## Metadata across one attempt -/

section MetadataAttempt

variable {σ : Type} (env : Env σ) (condition : String) (args : Value)

theorem hooksReturn_append (D : GoMap Value) (a b : List Event) :
    hooksReturn D (a ++ b) ↔ hooksReturn D a ∧ hooksReturn D b := by
  simp only [hooksReturn, List.mem_append]
  constructor
  · intro h
    exact ⟨fun e he => h e (Or.inl he), fun e he => h e (Or.inr he)⟩
  · rintro ⟨ha, hb⟩ e (he | he)
    · exact ha e he
    · exact hb e he

theorem noHookFailed_append (a b : List Event) :
    noHookFailed (a ++ b) ↔ noHookFailed a ∧ noHookFailed b := by
  simp only [noHookFailed, List.mem_append]
  constructor
  · intro h
    exact ⟨fun e he => h e (Or.inl he), fun e he => h e (Or.inr he)⟩
  · rintro ⟨ha, hb⟩ e (he | he)
    · exact ha e he
    · exact hb e he

theorem persist_trace (ctx : Ctx) (s : St σ) :
    ∃ l, (persist ctx s).2.trace = s.trace ++ l ∧ ∀ e ∈ l, e.result = none := by
  unfold persist
  cases s.fsm.repo with
  | none => exact ⟨[], by simp, by simp⟩
  | some repo => exact ⟨[_], rfl, by simp [Event.result]⟩

theorem mergeMetadata_metadata_some (D : GoMap Value) (s : St σ) (k : String) :
    (mergeMetadata (some D) s).fsm.metadata k
      = match D k with
        | some v => some v
        | none => s.fsm.metadata k := rfl

theorem mergeMetadata_holdsDelta (D : GoMap Value) (s : St σ) :
    holdsDelta D (mergeMetadata (some D) s).fsm := by
  intro k v h
  rw [mergeMetadata_metadata_some, h]

theorem mergeMetadata_other (D : GoMap Value) (s : St σ) (k : String) (h : D k = none) :
    (mergeMetadata (some D) s).fsm.metadata k = s.fsm.metadata k := by
  rw [mergeMetadata_metadata_some, h]

theorem handleCallbackError_metadata (frm dst m : String) (s : St σ) (k : String)
    (h : k ≠ "callback_error") :
    (handleCallbackError env condition frm dst m s).2.fsm.metadata k = s.fsm.metadata k := by
  simp [handleCallbackError, GoMap.set, h]

theorem handleUnknownState_trace (frm : String) (s : St σ) :
    ∃ l, (handleUnknownState env condition frm args s).2.trace = s.trace ++ l := by
  unfold handleUnknownState
  cases s.fsm.unknownStateHandler with
  | none => exact ⟨[], by simp⟩
  | some h =>
    dsimp only
    obtain ⟨l, hl, _⟩ := persist_trace Ctx.background
      ({ fsm := { s.fsm with current := (h frm condition args s.world).1 }
         world := (h frm condition args s.world).2
         trace := s.trace ++ [Event.resolver frm condition args
           (h frm condition args s.world).1] } : St σ)
    exact ⟨Event.resolver frm condition args (h frm condition args s.world).1 :: l,
      by rw [hl]; simp⟩

theorem hooksReturn_singleton (D : GoMap Value) (phase : Phase) (c frm dst : String)
    (a : Value) (r : CallbackResult)
    (h : hooksReturn D [Event.hook phase c frm dst a r]) : r.Metadata = some D :=
  h _ (List.mem_singleton.mpr rfl) r rfl

theorem noHookFailed_singleton (phase : Phase) (c frm dst : String)
    (a : Value) (r : CallbackResult)
    (h : noHookFailed [Event.hook phase c frm dst a r]) : r.Status ≠ StatusFailure :=
  h _ (List.mem_singleton.mpr rfl) r rfl

/-- What the after-hook part of an attempt does to the metadata: a key outside the
hook's delta keeps its entry unless a diagnostic overwrites it, and after success
the delta is in the metadata. -/
theorem executeTransition_after_metadata (frm dst : String) (s : St σ) :
    ∃ l, (executeTransition_after env condition args frm dst s).2.trace = s.trace ++ l ∧
    (∀ D k, hooksReturn D l → D k = none → (k ≠ "callback_error" ∨ noHookFailed l) →
      (executeTransition_after env condition args frm dst s).1
        ≠ some Error.ErrUnknownState →
      (executeTransition_after env condition args frm dst s).2.fsm.metadata k
        = s.fsm.metadata k) ∧
    (∀ D, (executeTransition_after env condition args frm dst s).1 = none →
      hooksReturn D l →
      (s.fsm.callbacks.after condition ≠ none ∨ holdsDelta D s.fsm) →
      holdsDelta D (executeTransition_after env condition args frm dst s).2.fsm) := by
  rcases executeTransition_after_cases env condition args frm dst s with
    ⟨hcb, hr⟩ | ⟨cb, hcb, ⟨hf, hr⟩ | ⟨_, _, hr⟩ | ⟨_, _, hr⟩⟩
  · rw [hr]
    refine ⟨[], by simp, fun _ _ _ _ _ _ => rfl, ?_⟩
    intro D _ _ h
    rcases h with h | h
    · exact absurd hcb h
    · exact h
  · rw [hr]
    refine ⟨[Event.hook Phase.after condition frm dst args
      (cb condition frm dst args s.world).1], rfl, ?_, ?_⟩
    · intro D k _ _ hq _
      rcases hq with hq | hq
      · exact handleCallbackError_metadata env condition frm dst _ _ k hq
      · exact absurd hf (noHookFailed_singleton _ _ _ _ _ _ hq)
    · intro D h
      cases h
  · rw [hr]
    obtain ⟨l, hl⟩ := handleUnknownState_trace env condition args frm
      (hooked Phase.after condition frm dst args (cb condition frm dst args s.world) s)
    refine ⟨Event.hook Phase.after condition frm dst args
      (cb condition frm dst args s.world).1 :: l, by rw [hl]; simp, ?_, ?_⟩
    · intro D k _ _ _ h
      exact absurd rfl h
    · intro D h
      cases h
  · rw [hr]
    refine ⟨[Event.hook Phase.after condition frm dst args
      (cb condition frm dst args s.world).1], by simp, ?_, ?_⟩
    · intro D k hD hk _ _
      rw [hooksReturn_singleton D _ _ _ _ _ _ hD]
      exact mergeMetadata_other D _ k hk
    · intro D _ hD _
      rw [hooksReturn_singleton D _ _ _ _ _ _ hD]
      exact mergeMetadata_holdsDelta D _

theorem executeTransition_change_metadata (frm dst : String) (s : St σ) :
    ∃ l, (executeTransition_change env condition args frm dst s).2.trace = s.trace ++ l ∧
    (∀ D k, hooksReturn D l → D k = none → (k ≠ "callback_error" ∨ noHookFailed l) →
      (executeTransition_change env condition args frm dst s).1
        ≠ some Error.ErrUnknownState →
      (executeTransition_change env condition args frm dst s).2.fsm.metadata k
        = s.fsm.metadata k) ∧
    (∀ D, (executeTransition_change env condition args frm dst s).1 = none →
      hooksReturn D l →
      (s.fsm.callbacks.after condition ≠ none ∨ holdsDelta D s.fsm) →
      holdsDelta D (executeTransition_change env condition args frm dst s).2.fsm) := by
  obtain ⟨lp, hlp, _⟩ := persist_trace Ctx.caller (moved dst s)
  have hfsm : (persist Ctx.caller (moved dst s)).2.fsm = (moved dst s).fsm := persist_fsm _ _
  rcases executeTransition_change_cases env condition args frm dst s with
    ⟨err, _, hr⟩ | ⟨_, hr⟩
  · rw [hr]
    refine ⟨lp, by rw [← moved_trace dst s, ← hlp]; rfl, ?_, ?_⟩
    · intro D k _ _ _ _
      show (persist Ctx.caller (moved dst s)).2.fsm.metadata k = s.fsm.metadata k
      rw [hfsm]
      rfl
    · intro D h
      cases h
  · rw [hr]
    obtain ⟨la, hla, hb, hc⟩ := executeTransition_after_metadata env condition args frm dst
      (persist Ctx.caller (moved dst s)).2
    refine ⟨lp ++ la, by rw [hla, hlp, moved_trace, List.append_assoc], ?_, ?_⟩
    · intro D k hD hk hq hne
      rw [hb D k ((hooksReturn_append D lp la).mp hD).2 hk
        (hq.imp id (fun h => ((noHookFailed_append lp la).mp h).2)) hne, hfsm]
      rfl
    · intro D hok hD h
      refine hc D hok ((hooksReturn_append D lp la).mp hD).2 ?_
      rw [hfsm]
      exact h

/-- What one attempt does to the metadata. -/
theorem executeTransition_metadata (s : St σ) :
    ∃ l, (executeTransition env condition args s).2.trace = s.trace ++ l ∧
    (∀ D k, hooksReturn D l → D k = none → (k ≠ "callback_error" ∨ noHookFailed l) →
      (executeTransition env condition args s).1 ≠ some Error.ErrUnknownState →
      (executeTransition env condition args s).2.fsm.metadata k = s.fsm.metadata k) ∧
    (∀ D, (executeTransition env condition args s).1 = none →
      hooksReturn D l →
      (hasHook s.fsm condition ∨ holdsDelta D s.fsm) →
      holdsDelta D (executeTransition env condition args s).2.fsm) := by
  rcases executeTransition_cases env condition args s with
    ⟨_, hr⟩ | ⟨dst, hl, ⟨hcb, hr⟩ | ⟨cb, hcb, ⟨hf, hr⟩ | ⟨_, _, hr⟩ | ⟨_, _, hr⟩⟩⟩
  · rw [hr]
    refine ⟨[_], rfl, fun _ _ _ _ _ _ => rfl, ?_⟩
    intro D h
    cases h
  · rw [hr]
    obtain ⟨lc, hlc, hb, hc⟩ := executeTransition_change_metadata env condition args
      s.fsm.current dst (entered condition s)
    refine ⟨[Event.attempt s.fsm.current condition] ++ lc, by rw [hlc]; simp, ?_, ?_⟩
    · intro D k hD hk hq hne
      exact hb D k ((hooksReturn_append D _ lc).mp hD).2 hk
        (hq.imp id (fun h => ((noHookFailed_append _ lc).mp h).2)) hne
    · intro D hok hD h
      refine hc D hok ((hooksReturn_append D _ lc).mp hD).2 ?_
      rcases h with h | h
      · rcases h with h | h
        · exact absurd hcb h
        · exact Or.inl h
      · exact Or.inr h
  · rw [hr]
    refine ⟨[Event.attempt s.fsm.current condition,
      Event.hook Phase.before condition s.fsm.current dst args
        (cb condition s.fsm.current dst args s.world).1], by simp, ?_, ?_⟩
    · intro D k _ _ hq _
      rcases hq with hq | hq
      · exact handleCallbackError_metadata env condition _ dst _ _ k hq
      · exact absurd hf (noHookFailed_singleton _ _ _ _ _ _
          ((noHookFailed_append [_] [_]).mp hq).2)
    · intro D h
      cases h
  · rw [hr]
    obtain ⟨l, hl⟩ := handleUnknownState_trace env condition args s.fsm.current
      (hooked Phase.before condition s.fsm.current dst args
        (cb condition s.fsm.current dst args s.world) (entered condition s))
    refine ⟨Event.attempt s.fsm.current condition ::
      Event.hook Phase.before condition s.fsm.current dst args
        (cb condition s.fsm.current dst args s.world).1 :: l, by rw [hl]; simp, ?_, ?_⟩
    · intro D k _ _ _ h
      exact absurd rfl h
    · intro D h
      cases h
  · rw [hr]
    obtain ⟨lc, hlc, hb, hc⟩ := executeTransition_change_metadata env condition args
      s.fsm.current dst
      (mergeMetadata (cb condition s.fsm.current dst args s.world).1.Metadata
        (hooked Phase.before condition s.fsm.current dst args
          (cb condition s.fsm.current dst args s.world) (entered condition s)))
    refine ⟨[Event.attempt s.fsm.current condition,
      Event.hook Phase.before condition s.fsm.current dst args
        (cb condition s.fsm.current dst args s.world).1] ++ lc, by rw [hlc]; simp, ?_, ?_⟩
    · intro D k hD hk hq hne
      have hD' := (hooksReturn_append D _ lc).mp hD
      have hm := hooksReturn_singleton D _ _ _ _ _ _
        ((hooksReturn_append D [_] [_]).mp hD'.1).2
      rw [hb D k hD'.2 hk (hq.imp id (fun h => ((noHookFailed_append _ lc).mp h).2)) hne,
        hm]
      exact mergeMetadata_other D _ k hk
    · intro D hok hD _
      have hD' := (hooksReturn_append D _ lc).mp hD
      have hm := hooksReturn_singleton D _ _ _ _ _ _
        ((hooksReturn_append D [_] [_]).mp hD'.1).2
      refine hc D hok hD'.2 (Or.inr ?_)
      rw [hm]
      exact mergeMetadata_holdsDelta D _

theorem mergeMetadata_keeps (u : Option (GoMap Value)) (s : St σ) (k : String)
    (h : s.fsm.metadata k ≠ none) : (mergeMetadata u s).fsm.metadata k ≠ none := by
  cases u with
  | none => exact h
  | some D =>
    rw [mergeMetadata_metadata_some]
    cases D k with
    | none => exact h
    | some v => simp

theorem handleCallbackError_keeps (frm dst m : String) (s : St σ) (k : String)
    (h : s.fsm.metadata k ≠ none) :
    (handleCallbackError env condition frm dst m s).2.fsm.metadata k ≠ none := by
  simp only [handleCallbackError, GoMap.set]
  split
  · simp
  · exact h

theorem handleUnknownState_keeps (frm : String) (s : St σ) (k : String)
    (h : s.fsm.metadata k ≠ none) :
    (handleUnknownState env condition frm args s).2.fsm.metadata k ≠ none := by
  unfold handleUnknownState
  simp only [GoMap.set]
  split
  · simp
  · cases s.fsm.unknownStateHandler with
    | none => exact h
    | some hd =>
      dsimp only
      rw [persist_fsm]
      exact h

theorem executeTransition_after_keeps (frm dst : String) (s : St σ) (k : String)
    (h : s.fsm.metadata k ≠ none) :
    (executeTransition_after env condition args frm dst s).2.fsm.metadata k ≠ none := by
  rcases executeTransition_after_cases env condition args frm dst s with
    ⟨_, hr⟩ | ⟨cb, _, ⟨_, hr⟩ | ⟨_, _, hr⟩ | ⟨_, _, hr⟩⟩
  · rw [hr]
    exact h
  · rw [hr]
    exact handleCallbackError_keeps env condition _ _ _ _ k h
  · rw [hr]
    exact handleUnknownState_keeps env condition args _ _ k h
  · rw [hr]
    exact mergeMetadata_keeps _ _ k h

theorem executeTransition_change_keeps (frm dst : String) (s : St σ) (k : String)
    (h : s.fsm.metadata k ≠ none) :
    (executeTransition_change env condition args frm dst s).2.fsm.metadata k ≠ none := by
  have hfsm : (persist Ctx.caller (moved dst s)).2.fsm = (moved dst s).fsm := persist_fsm _ _
  rcases executeTransition_change_cases env condition args frm dst s with
    ⟨err, _, hr⟩ | ⟨_, hr⟩
  · rw [hr]
    show (persist Ctx.caller (moved dst s)).2.fsm.metadata k ≠ none
    rw [hfsm]
    exact h
  · rw [hr]
    refine executeTransition_after_keeps env condition args frm dst _ k ?_
    rw [hfsm]
    exact h

/-- No attempt removes a key from the metadata. -/
theorem executeTransition_keeps (s : St σ) (k : String) (h : s.fsm.metadata k ≠ none) :
    (executeTransition env condition args s).2.fsm.metadata k ≠ none := by
  rcases executeTransition_cases env condition args s with
    ⟨_, hr⟩ | ⟨dst, hl, ⟨hcb, hr⟩ | ⟨cb, hcb, ⟨hf, hr⟩ | ⟨_, _, hr⟩ | ⟨_, _, hr⟩⟩⟩
  · rw [hr]
    exact h
  · rw [hr]
    exact executeTransition_change_keeps env condition args _ _ _ k h
  · rw [hr]
    exact handleCallbackError_keeps env condition _ _ _ _ k h
  · rw [hr]
    exact handleUnknownState_keeps env condition args _ _ k h
  · rw [hr]
    exact executeTransition_change_keeps env condition args _ _ _ k
      (mergeMetadata_keeps _ _ k h)

end MetadataAttempt

/-! ## Metadata across a call -/

section MetadataCall

variable {σ : Type} (env : Env σ) (config : transitionConfig σ) (condition : String)
  (args : Value)

/-- No call changes the setup of the entity. -/
theorem transitionLoop_sameSetup (attempt : Int) (s : St σ) :
    sameSetup s.fsm (transitionLoop env config condition args attempt s).2.fsm :=
  transitionLoop_preserves env config condition args (fun s' => sameSetup s.fsm s'.fsm)
    (fun s' h => sameSetup_trans h (executeTransition_sameSetup env condition args s'))
    (fun _ _ h => h) attempt s (sameSetup_refl _)

/-- No call removes a key from the metadata. -/
theorem transitionLoop_keeps (attempt : Int) (s : St σ) (k : String)
    (h : s.fsm.metadata k ≠ none) :
    (transitionLoop env config condition args attempt s).2.fsm.metadata k ≠ none :=
  transitionLoop_preserves env config condition args (fun s' => s'.fsm.metadata k ≠ none)
    (fun s' h => executeTransition_keeps env condition args s' k h)
    (fun _ _ h => h) attempt s h

theorem Is_of_eq_unknown (e : Error) (h : Error.Is e Error.ErrUnknownState = false) :
    some e ≠ some Error.ErrUnknownState := by
  intro he
  cases he
  simp [Error.Is] at h

/-- What a successful call does to the metadata, in terms of the hook invocations
`l` it logged: a key outside the hooks' delta keeps its entry, unless it is
`callback_error` and a hook reported failure; and when a hook is registered for the
condition the delta is in the metadata at the end. -/
theorem transitionLoop_metadata (attempt : Int) (s : St σ)
    (hok : (transitionLoop env config condition args attempt s).1 = none) :
    ∃ l, (transitionLoop env config condition args attempt s).2.trace = s.trace ++ l ∧
    (∀ D k, hooksReturn D l → D k = none → (k ≠ "callback_error" ∨ noHookFailed l) →
      (transitionLoop env config condition args attempt s).2.fsm.metadata k
        = s.fsm.metadata k) ∧
    (∀ D, hooksReturn D l → hasHook s.fsm condition →
      holdsDelta D (transitionLoop env config condition args attempt s).2.fsm) := by
  have step : ∀ (s' : St σ),
      (sameSetup s.fsm s'.fsm ∧ ∃ l, s'.trace = s.trace ++ l ∧
        ∀ D k, hooksReturn D l → D k = none → (k ≠ "callback_error" ∨ noHookFailed l) →
          s'.fsm.metadata k = s.fsm.metadata k) →
      (executeTransition env condition args s').1 ≠ some Error.ErrUnknownState →
      (sameSetup s.fsm (executeTransition env condition args s').2.fsm ∧
        ∃ l, (executeTransition env condition args s').2.trace = s.trace ++ l ∧
        ∀ D k, hooksReturn D l → D k = none → (k ≠ "callback_error" ∨ noHookFailed l) →
          (executeTransition env condition args s').2.fsm.metadata k
            = s.fsm.metadata k) := by
    intro s' hP hne
    obtain ⟨hset, l, hl, hb⟩ := hP
    obtain ⟨la, hla, hba, _⟩ := executeTransition_metadata env condition args s'
    refine ⟨sameSetup_trans hset (executeTransition_sameSetup env condition args s'),
      l ++ la, by rw [hla, hl, List.append_assoc], ?_⟩
    intro D k hD hk hq
    have hD' := (hooksReturn_append D l la).mp hD
    rw [hba D k hD'.2 hk (hq.imp id (fun h => ((noHookFailed_append l la).mp h).2)) hne]
    exact hb D k hD'.1 hk (hq.imp id (fun h => ((noHookFailed_append l la).mp h).1))
  have fin := transitionLoop_finished env config condition args
    (fun _ s' => sameSetup s.fsm s'.fsm ∧ ∃ l, s'.trace = s.trace ++ l ∧
      ∀ D k, hooksReturn D l → D k = none → (k ≠ "callback_error" ∨ noHookFailed l) →
        s'.fsm.metadata k = s.fsm.metadata k)
    (by
      intro k s' e _ hP hx hu _
      obtain ⟨hset, l, hl, hb⟩ := step s' hP (by rw [hx]; exact Is_of_eq_unknown e hu)
      refine ⟨hset, l ++ [Event.backoff k
          (config.backoff k (executeTransition env condition args s').2.world).1,
        Event.wait (config.backoff k (executeTransition env condition args s').2.world).1
          (cancelledAt env config k (executeTransition env condition args s').2)],
        by rw [afterWait_trace, hl, List.append_assoc], ?_⟩
      intro D key hD hk hq
      exact hb D key ((hooksReturn_append D l _).mp hD).1 hk
        (hq.imp id (fun h => ((noHookFailed_append l _).mp h).1)))
    (by
      intro s' e hP hx hu
      exact step s' hP (by rw [hx]; exact Is_of_eq_unknown e hu))
    _ attempt s rfl ⟨sameSetup_refl _, [], by simp, fun _ _ _ _ _ => rfl⟩
  generalize transitionLoop env config condition args attempt s = r at fin hok
  cases fin with
  | exhausted k s' hk hP => cases hok
  | unknown k s' e hk hP hx hu => cases hok
  | cancelled k s' e hk hP hx hu hc => cases hok
  | ok k s' hk hP hx =>
    obtain ⟨hset, l, hl, hb⟩ := hP
    obtain ⟨la, hla, hba, hca⟩ := executeTransition_metadata env condition args s'
    refine ⟨l ++ la, by rw [hla, hl, List.append_assoc], ?_, ?_⟩
    · intro D key hD hk hq
      have hD' := (hooksReturn_append D l la).mp hD
      rw [hba D key hD'.2 hk (hq.imp id (fun h => ((noHookFailed_append l la).mp h).2))
        (by rw [hx]; simp)]
      exact hb D key hD'.1 hk (hq.imp id (fun h => ((noHookFailed_append l la).mp h).1))
    · intro D hD hh
      refine hca D hx ((hooksReturn_append D l la).mp hD).2 (Or.inl ?_)
      unfold hasHook at hh ⊢
      rw [hset.2.2.2.1]
      exact hh

end MetadataCall

/-! ## Claim on the metadata merge -/

theorem parcel_open : Transition quietEnv "open" Value.nil [] parcelSt
    = (none, parcelOpened) := by
  unfold Transition
  exact transitionLoop_ok quietEnv (applyOptions []) "open" Value.nil 0 parcelSt
    (by decide) (by decide)

theorem parcel_next : Transition quietEnv "next" Value.nil [WithRetry 1 noDelay] parcelOpened
    = (none, (executeTransition quietEnv "next" Value.nil
        (afterWait quietEnv (applyOptions [WithRetry 1 noDelay]) 0
          (executeTransition quietEnv "next" Value.nil parcelOpened).2)).2) := by
  have h1 : (executeTransition quietEnv "next" Value.nil parcelOpened).1
      = some (Error.new "not yet") := by decide
  unfold Transition
  rw [transitionLoop_retry quietEnv (applyOptions [WithRetry 1 noDelay]) "next" Value.nil
    0 parcelOpened (Error.new "not yet") (by decide) h1 (by decide) rfl]
  exact transitionLoop_ok quietEnv (applyOptions [WithRetry 1 noDelay]) "next" Value.nil
    (0 + 1) _ (by decide) (by decide)

theorem parcel_process : Transition quietEnv "process" Value.nil [] parcelOpened
    = (none, (executeTransition quietEnv "process" Value.nil parcelOpened).2) := by
  unfold Transition
  exact transitionLoop_ok quietEnv (applyOptions []) "process" Value.nil 0 parcelOpened
    (by decide) (by decide)

theorem noteDelta_stageDelta_disjoint (k : String) :
    noteDelta k = none ∨ stageDelta k = none := by
  by_cases h : k = "stage"
  · left
    subst h
    rfl
  · right
    simp [stageDelta, GoMap.set, GoMap.empty, h]

theorem hooksReturn_openEvents : hooksReturn noteDelta openEvents := by
  intro e he r hr
  simp only [openEvents, List.mem_cons, List.mem_singleton, List.not_mem_nil, or_false] at he
  rcases he with he | he <;> subst he <;> simp only [Event.result] at hr
  · cases hr
  · cases hr
    rfl

theorem hooksReturn_processEvents : hooksReturn stageDelta processEvents := by
  intro e he r hr
  simp only [processEvents, List.mem_cons, List.mem_singleton, List.not_mem_nil,
    or_false] at he
  rcases he with he | he <;> subst he <;> simp only [Event.result] at hr
  · cases hr
  · cases hr
    rfl

theorem noHookFailed_processEvents : noHookFailed processEvents := by
  intro e he r hr
  simp only [processEvents, List.mem_cons, List.mem_singleton, List.not_mem_nil,
    or_false] at he
  rcases he with he | he <;> subst he <;> simp only [Event.result] at hr
  · cases hr
  · cases hr
    decide

theorem hooksReturn_nextEvents : hooksReturn stageDelta nextEvents := by
  intro e he r hr
  simp only [nextEvents, List.mem_cons, List.mem_singleton, List.not_mem_nil, or_false] at he
  rcases he with he | he | he | he | he | he <;> subst he <;>
    simp only [Event.result] at hr <;> cases hr <;> rfl

/-- C9, as stated, fails: `open` succeeds and its hook returns `noteDelta`, whose key
is `callback_error`; `next` succeeds on its second attempt and its hook returns the
disjoint `stageDelta`, but its first attempt ended with an after-hook failure, whose
diagnostic record replaced the value `noteDelta` gave to `callback_error`. -/
theorem C9_counterexample :
    (Transition quietEnv "open" Value.nil [] parcelSt).1 = none ∧
    (Transition quietEnv "next" Value.nil [WithRetry 1 noDelay]
      (Transition quietEnv "open" Value.nil [] parcelSt).2).1 = none ∧
    (Transition quietEnv "open" Value.nil [] parcelSt).2.trace
      = parcelSt.trace ++ openEvents ∧
    (Transition quietEnv "next" Value.nil [WithRetry 1 noDelay]
        (Transition quietEnv "open" Value.nil [] parcelSt).2).2.trace
      = (Transition quietEnv "open" Value.nil [] parcelSt).2.trace ++ nextEvents ∧
    hooksReturn noteDelta openEvents ∧
    hooksReturn stageDelta nextEvents ∧
    (∀ k, noteDelta k = none ∨ stageDelta k = none) ∧
    noteDelta "callback_error" = some (Value.str "none") ∧
    Metadata (Transition quietEnv "next" Value.nil [WithRetry 1 noDelay]
        (Transition quietEnv "open" Value.nil [] parcelSt).2).2.fsm "callback_error"
      = some (Value.obj [("condition", Value.str "next"), ("from", Value.str "created"),
          ("to", Value.str "processing"), ("error", Value.str "not yet"),
          ("timestamp", Value.time 0)]) ∧
    Metadata (Transition quietEnv "next" Value.nil [WithRetry 1 noDelay]
        (Transition quietEnv "open" Value.nil [] parcelSt).2).2.fsm "callback_error"
      ≠ some (Value.str "none") := by
  have hval : Metadata (Transition quietEnv "next" Value.nil [WithRetry 1 noDelay]
        (Transition quietEnv "open" Value.nil [] parcelSt).2).2.fsm "callback_error"
      = some (Value.obj [("condition", Value.str "next"), ("from", Value.str "created"),
          ("to", Value.str "processing"), ("error", Value.str "not yet"),
          ("timestamp", Value.time 0)]) := by
    rw [parcel_open, parcel_next]
    rfl
  refine ⟨?_, ?_, ?_, ?_, hooksReturn_openEvents, hooksReturn_nextEvents,
    noteDelta_stageDelta_disjoint, rfl, hval, ?_⟩
  · rw [parcel_open]
  · rw [parcel_open, parcel_next]
  · rw [parcel_open]
    rfl
  · rw [parcel_open, parcel_next]
    rfl
  · rw [hval]
    intro h
    cases h

/-- C9, amended: metadata merge is additive.  Take two successive successful
`Transition` calls, each on a condition with a registered hook, whose hook
invocations return the deltas `D1` and `D2` with disjoint key sets, and suppose that
`D1` does not use the reserved key `callback_error` or no hook reports failure
during the second call.  Then `Metadata()` afterwards maps every key of `D1` and of
`D2` to the value the delta gave it, and every key present before is still present. -/
theorem C9_metadata_merge_is_additive {σ : Type} (env1 env2 : Env σ)
    (c1 c2 : String) (a1 a2 : Value) (o1 o2 : List (TransitionOption σ)) (s0 : St σ)
    (D1 D2 : GoMap Value) (evs1 evs2 : List Event)
    (hok1 : (Transition env1 c1 a1 o1 s0).1 = none)
    (hok2 : (Transition env2 c2 a2 o2 (Transition env1 c1 a1 o1 s0).2).1 = none)
    (ht1 : (Transition env1 c1 a1 o1 s0).2.trace = s0.trace ++ evs1)
    (ht2 : (Transition env2 c2 a2 o2 (Transition env1 c1 a1 o1 s0).2).2.trace
      = (Transition env1 c1 a1 o1 s0).2.trace ++ evs2)
    (hh1 : hasHook s0.fsm c1) (hh2 : hasHook s0.fsm c2)
    (hD1 : hooksReturn D1 evs1) (hD2 : hooksReturn D2 evs2)
    (hdisj : ∀ k, D1 k = none ∨ D2 k = none)
    (hres : D1 "callback_error" = none ∨ noHookFailed evs2) :
    (∀ k v, D1 k = some v →
      Metadata (Transition env2 c2 a2 o2 (Transition env1 c1 a1 o1 s0).2).2.fsm k
        = some v) ∧
    (∀ k v, D2 k = some v →
      Metadata (Transition env2 c2 a2 o2 (Transition env1 c1 a1 o1 s0).2).2.fsm k
        = some v) ∧
    (∀ k, Metadata s0.fsm k ≠ none →
      Metadata (Transition env2 c2 a2 o2 (Transition env1 c1 a1 o1 s0).2).2.fsm k
        ≠ none) := by
  unfold Transition at hok1 hok2 ht1 ht2 ⊢
  unfold Metadata
  obtain ⟨l1, hl1, _, hc1⟩ := transitionLoop_metadata env1 (applyOptions o1) c1 a1 0 s0 hok1
  obtain ⟨l2, hl2, hb2, hc2⟩ := transitionLoop_metadata env2 (applyOptions o2) c2 a2 0
    (transitionLoop env1 (applyOptions o1) c1 a1 0 s0).2 hok2
  have e1 : l1 = evs1 := List.append_cancel_left (hl1.symm.trans ht1)
  have e2 : l2 = evs2 := List.append_cancel_left (hl2.symm.trans ht2)
  subst e1 e2
  have hset := transitionLoop_sameSetup env1 (applyOptions o1) c1 a1 0 s0
  have hfirst := hc1 D1 hD1 hh1
  refine ⟨?_, ?_, ?_⟩
  · intro k v hk
    have hk2 : D2 k = none := by
      rcases hdisj k with h | h
      · rw [h] at hk
        cases hk
      · exact h
    have hq : k ≠ "callback_error" ∨ noHookFailed l2 := by
      rcases hres with h | h
      · left
        intro hkeq
        rw [hkeq, h] at hk
        cases hk
      · exact Or.inr h
    rw [hb2 D2 k hD2 hk2 hq]
    exact hfirst k v hk
  · refine hc2 D2 hD2 ?_
    unfold hasHook at hh2 ⊢
    rw [hset.2.2.2.1]
    exact hh2
  · intro k hk
    exact transitionLoop_keeps env2 (applyOptions o2) c2 a2 0 _ k
      (transitionLoop_keeps env1 (applyOptions o1) c1 a1 0 s0 k hk)

theorem parcel_hasHook_open : hasHook parcelSt.fsm "open" := by
  have hb : parcelSt.fsm.callbacks.before "open" = some noteHook := rfl
  left
  rw [hb]
  simp

theorem parcel_hasHook_process : hasHook parcelSt.fsm "process" := by
  have hb : parcelSt.fsm.callbacks.before "process" = some stageHook := rfl
  left
  rw [hb]
  simp

theorem parcel_open_process_ok :
    (Transition quietEnv "process" Value.nil []
      (Transition quietEnv "open" Value.nil [] parcelSt).2).1 = none := by
  rw [parcel_open, parcel_process]

theorem parcel_open_process_trace :
    (Transition quietEnv "process" Value.nil []
        (Transition quietEnv "open" Value.nil [] parcelSt).2).2.trace
      = (Transition quietEnv "open" Value.nil [] parcelSt).2.trace ++ processEvents := by
  rw [parcel_open, parcel_process]
  rfl

/-- Witness for C9 (amended): `open` and then `process` on `parcelSt`, each
succeeding on its first attempt. -/
theorem C9_metadata_merge_is_additive_witness :
    (Transition quietEnv "open" Value.nil [] parcelSt).1 = none ∧
    (Transition quietEnv "process" Value.nil []
      (Transition quietEnv "open" Value.nil [] parcelSt).2).1 = none ∧
    (Transition quietEnv "open" Value.nil [] parcelSt).2.trace
      = parcelSt.trace ++ openEvents ∧
    (Transition quietEnv "process" Value.nil []
        (Transition quietEnv "open" Value.nil [] parcelSt).2).2.trace
      = (Transition quietEnv "open" Value.nil [] parcelSt).2.trace ++ processEvents ∧
    hasHook parcelSt.fsm "open" ∧ hasHook parcelSt.fsm "process" ∧
    hooksReturn noteDelta openEvents ∧ hooksReturn stageDelta processEvents ∧
    (∀ k, noteDelta k = none ∨ stageDelta k = none) ∧
    (noteDelta "callback_error" = none ∨ noHookFailed processEvents) ∧
    ((∀ k v, noteDelta k = some v →
        Metadata (Transition quietEnv "process" Value.nil []
          (Transition quietEnv "open" Value.nil [] parcelSt).2).2.fsm k = some v) ∧
      (∀ k v, stageDelta k = some v →
        Metadata (Transition quietEnv "process" Value.nil []
          (Transition quietEnv "open" Value.nil [] parcelSt).2).2.fsm k = some v) ∧
      (∀ k, Metadata parcelSt.fsm k ≠ none →
        Metadata (Transition quietEnv "process" Value.nil []
          (Transition quietEnv "open" Value.nil [] parcelSt).2).2.fsm k ≠ none)) :=
  have hok1 : (Transition quietEnv "open" Value.nil [] parcelSt).1 = none := by
    rw [parcel_open]
  have ht1 : (Transition quietEnv "open" Value.nil [] parcelSt).2.trace
      = parcelSt.trace ++ openEvents := by
    rw [parcel_open]
    rfl
  ⟨hok1, parcel_open_process_ok, ht1, parcel_open_process_trace, parcel_hasHook_open,
    parcel_hasHook_process, hooksReturn_openEvents, hooksReturn_processEvents,
    noteDelta_stageDelta_disjoint, Or.inr noHookFailed_processEvents,
    C9_metadata_merge_is_additive quietEnv quietEnv "open" "process" Value.nil Value.nil
      [] [] parcelSt noteDelta stageDelta openEvents processEvents hok1
      parcel_open_process_ok ht1 parcel_open_process_trace parcel_hasHook_open
      parcel_hasHook_process hooksReturn_openEvents hooksReturn_processEvents
      noteDelta_stageDelta_disjoint (Or.inr noHookFailed_processEvents)⟩

/-! ## Attempts that get past the before-hook phase -/

section Commit

variable {σ : Type} (env : Env σ) (condition : String) (args : Value)

theorem passesBefore_executeTransition (s : St σ) (dst : String) (s1 : St σ)
    (h : passesBefore condition args s dst s1) :
    executeTransition env condition args s
      = executeTransition_change env condition args s.fsm.current dst s1 := by
  obtain ⟨hl, h⟩ := h
  rcases executeTransition_cases env condition args s with
    ⟨hl', _⟩ | ⟨dst', hl', ⟨hcb', hr⟩ | ⟨cb', hcb', hc⟩⟩
  · rw [hl] at hl'
    cases hl'
  · rw [hl] at hl'
    cases hl'
    rcases h with ⟨_, h1⟩ | ⟨cb, hcb, _⟩
    · rw [hr, h1]
    · rw [hcb] at hcb'
      cases hcb'
  · rw [hl] at hl'
    cases hl'
    rcases h with ⟨hcb, _⟩ | ⟨cb, hcb, hnf, hnu, h1⟩
    · rw [hcb] at hcb'
      cases hcb'
    · rw [hcb] at hcb'
      cases hcb'
      rcases hc with ⟨hf, _⟩ | ⟨_, hu, _⟩ | ⟨_, _, hr⟩
      · exact absurd hf hnf
      · exact absurd hu hnu
      · rw [hr, h1]

theorem passesBefore_setup (s : St σ) (dst : String) (s1 : St σ)
    (h : passesBefore condition args s dst s1) :
    sameSetup s.fsm s1.fsm ∧ s1.fsm.current = s.fsm.current := by
  obtain ⟨_, h⟩ := h
  rcases h with ⟨_, h1⟩ | ⟨cb, _, _, _, h1⟩
  · subst h1
    exact ⟨sameSetup_refl _, rfl⟩
  · subst h1
    refine ⟨?_, by simp⟩
    unfold mergeMetadata
    split <;> exact sameSetup_refl _

theorem commits_executeTransition (s : St σ) (dst : String) (s2 : St σ)
    (h : commits condition args s dst s2) :
    executeTransition env condition args s
      = executeTransition_after env condition args s.fsm.current dst s2 := by
  obtain ⟨s1, hb, hp, h2⟩ := h
  rw [passesBefore_executeTransition env condition args s dst s1 hb]
  rcases executeTransition_change_cases env condition args s.fsm.current dst s1 with
    ⟨err, hp', _⟩ | ⟨_, hr⟩
  · rw [hp] at hp'
    cases hp'
  · rw [hr, h2]

theorem commits_setup (s : St σ) (dst : String) (s2 : St σ)
    (h : commits condition args s dst s2) :
    sameSetup s.fsm s2.fsm ∧ s2.fsm.current = dst ∧
      ∃ s1, passesBefore condition args s dst s1 ∧ s2.fsm.metadata = s1.fsm.metadata := by
  obtain ⟨s1, hb, _, h2⟩ := h
  have hs := passesBefore_setup condition args s dst s1 hb
  subst h2
  rw [persist_fsm]
  exact ⟨hs.1, rfl, s1, hb, rfl⟩

end Commit

/-! ## Hooks that report failure or unknown -/

section Outcome

variable {σ : Type} (env : Env σ) (condition : String) (args : Value)

theorem executeTransition_after_failure (frm dst : String) (s : St σ) (cb : CallbackFunc σ)
    (hcb : s.fsm.callbacks.after condition = some cb)
    (hf : (cb condition frm dst args s.world).1.Status = StatusFailure) :
    executeTransition_after env condition args frm dst s
      = (some (Error.new (cb condition frm dst args s.world).1.Message),
          (handleCallbackError env condition frm dst
            (cb condition frm dst args s.world).1.Message
            (hooked Phase.after condition frm dst args
              (cb condition frm dst args s.world) s)).2) := by
  rcases executeTransition_after_cases env condition args frm dst s with
    ⟨hcb', _⟩ | ⟨cb', hcb', h⟩
  · rw [hcb] at hcb'
    cases hcb'
  · rw [hcb] at hcb'
    cases hcb'
    rcases h with ⟨_, hr⟩ | ⟨hnf, _, _⟩ | ⟨hnf, _, _⟩
    · exact hr
    · exact absurd hf hnf
    · exact absurd hf hnf

theorem executeTransition_after_unknown (frm dst : String) (s : St σ) (cb : CallbackFunc σ)
    (hcb : s.fsm.callbacks.after condition = some cb)
    (hu : (cb condition frm dst args s.world).1.Status = StatusUnknown) :
    executeTransition_after env condition args frm dst s
      = (some Error.ErrUnknownState,
          (handleUnknownState env condition frm args
            (hooked Phase.after condition frm dst args
              (cb condition frm dst args s.world) s)).2) := by
  have hne : StatusUnknown ≠ StatusFailure := by decide
  rcases executeTransition_after_cases env condition args frm dst s with
    ⟨hcb', _⟩ | ⟨cb', hcb', h⟩
  · rw [hcb] at hcb'
    cases hcb'
  · rw [hcb] at hcb'
    cases hcb'
    rcases h with ⟨hf, _⟩ | ⟨_, _, hr⟩ | ⟨_, hnu, _⟩
    · rw [hu] at hf
      exact absurd hf hne
    · exact hr
    · exact absurd hu hnu

theorem executeTransition_eq_before_unknown (s : St σ) (dst : String) (cb : CallbackFunc σ)
    (hl : lookupTransition s.fsm.transitions s.fsm.current condition = some dst)
    (hcb : s.fsm.callbacks.before condition = some cb)
    (hu : (cb condition s.fsm.current dst args s.world).1.Status = StatusUnknown) :
    executeTransition env condition args s
      = (some Error.ErrUnknownState,
          (handleUnknownState env condition s.fsm.current args
            (hooked Phase.before condition s.fsm.current dst args
              (cb condition s.fsm.current dst args s.world) (entered condition s))).2) := by
  have hne : StatusUnknown ≠ StatusFailure := by decide
  rcases executeTransition_cases env condition args s with
    ⟨hl', _⟩ | ⟨dst', hl', ⟨hcb', _⟩ | ⟨cb', hcb', h⟩⟩
  · rw [hl] at hl'
    cases hl'
  · rw [hcb] at hcb'
    cases hcb'
  · rw [hl] at hl'
    rw [hcb] at hcb'
    cases hl'
    cases hcb'
    rcases h with ⟨hf, _⟩ | ⟨_, _, hr⟩ | ⟨_, hnu, _⟩
    · rw [hu] at hf
      exact absurd hf hne
    · exact hr
    · exact absurd hu hnu

theorem executeTransition_eq_before_failure (s : St σ) (dst : String) (cb : CallbackFunc σ)
    (hl : lookupTransition s.fsm.transitions s.fsm.current condition = some dst)
    (hcb : s.fsm.callbacks.before condition = some cb)
    (hf : (cb condition s.fsm.current dst args s.world).1.Status = StatusFailure) :
    executeTransition env condition args s
      = (some (Error.new (cb condition s.fsm.current dst args s.world).1.Message),
          (handleCallbackError env condition s.fsm.current dst
            (cb condition s.fsm.current dst args s.world).1.Message
            (hooked Phase.before condition s.fsm.current dst args
              (cb condition s.fsm.current dst args s.world) (entered condition s))).2) := by
  rcases executeTransition_cases env condition args s with
    ⟨hl', _⟩ | ⟨dst', hl', ⟨hcb', _⟩ | ⟨cb', hcb', h⟩⟩
  · rw [hl] at hl'
    cases hl'
  · rw [hcb] at hcb'
    cases hcb'
  · rw [hl] at hl'
    rw [hcb] at hcb'
    cases hl'
    cases hcb'
    rcases h with ⟨_, hr⟩ | ⟨hnf, _, _⟩ | ⟨hnf, _, _⟩
    · exact hr
    · exact absurd hf hnf
    · exact absurd hf hnf

/-- The current state `handleUnknownState` leaves: the resolver's value, or what it
was when there is no resolver. -/
theorem handleUnknownState_current (frm : String) (s : St σ) :
    (handleUnknownState env condition frm args s).2.fsm.current
      = match s.fsm.unknownStateHandler with
        | none => s.fsm.current
        | some r => (r frm condition args s.world).1 := by
  unfold handleUnknownState
  cases s.fsm.unknownStateHandler with
  | none => rfl
  | some r =>
    dsimp only
    rw [persist_fsm]

theorem reaches_sameSetup (config : transitionConfig σ) (k : Int) (s : St σ) (k' : Int)
    (s' : St σ) (h : Reaches env config condition args k s k' s') :
    sameSetup s.fsm s'.fsm := by
  induction h with
  | here k s => exact sameSetup_refl _
  | retry k s e k' s' hk hx hu hc _ ih =>
    exact sameSetup_trans (executeTransition_sameSetup env condition args s) ih

theorem reaches_le (config : transitionConfig σ) (k : Int) (s : St σ) (k' : Int)
    (s' : St σ) (h : Reaches env config condition args k s k' s') : k ≤ k' := by
  induction h with
  | here k s => exact le_refl _
  | retry k s e k' s' hk hx hu hc _ ih => omega

/-- A call that reaches an attempt ending in `ErrUnknownState` returns it wrapped and
leaves the entity as that attempt left it. -/
theorem Transition_of_reaches_unknown (opts : List (TransitionOption σ)) (s0 : St σ)
    (k : Int) (s : St σ)
    (hreach : Reaches env (applyOptions opts) condition args 0 s0 k s)
    (hk : k ≤ (applyOptions opts).maxRetries)
    (hx : (executeTransition env condition args s).1 = some Error.ErrUnknownState) :
    Transition env condition args opts s0
      = (some (Error.errorf "operation aborted due to unknown state" Error.ErrUnknownState),
          (executeTransition env condition args s).2) := by
  unfold Transition
  rw [transitionLoop_reaches env (applyOptions opts) condition args 0 s0 k s hreach]
  exact transitionLoop_unknown env (applyOptions opts) condition args k s _ hk hx
    Is_unknown_unknown

end Outcome

/-! ## Claims on the after-hook and the resolver -/

theorem auditSt_commits : commits "process" Value.nil auditSt "processing" auditCommitted :=
  ⟨entered "process" auditSt, ⟨by decide, Or.inl ⟨rfl, rfl⟩⟩, rfl, rfl⟩

theorem auditNoResolverSt_commits :
    commits "process" Value.nil auditNoResolverSt "processing" auditNoResolverCommitted :=
  ⟨entered "process" auditNoResolverSt, ⟨by decide, Or.inl ⟨rfl, rfl⟩⟩, rfl, rfl⟩

/-- C12, as stated, fails: the attempt `process` on `auditSt` saves the change to
`processing`, its after-hook reports unknown, the resolver is invoked and its value
`error` replaces the state that was persisted. -/
theorem C12_counterexample :
    commits "process" Value.nil auditSt "processing" auditCommitted ∧
    auditSt.fsm.callbacks.after "process" = some timeoutHook ∧
    (timeoutHook "process" "created" "processing" Value.nil auditCommitted.world).1.Status
      = StatusUnknown ∧
    (executeTransition quietEnv "process" Value.nil auditSt).1
      = some Error.ErrUnknownState ∧
    Current (executeTransition quietEnv "process" Value.nil auditSt).2.fsm = "error" ∧
    "error" ≠ "processing" :=
  ⟨auditSt_commits, rfl, rfl, by decide, by decide, by decide⟩

/-- C12, amended: in every attempt in which the lookup, the before-hook phase and
`Save` succeed with destination `to`: if the after-hook reports failure, the attempt
returns the hook's error and `Current()` afterwards is `to`; if it reports unknown,
the attempt returns `ErrUnknownState` and `Current()` afterwards is `to` when the
entity has no resolver, and the resolver's value when it has one. -/
theorem C12_after_hook_outcome_does_not_roll_back {σ : Type} (env : Env σ)
    (condition : String) (args : Value) (s : St σ) (dst : String) (s2 : St σ)
    (cb : CallbackFunc σ)
    (hc : commits condition args s dst s2)
    (hcb : s.fsm.callbacks.after condition = some cb) :
    ((cb condition s.fsm.current dst args s2.world).1.Status = StatusFailure →
      (executeTransition env condition args s).1
        = some (Error.new (cb condition s.fsm.current dst args s2.world).1.Message) ∧
      Current (executeTransition env condition args s).2.fsm = dst) ∧
    ((cb condition s.fsm.current dst args s2.world).1.Status = StatusUnknown →
      (executeTransition env condition args s).1 = some Error.ErrUnknownState ∧
      Current (executeTransition env condition args s).2.fsm
        = match s.fsm.unknownStateHandler with
          | none => dst
          | some r =>
            (r s.fsm.current condition args
              (cb condition s.fsm.current dst args s2.world).2).1) := by
  have hx := commits_executeTransition env condition args s dst s2 hc
  obtain ⟨hset, hcur, _⟩ := commits_setup condition args s dst s2 hc
  have hcb2 : s2.fsm.callbacks.after condition = some cb := by
    rw [hset.2.2.2.1]
    exact hcb
  unfold Current
  constructor
  · intro hf
    rw [hx, executeTransition_after_failure env condition args _ dst s2 cb hcb2 hf]
    exact ⟨rfl, hcur⟩
  · intro hu
    rw [hx, executeTransition_after_unknown env condition args _ dst s2 cb hcb2 hu]
    refine ⟨rfl, ?_⟩
    rw [handleUnknownState_current]
    show (match s2.fsm.unknownStateHandler with
      | none => s2.fsm.current
      | some r => (r s.fsm.current condition args
          (cb condition s.fsm.current dst args s2.world).2).1) = _
    rw [hset.2.2.2.2, hcur]

/-- Witness for C12 (amended): the attempt `process` on the entity without resolver,
whose after-hook reports unknown: `Current()` stays `processing`. -/
theorem C12_after_hook_outcome_does_not_roll_back_witness :
    commits "process" Value.nil auditNoResolverSt "processing" auditNoResolverCommitted ∧
    auditNoResolverSt.fsm.callbacks.after "process" = some timeoutHook ∧
    (timeoutHook "process" auditNoResolverSt.fsm.current "processing" Value.nil
      auditNoResolverCommitted.world).1.Status = StatusUnknown ∧
    ((executeTransition quietEnv "process" Value.nil auditNoResolverSt).1
        = some Error.ErrUnknownState ∧
      Current (executeTransition quietEnv "process" Value.nil auditNoResolverSt).2.fsm
        = "processing") :=
  ⟨auditNoResolverSt_commits, rfl, rfl,
    (C12_after_hook_outcome_does_not_roll_back quietEnv "process" Value.nil
      auditNoResolverSt "processing" auditNoResolverCommitted timeoutHook
      auditNoResolverSt_commits rfl).2 rfl⟩

/-- C11, as stated, fails: on the entity without resolver the after-hook of
`process` reports unknown; the call is aborted with unknown-state, but `Current()` is
`processing`, not `created` as before the call. -/
theorem C11_counterexample :
    auditNoResolverSt.fsm.unknownStateHandler = none ∧
    commits "process" Value.nil auditNoResolverSt "processing" auditNoResolverCommitted ∧
    auditNoResolverSt.fsm.callbacks.after "process" = some timeoutHook ∧
    (timeoutHook "process" "created" "processing" Value.nil
      auditNoResolverCommitted.world).1.Status = StatusUnknown ∧
    (Transition quietEnv "process" Value.nil [] auditNoResolverSt).1
      = some (Error.errorf "operation aborted due to unknown state" Error.ErrUnknownState) ∧
    Current auditNoResolverSt.fsm = "created" ∧
    Current (Transition quietEnv "process" Value.nil [] auditNoResolverSt).2.fsm
      = "processing" := by
  have hx : (executeTransition quietEnv "process" Value.nil auditNoResolverSt).1
      = some Error.ErrUnknownState := by decide
  have hr := Transition_of_reaches_unknown quietEnv "process" Value.nil [] auditNoResolverSt
    0 auditNoResolverSt (Reaches.here 0 _) (by decide) hx
  rw [hr]
  exact ⟨rfl, auditNoResolverSt_commits, rfl, rfl, rfl, by decide, by decide⟩

/-- C11, amended: on an entity constructed without a resolver, take the attempt of a
`Transition` call in which a hook reports unknown.  If it is the before-hook, the call
is aborted with unknown-state and `Current()` after the call is what it was before
that attempt (before the call, when it is the first attempt).  If it is the
after-hook, the call is aborted with unknown-state as well, but `Current()` after the
call is the destination `to` that was committed before the after-hook ran. -/
theorem C11_unknown_without_resolver {σ : Type} (env : Env σ) (condition : String)
    (args : Value) (opts : List (TransitionOption σ)) (s0 : St σ) (k : Int) (s : St σ)
    (hres : s0.fsm.unknownStateHandler = none)
    (hreach : Reaches env (applyOptions opts) condition args 0 s0 k s)
    (hk : k ≤ (applyOptions opts).maxRetries) :
    (∀ dst cb, lookupTransition s.fsm.transitions s.fsm.current condition = some dst →
      s.fsm.callbacks.before condition = some cb →
      (cb condition s.fsm.current dst args s.world).1.Status = StatusUnknown →
      (Transition env condition args opts s0).1
        = some (Error.errorf "operation aborted due to unknown state"
            Error.ErrUnknownState) ∧
      Current (Transition env condition args opts s0).2.fsm = Current s.fsm) ∧
    (∀ dst s2 cb, commits condition args s dst s2 →
      s.fsm.callbacks.after condition = some cb →
      (cb condition s.fsm.current dst args s2.world).1.Status = StatusUnknown →
      (Transition env condition args opts s0).1
        = some (Error.errorf "operation aborted due to unknown state"
            Error.ErrUnknownState) ∧
      Current (Transition env condition args opts s0).2.fsm = dst) := by
  have hset := reaches_sameSetup env condition args _ 0 s0 k s hreach
  have hres' : s.fsm.unknownStateHandler = none := by
    rw [hset.2.2.2.2]
    exact hres
  unfold Current
  constructor
  · intro dst cb hl hcb hu
    have hx := executeTransition_eq_before_unknown env condition args s dst cb hl hcb hu
    rw [Transition_of_reaches_unknown env condition args opts s0 k s hreach hk
      (by rw [hx])]
    refine ⟨rfl, ?_⟩
    rw [hx]
    exact handleUnknownState_current_of_no_handler env condition args _ _ hres'
  · intro dst s2 cb hc hcb hu
    have hx := commits_executeTransition env condition args s dst s2 hc
    obtain ⟨hset2, hcur, _⟩ := commits_setup condition args s dst s2 hc
    have hcb2 : s2.fsm.callbacks.after condition = some cb := by
      rw [hset2.2.2.2.1]
      exact hcb
    have hx2 := executeTransition_after_unknown env condition args s.fsm.current dst s2 cb
      hcb2 hu
    rw [Transition_of_reaches_unknown env condition args opts s0 k s hreach hk
      (by rw [hx, hx2])]
    refine ⟨rfl, ?_⟩
    rw [hx, hx2, handleUnknownState_current_of_no_handler env condition args _ _
      (by
        show s2.fsm.unknownStateHandler = none
        rw [hset2.2.2.2.2]
        exact hres')]
    exact hcur

/-- Witness for C11 (amended): the entity without resolver whose before-hook on
`process` times out, called with five retries. -/
theorem C11_unknown_without_resolver_witness :
    gatewayNoResolverSt.fsm.unknownStateHandler = none ∧
    Reaches quietEnv (applyOptions [WithRetry 5 noDelay]) "process" Value.nil
      0 gatewayNoResolverSt 0 gatewayNoResolverSt ∧
    (0 : Int) ≤ (applyOptions ([WithRetry 5 noDelay] : List (TransitionOption Unit))).maxRetries ∧
    lookupTransition gatewayNoResolverSt.fsm.transitions gatewayNoResolverSt.fsm.current
      "process" = some "processing" ∧
    gatewayNoResolverSt.fsm.callbacks.before "process" = some timeoutHook ∧
    (timeoutHook "process" gatewayNoResolverSt.fsm.current "processing" Value.nil
      gatewayNoResolverSt.world).1.Status = StatusUnknown ∧
    ((Transition quietEnv "process" Value.nil [WithRetry 5 noDelay] gatewayNoResolverSt).1
        = some (Error.errorf "operation aborted due to unknown state"
            Error.ErrUnknownState) ∧
      Current
          (Transition quietEnv "process" Value.nil [WithRetry 5 noDelay]
            gatewayNoResolverSt).2.fsm
        = Current gatewayNoResolverSt.fsm) :=
  ⟨rfl, Reaches.here 0 _, by decide, by decide, rfl, rfl,
    (C11_unknown_without_resolver quietEnv "process" Value.nil [WithRetry 5 noDelay]
      gatewayNoResolverSt 0 gatewayNoResolverSt rfl (Reaches.here 0 _) (by decide)).1
      "processing" timeoutHook (by decide) rfl rfl⟩

/-- C16: on an entity with a resolver `r` and a table entry for (current state,
condition) whose before-hook reports unknown, `Transition` returns an error wrapping
`ErrUnknownState` and `Current()` afterwards is the value `r` returned for (current
state, condition, args), whatever the table holds for that value and whatever the
best-effort `Save` returns. -/
theorem C16_resolver_value_becomes_current {σ : Type} (env : Env σ) (condition : String)
    (args : Value) (opts : List (TransitionOption σ)) (s : St σ) (dst : String)
    (cb : CallbackFunc σ) (r : String → String → Value → σ → String × σ)
    (hn : 0 ≤ (applyOptions opts).maxRetries)
    (hr : s.fsm.unknownStateHandler = some r)
    (hl : lookupTransition s.fsm.transitions s.fsm.current condition = some dst)
    (hcb : s.fsm.callbacks.before condition = some cb)
    (hu : (cb condition s.fsm.current dst args s.world).1.Status = StatusUnknown) :
    (Transition env condition args opts s).1
      = some (Error.errorf "operation aborted due to unknown state" Error.ErrUnknownState) ∧
    Error.Is (Error.errorf "operation aborted due to unknown state" Error.ErrUnknownState)
      Error.ErrUnknownState = true ∧
    Current (Transition env condition args opts s).2.fsm
      = (r (Current s.fsm) condition args
          (cb condition s.fsm.current dst args s.world).2).1 := by
  have hx := executeTransition_eq_before_unknown env condition args s dst cb hl hcb hu
  rw [Transition_of_reaches_unknown env condition args opts s 0 s (Reaches.here 0 s) hn
    (by rw [hx])]
  refine ⟨rfl, by simp [Error.Is], ?_⟩
  unfold Current
  rw [hx, handleUnknownState_current]
  show (match s.fsm.unknownStateHandler with
    | none => s.fsm.current
    | some r => (r s.fsm.current condition args
        (cb condition s.fsm.current dst args s.world).2).1) = _
  rw [hr]

/-- Witness for C16: the entity of the example on a storage that is forced to fail;
the resolver's value `error` is a state with no entry in the table. -/
theorem C16_resolver_value_becomes_current_witness :
    (0 : Int) ≤ (applyOptions ([] : List (TransitionOption Unit))).maxRetries ∧
    gatewaySt.fsm.unknownStateHandler = some unknownHandler ∧
    lookupTransition gatewaySt.fsm.transitions gatewaySt.fsm.current "process"
      = some "processing" ∧
    gatewaySt.fsm.callbacks.before "process" = some timeoutHook ∧
    (timeoutHook "process" gatewaySt.fsm.current "processing" Value.nil
      gatewaySt.world).1.Status = StatusUnknown ∧
    ((Transition quietEnv "process" Value.nil [] gatewaySt).1
        = some (Error.errorf "operation aborted due to unknown state"
            Error.ErrUnknownState) ∧
      Error.Is (Error.errorf "operation aborted due to unknown state" Error.ErrUnknownState)
        Error.ErrUnknownState = true ∧
      Current (Transition quietEnv "process" Value.nil [] gatewaySt).2.fsm
        = (unknownHandler (Current gatewaySt.fsm) "process" Value.nil
            (timeoutHook "process" gatewaySt.fsm.current "processing" Value.nil
              gatewaySt.world).2).1) :=
  ⟨by decide, rfl, by decide, rfl, rfl,
    C16_resolver_value_becomes_current quietEnv "process" Value.nil [] gatewaySt
      "processing" timeoutHook unknownHandler (by decide) rfl (by decide) rfl rfl⟩

/-- C17, as stated, fails: in the attempt `process` on `auditSt` the after-hook reports
unknown when the entity's current state is `processing`, and `handleUnknownState`,
hence the resolver, is given `created` as its first argument, which is another
state. -/
theorem C17_counterexample :
    executeTransition quietEnv "process" Value.nil auditSt
      = (some Error.ErrUnknownState,
          (handleUnknownState quietEnv "process" "created" Value.nil
            (hooked Phase.after "process" "created" "processing" Value.nil
              (timeoutHook "process" "created" "processing" Value.nil auditCommitted.world)
              auditCommitted)).2) ∧
    Current (hooked Phase.after "process" "created" "processing" Value.nil
      (timeoutHook "process" "created" "processing" Value.nil auditCommitted.world)
      auditCommitted).fsm = "processing" ∧
    (executeTransition quietEnv "process" Value.nil auditSt).2.trace.filterMap
      Event.resolverArg = ["created"] ∧
    ¬ (∀ a ∈ (executeTransition quietEnv "process" Value.nil auditSt).2.trace.filterMap
        Event.resolverArg,
      a = Current (hooked Phase.after "process" "created" "processing" Value.nil
        (timeoutHook "process" "created" "processing" Value.nil auditCommitted.world)
        auditCommitted).fsm) := by
  refine ⟨?_, by decide, by decide, by decide⟩
  rw [commits_executeTransition quietEnv "process" Value.nil auditSt "processing"
    auditCommitted auditSt_commits]
  exact executeTransition_after_unknown quietEnv "process" Value.nil "created" "processing"
    auditCommitted timeoutHook rfl rfl

/-! ## Claims on rollback and on the diagnostic records -/

theorem persist_afterHookCalls {σ : Type} (ctx : Ctx) (s : St σ) :
    afterHookCalls (persist ctx s).2.trace = afterHookCalls s.trace := by
  unfold persist
  cases s.fsm.repo <;> simp [afterHookCalls, Event.isAfterHook]

/-- C20: rollback on persistence failure restores the state but not the metadata.
In every attempt whose before-hook returns success or retry with the delta `D` and
whose `Save` then fails, the attempt returns the wrapped storage error, `Current()`
afterwards is the state before the attempt, no after-hook is invoked, and
`Metadata()` afterwards maps every key of `D` to the value `D` gives it. -/
theorem C20_rollback_keeps_merged_delta {σ : Type} (env : Env σ) (condition : String)
    (args : Value) (s : St σ) (dst : String) (cb : CallbackFunc σ) (D : GoMap Value)
    (err : Error)
    (hl : lookupTransition s.fsm.transitions s.fsm.current condition = some dst)
    (hcb : s.fsm.callbacks.before condition = some cb)
    (hs : (cb condition s.fsm.current dst args s.world).1.Status = StatusSuccess ∨
      (cb condition s.fsm.current dst args s.world).1.Status = StatusRetry)
    (hD : (cb condition s.fsm.current dst args s.world).1.Metadata = some D)
    (hp : (persist Ctx.caller (moved dst (mergeMetadata (some D)
      (hooked Phase.before condition s.fsm.current dst args
        (cb condition s.fsm.current dst args s.world) (entered condition s))))).1
      = some err) :
    (executeTransition env condition args s).1
      = some (Error.errorf "persistence failed" err) ∧
    Current (executeTransition env condition args s).2.fsm = Current s.fsm ∧
    afterHookCalls (executeTransition env condition args s).2.trace
      = afterHookCalls s.trace ∧
    ∀ k v, D k = some v → Metadata (executeTransition env condition args s).2.fsm k = some v := by
  have hnf : (cb condition s.fsm.current dst args s.world).1.Status ≠ StatusFailure := by
    rcases hs with h | h <;> rw [h] <;> decide
  have hnu : (cb condition s.fsm.current dst args s.world).1.Status ≠ StatusUnknown := by
    rcases hs with h | h <;> rw [h] <;> decide
  have hpass : passesBefore condition args s dst (mergeMetadata (some D)
      (hooked Phase.before condition s.fsm.current dst args
        (cb condition s.fsm.current dst args s.world) (entered condition s))) :=
    ⟨hl, Or.inr ⟨cb, hcb, hnf, hnu, by rw [hD]⟩⟩
  rw [passesBefore_executeTransition env condition args s dst _ hpass]
  rcases executeTransition_change_cases env condition args s.fsm.current dst
      (mergeMetadata (some D)
        (hooked Phase.before condition s.fsm.current dst args
          (cb condition s.fsm.current dst args s.world) (entered condition s))) with
    ⟨err', hp', hr⟩ | ⟨hp', _⟩
  · rw [hp] at hp'
    cases hp'
    rw [hr]
    refine ⟨rfl, rfl, ?_, ?_⟩
    · show afterHookCalls (persist Ctx.caller _).2.trace = _
      rw [persist_afterHookCalls]
      simp [afterHookCalls, Event.isAfterHook]
    · intro k v hk
      show (persist Ctx.caller _).2.fsm.metadata k = some v
      rw [persist_fsm]
      exact mergeMetadata_holdsDelta D _ k v hk
  · rw [hp] at hp'
    cases hp'

/-- Witness for C20: `stageHook` before `process` on a storage that is forced to
fail. -/
theorem C20_rollback_keeps_merged_delta_witness :
    lookupTransition stuckStageSt.fsm.transitions stuckStageSt.fsm.current "process"
      = some "processing" ∧
    stuckStageSt.fsm.callbacks.before "process" = some stageHook ∧
    ((stageHook "process" stuckStageSt.fsm.current "processing" Value.nil
        stuckStageSt.world).1.Status = StatusSuccess ∨
      (stageHook "process" stuckStageSt.fsm.current "processing" Value.nil
        stuckStageSt.world).1.Status = StatusRetry) ∧
    (stageHook "process" stuckStageSt.fsm.current "processing" Value.nil
      stuckStageSt.world).1.Metadata = some stageDelta ∧
    ((executeTransition quietEnv "process" Value.nil stuckStageSt).1
        = some (Error.errorf "persistence failed" (Error.external "disk full")) ∧
      Current (executeTransition quietEnv "process" Value.nil stuckStageSt).2.fsm
        = Current stuckStageSt.fsm ∧
      afterHookCalls (executeTransition quietEnv "process" Value.nil stuckStageSt).2.trace
        = afterHookCalls stuckStageSt.trace ∧
      ∀ k v, stageDelta k = some v →
        Metadata (executeTransition quietEnv "process" Value.nil stuckStageSt).2.fsm k
          = some v) :=
  ⟨by decide, rfl, Or.inl rfl, rfl,
    C20_rollback_keeps_merged_delta quietEnv "process" Value.nil stuckStageSt "processing"
      stageHook stageDelta (Error.external "disk full") (by decide) rfl (Or.inl rfl) rfl
      rfl⟩

theorem handleUnknownState_record {σ : Type} (env : Env σ) (condition frm : String)
    (args : Value) (s : St σ) :
    ∃ t, (handleUnknownState env condition frm args s).2.fsm.metadata "unknown_state"
      = some (Value.obj [("condition", Value.str condition), ("from", Value.str frm),
          ("args", args), ("timestamp", Value.time t)]) := by
  unfold handleUnknownState
  refine Exists.intro ?t ?h
  case h =>
    dsimp only [GoMap.set]
    rw [if_pos rfl]
    exact rfl

theorem handleCallbackError_record {σ : Type} (env : Env σ) (condition frm dst m : String)
    (s : St σ) :
    ∃ t, (handleCallbackError env condition frm dst m s).2.fsm.metadata "callback_error"
      = some (Value.obj [("condition", Value.str condition), ("from", Value.str frm),
          ("to", Value.str dst), ("error", Value.str m), ("timestamp", Value.time t)]) := by
  unfold handleCallbackError
  refine Exists.intro ?t ?h
  case h =>
    dsimp only [GoMap.set]
    rw [if_pos rfl]
    exact rfl

/-- C13, as stated, fails: the before-hook of `process` reports unknown with the
message `connection timeout`; the record under `unknown_state` has the keys
`condition`, `from`, `args` and `timestamp`, so neither the `to` state nor the
hook's message. -/
theorem C13_counterexample :
    (timeoutHook "process" "created" "processing" Value.nil ()).1.Status = StatusUnknown ∧
    (timeoutHook "process" "created" "processing" Value.nil ()).1.Message
      = "connection timeout" ∧
    (executeTransition quietEnv "process" Value.nil gatewayNoResolverSt).1
      = some Error.ErrUnknownState ∧
    Metadata (executeTransition quietEnv "process" Value.nil gatewayNoResolverSt).2.fsm
      "unknown_state" = some timeoutRecord ∧
    timeoutRecord.keys = ["condition", "from", "args", "timestamp"] ∧
    timeoutRecord.field "to" = none ∧
    timeoutRecord.field "error" = none :=
  ⟨rfl, rfl, by decide, rfl, rfl, rfl, rfl⟩

/-- C13, amended: whenever a hook of either phase reports failure, the attempt returns
the hook's error and the metadata then holds, under `callback_error`, a record of the
condition, the from state, the to state, the hook's message and a timestamp;
whenever a hook of either phase reports unknown, the attempt returns
`ErrUnknownState` and the metadata then holds, under `unknown_state`, a record of
the condition, the from state, the args and a timestamp.  Both phases record the
same fields, with the state before the attempt as the from state. -/
theorem C13_diagnostic_records {σ : Type} (env : Env σ) (condition : String)
    (args : Value) (s : St σ) :
    (∀ dst cb, lookupTransition s.fsm.transitions s.fsm.current condition = some dst →
      s.fsm.callbacks.before condition = some cb →
      (cb condition s.fsm.current dst args s.world).1.Status = StatusFailure →
      (executeTransition env condition args s).1
        = some (Error.new (cb condition s.fsm.current dst args s.world).1.Message) ∧
      ∃ t, Metadata (executeTransition env condition args s).2.fsm "callback_error"
        = some (Value.obj [("condition", Value.str condition),
            ("from", Value.str s.fsm.current), ("to", Value.str dst),
            ("error", Value.str (cb condition s.fsm.current dst args s.world).1.Message),
            ("timestamp", Value.time t)])) ∧
    (∀ dst cb, lookupTransition s.fsm.transitions s.fsm.current condition = some dst →
      s.fsm.callbacks.before condition = some cb →
      (cb condition s.fsm.current dst args s.world).1.Status = StatusUnknown →
      (executeTransition env condition args s).1 = some Error.ErrUnknownState ∧
      ∃ t, Metadata (executeTransition env condition args s).2.fsm "unknown_state"
        = some (Value.obj [("condition", Value.str condition),
            ("from", Value.str s.fsm.current), ("args", args),
            ("timestamp", Value.time t)])) ∧
    (∀ dst s2 cb, commits condition args s dst s2 →
      s.fsm.callbacks.after condition = some cb →
      (cb condition s.fsm.current dst args s2.world).1.Status = StatusFailure →
      (executeTransition env condition args s).1
        = some (Error.new (cb condition s.fsm.current dst args s2.world).1.Message) ∧
      ∃ t, Metadata (executeTransition env condition args s).2.fsm "callback_error"
        = some (Value.obj [("condition", Value.str condition),
            ("from", Value.str s.fsm.current), ("to", Value.str dst),
            ("error", Value.str (cb condition s.fsm.current dst args s2.world).1.Message),
            ("timestamp", Value.time t)])) ∧
    (∀ dst s2 cb, commits condition args s dst s2 →
      s.fsm.callbacks.after condition = some cb →
      (cb condition s.fsm.current dst args s2.world).1.Status = StatusUnknown →
      (executeTransition env condition args s).1 = some Error.ErrUnknownState ∧
      ∃ t, Metadata (executeTransition env condition args s).2.fsm "unknown_state"
        = some (Value.obj [("condition", Value.str condition),
            ("from", Value.str s.fsm.current), ("args", args),
            ("timestamp", Value.time t)])) := by
  unfold Metadata
  refine ⟨?_, ?_, ?_, ?_⟩
  · intro dst cb hl hcb hf
    rw [executeTransition_eq_before_failure env condition args s dst cb hl hcb hf]
    exact ⟨rfl, handleCallbackError_record env condition _ dst _ _⟩
  · intro dst cb hl hcb hu
    rw [executeTransition_eq_before_unknown env condition args s dst cb hl hcb hu]
    exact ⟨rfl, handleUnknownState_record env condition _ args _⟩
  · intro dst s2 cb hc hcb hf
    have hset := (commits_setup condition args s dst s2 hc).1
    rw [commits_executeTransition env condition args s dst s2 hc,
      executeTransition_after_failure env condition args _ dst s2 cb
        (by rw [hset.2.2.2.1]; exact hcb) hf]
    exact ⟨rfl, handleCallbackError_record env condition _ dst _ _⟩
  · intro dst s2 cb hc hcb hu
    have hset := (commits_setup condition args s dst s2 hc).1
    rw [commits_executeTransition env condition args s dst s2 hc,
      executeTransition_after_unknown env condition args _ dst s2 cb
        (by rw [hset.2.2.2.1]; exact hcb) hu]
    exact ⟨rfl, handleUnknownState_record env condition _ args _⟩

/-- Witness for C13 (amended): `refusingHook` before `process` reports failure with
the message `refused`. -/
theorem C13_diagnostic_records_witness :
    lookupTransition refusedSt.fsm.transitions refusedSt.fsm.current "process"
      = some "processing" ∧
    refusedSt.fsm.callbacks.before "process" = some refusingHook ∧
    (refusingHook "process" refusedSt.fsm.current "processing" Value.nil
      refusedSt.world).1.Status = StatusFailure ∧
    ((executeTransition quietEnv "process" Value.nil refusedSt).1
        = some (Error.new (refusingHook "process" refusedSt.fsm.current "processing"
            Value.nil refusedSt.world).1.Message) ∧
      ∃ t, Metadata (executeTransition quietEnv "process" Value.nil refusedSt).2.fsm
          "callback_error"
        = some (Value.obj [("condition", Value.str "process"),
            ("from", Value.str refusedSt.fsm.current), ("to", Value.str "processing"),
            ("error", Value.str (refusingHook "process" refusedSt.fsm.current "processing"
              Value.nil refusedSt.world).1.Message),
            ("timestamp", Value.time t)])) :=
  ⟨by decide, rfl, rfl,
    (C13_diagnostic_records quietEnv "process" Value.nil refusedSt).1 "processing"
      refusingHook (by decide) rfl rfl⟩

/-! ## Claim on the save of a successful attempt -/

section Save

variable {σ : Type} (env : Env σ) (condition : String) (args : Value)

theorem persist_of_repo (ctx : Ctx) (s : St σ) (repo : Repository σ)
    (h : s.fsm.repo = some repo) :
    persist ctx s
      = ((repo.Save ctx s.fsm.id s.fsm.current s.fsm.metadata s.world).1,
          { s with
            world := (repo.Save ctx s.fsm.id s.fsm.current s.fsm.metadata s.world).2
            trace := s.trace ++ [Event.save ctx s.fsm.id s.fsm.current s.fsm.metadata
              (repo.Save ctx s.fsm.id s.fsm.current s.fsm.metadata s.world).1] }) := by
  unfold persist
  rw [h]

/-- A successful attempt got past its before-hook phase and its save. -/
theorem executeTransition_ok_commits (s : St σ)
    (h : (executeTransition env condition args s).1 = none) :
    ∃ dst s2, commits condition args s dst s2 := by
  rcases executeTransition_cases env condition args s with
    ⟨_, hr⟩ | ⟨dst, hl, ⟨hcb, hr⟩ | ⟨cb, hcb, ⟨_, hr⟩ | ⟨_, _, hr⟩ | ⟨hnf, hnu, hr⟩⟩⟩
  · rw [hr] at h
    cases h
  · rw [hr] at h
    rcases executeTransition_change_cases env condition args s.fsm.current dst
      (entered condition s) with ⟨err, _, hr'⟩ | ⟨hp, _⟩
    · rw [hr'] at h
      cases h
    · exact ⟨dst, _, entered condition s, ⟨hl, Or.inl ⟨hcb, rfl⟩⟩, hp, rfl⟩
  · rw [hr] at h
    cases h
  · rw [hr] at h
    cases h
  · rw [hr] at h
    rcases executeTransition_change_cases env condition args s.fsm.current dst
      (mergeMetadata (cb condition s.fsm.current dst args s.world).1.Metadata
        (hooked Phase.before condition s.fsm.current dst args
          (cb condition s.fsm.current dst args s.world) (entered condition s))) with
      ⟨err, _, hr'⟩ | ⟨hp, _⟩
    · rw [hr'] at h
      cases h
    · exact ⟨dst, _, _, ⟨hl, Or.inr ⟨cb, hcb, hnf, hnu, rfl⟩⟩, hp, rfl⟩

theorem passesBefore_trace (s : St σ) (dst : String) (s1 : St σ)
    (h : passesBefore condition args s dst s1) :
    ∃ lb, s1.trace = s.trace ++ lb ∧
      ∀ e ∈ lb, e.isSave = false ∧ e.isAfterHook = false := by
  obtain ⟨_, h⟩ := h
  rcases h with ⟨_, h1⟩ | ⟨cb, _, _, _, h1⟩
  · subst h1
    exact ⟨[Event.attempt s.fsm.current condition], rfl,
      by simp [Event.isSave, Event.isAfterHook]⟩
  · subst h1
    exact ⟨[Event.attempt s.fsm.current condition,
      Event.hook Phase.before condition s.fsm.current dst args
        (cb condition s.fsm.current dst args s.world).1], by simp,
      by simp [Event.isSave, Event.isAfterHook]⟩

theorem executeTransition_after_ok_trace (frm dst : String) (s : St σ)
    (h : (executeTransition_after env condition args frm dst s).1 = none) :
    ∃ la, (executeTransition_after env condition args frm dst s).2.trace = s.trace ++ la ∧
      ∀ e ∈ la, e.isAfterHook = true := by
  rcases executeTransition_after_cases env condition args frm dst s with
    ⟨_, hr⟩ | ⟨cb, _, ⟨_, hr⟩ | ⟨_, _, hr⟩ | ⟨_, _, hr⟩⟩
  · rw [hr]
    exact ⟨[], by simp, by simp⟩
  · rw [hr] at h
    cases h
  · rw [hr] at h
    cases h
  · rw [hr]
    exact ⟨[Event.hook Phase.after condition frm dst args
      (cb condition frm dst args s.world).1], by simp, by simp [Event.isAfterHook]⟩

end Save

theorem isSave_of_isAfterHook (e : Event) (h : e.isAfterHook = true) : e.isSave = false := by
  cases e <;> simp [Event.isAfterHook, Event.isSave] at h ⊢

theorem passesBefore_holdsDelta {σ : Type} (condition : String) (args : Value) (s : St σ)
    (dst : String) (s1 : St σ) (h : passesBefore condition args s dst s1)
    (cb : CallbackFunc σ) (D : GoMap Value)
    (hcb : s.fsm.callbacks.before condition = some cb)
    (hD : (cb condition s.fsm.current dst args s.world).1.Metadata = some D) :
    holdsDelta D s1.fsm := by
  obtain ⟨_, h⟩ := h
  rcases h with ⟨hcb', _⟩ | ⟨cb', hcb', _, _, h1⟩
  · rw [hcb] at hcb'
    cases hcb'
  · rw [hcb] at hcb'
    cases hcb'
    subst h1
    rw [hD]
    exact mergeMetadata_holdsDelta D _

/-- C18: in every attempt that returns no error on an entity with a storage
collaborator, `Save` is invoked exactly once, after the before-hook phase (in state
`s1`, with the before-hook's delta merged) and before the after-hook, with the
entity's id, the destination `dst` and the metadata of `s1`.  The saved state is
`Current()` after the attempt, the saved metadata holds the before-hook's delta, and
it is the map as it stood before the after-hook ran.  A `MemoryRepository` keeps
exactly what `Save` was given. -/
theorem C18_successful_attempt_saves_once {σ : Type} (env : Env σ) (condition : String)
    (args : Value) (s : St σ) (repo : Repository σ)
    (hrepo : s.fsm.repo = some repo)
    (hok : (executeTransition env condition args s).1 = none) :
    (∃ dst s1 lb la,
      passesBefore condition args s dst s1 ∧
      s1.trace = s.trace ++ lb ∧
      (∀ e ∈ lb, e.isSave = false ∧ e.isAfterHook = false) ∧
      (executeTransition env condition args s).2.trace
        = s.trace ++ lb ++ [Event.save Ctx.caller s.fsm.id dst s1.fsm.metadata none] ++ la ∧
      (∀ e ∈ la, e.isAfterHook = true) ∧
      saveCalls (executeTransition env condition args s).2.trace = saveCalls s.trace + 1 ∧
      Current (executeTransition env condition args s).2.fsm = dst ∧
      (∀ cb D, s.fsm.callbacks.before condition = some cb →
        (cb condition s.fsm.current dst args s.world).1.Metadata = some D →
        ∀ k v, D k = some v → s1.fsm.metadata k = some v)) ∧
    (∀ ctx id state metadata (w : MemoryStates),
      (MemoryRepository.Save ctx id state metadata w).1 = none ∧
      (MemoryRepository.Load ctx id (MemoryRepository.Save ctx id state metadata w).2).1
        = (state, metadata, none)) := by
  constructor
  · obtain ⟨dst, s2, hc⟩ := executeTransition_ok_commits env condition args s hok
    have hx := commits_executeTransition env condition args s dst s2 hc
    obtain ⟨s1, hb, hp, h2⟩ := hc
    obtain ⟨lb, hlb, hlb'⟩ := passesBefore_trace condition args s dst s1 hb
    have hset := passesBefore_setup condition args s dst s1 hb
    have hrepo1 : (moved dst s1).fsm.repo = some repo := by
      show s1.fsm.repo = some repo
      rw [hset.1.2.2.1]
      exact hrepo
    have hpe := persist_of_repo Ctx.caller (moved dst s1) repo hrepo1
    rw [hpe] at hp h2
    dsimp only at hp
    rw [hp] at h2
    rw [hx] at hok ⊢
    obtain ⟨la, hla, hla'⟩ := executeTransition_after_ok_trace env condition args
      s.fsm.current dst s2 hok
    have hcur := executeTransition_after_ok env condition args s.fsm.current dst s2 hok
    have htr : (executeTransition_after env condition args s.fsm.current dst s2).2.trace
        = s.trace ++ lb ++ [Event.save Ctx.caller s.fsm.id dst s1.fsm.metadata none]
          ++ la := by
      rw [hla, h2]
      show (s1.trace ++ [Event.save Ctx.caller s1.fsm.id dst s1.fsm.metadata none]) ++ la
        = _
      rw [hlb, hset.1.1]
    refine ⟨dst, s1, lb, la, hb, hlb, hlb', htr, hla', ?_, ?_, ?_⟩
    · rw [htr]
      have h1 : List.countP Event.isSave lb = 0 :=
        List.countP_eq_zero.mpr (fun e he => by simp [(hlb' e he).1])
      have h2' : List.countP Event.isSave la = 0 :=
        List.countP_eq_zero.mpr
          (fun e he => by simp [isSave_of_isAfterHook e (hla' e he)])
      simp [saveCalls, List.countP_append, h1, h2', Event.isSave]
    · unfold Current
      rw [hcur, h2]
      rfl
    · intro cb D hcb hD
      exact passesBefore_holdsDelta condition args s dst s1 hb cb D hcb hD
  · intro ctx id state metadata w
    refine ⟨rfl, ?_⟩
    show (match (GoMap.set w id (state, fun k => metadata k)) id with
      | none => (("", GoMap.empty, some Error.ErrNotFound), _)
      | some data => ((data.1, (fun k => data.2 k), none), _)).1 = _
    simp [GoMap.set]

/-- Witness for C18: `process` on an entity stored in a fresh `MemoryRepository`. -/
theorem C18_successful_attempt_saves_once_witness :
    storedSt.fsm.repo = some MemoryRepository ∧
    (executeTransition storedEnv "process" Value.nil storedSt).1 = none ∧
    ((∃ dst s1 lb la,
      passesBefore "process" Value.nil storedSt dst s1 ∧
      s1.trace = storedSt.trace ++ lb ∧
      (∀ e ∈ lb, e.isSave = false ∧ e.isAfterHook = false) ∧
      (executeTransition storedEnv "process" Value.nil storedSt).2.trace
        = storedSt.trace ++ lb
          ++ [Event.save Ctx.caller storedSt.fsm.id dst s1.fsm.metadata none] ++ la ∧
      (∀ e ∈ la, e.isAfterHook = true) ∧
      saveCalls (executeTransition storedEnv "process" Value.nil storedSt).2.trace
        = saveCalls storedSt.trace + 1 ∧
      Current (executeTransition storedEnv "process" Value.nil storedSt).2.fsm = dst ∧
      (∀ cb D, storedSt.fsm.callbacks.before "process" = some cb →
        (cb "process" storedSt.fsm.current dst Value.nil storedSt.world).1.Metadata
          = some D →
        ∀ k v, D k = some v → s1.fsm.metadata k = some v)) ∧
    (∀ ctx id state metadata (w : MemoryStates),
      (MemoryRepository.Save ctx id state metadata w).1 = none ∧
      (MemoryRepository.Load ctx id (MemoryRepository.Save ctx id state metadata w).2).1
        = (state, metadata, none))) :=
  ⟨rfl, by decide,
    C18_successful_attempt_saves_once storedEnv "process" Value.nil storedSt
      MemoryRepository rfl (by decide)⟩

/-! ## Which keys an attempt writes -/

section Writes

variable {σ : Type} (env : Env σ) (condition : String) (args : Value)

theorem mergeMetadata_writes (phase : Phase) (c frm dst : String) (a : Value)
    (r : CallbackResult) (s : St σ) (k : String)
    (hf : r.Status ≠ StatusFailure) (hu : r.Status ≠ StatusUnknown) :
    (mergeMetadata r.Metadata s).fsm.metadata k = s.fsm.metadata k ∨
      (Event.hook phase c frm dst a r).writes k = true := by
  simp only [Event.writes]
  rw [if_neg hf, if_neg hu]
  cases hm : r.Metadata with
  | none => exact Or.inl rfl
  | some D =>
    rw [mergeMetadata_metadata_some]
    cases hk : D k with
    | none => exact Or.inl rfl
    | some v =>
      right
      show (D k).isSome = true
      rw [hk]
      rfl

theorem handleCallbackError_writes (phase : Phase) (c frm dst : String) (a : Value)
    (r : CallbackResult) (m : String) (s : St σ) (k : String)
    (hf : r.Status = StatusFailure) :
    (handleCallbackError env condition frm dst m s).2.fsm.metadata k = s.fsm.metadata k ∨
      (Event.hook phase c frm dst a r).writes k = true := by
  simp only [Event.writes]
  rw [if_pos hf]
  by_cases hk : k = "callback_error"
  · exact Or.inr (by simp [hk])
  · exact Or.inl (handleCallbackError_metadata env condition frm dst m s k hk)

theorem handleUnknownState_metadata (frm : String) (s : St σ) (k : String)
    (h : k ≠ "unknown_state") :
    (handleUnknownState env condition frm args s).2.fsm.metadata k = s.fsm.metadata k := by
  unfold handleUnknownState
  simp only [GoMap.set]
  rw [if_neg h]
  cases s.fsm.unknownStateHandler with
  | none => rfl
  | some hd =>
    dsimp only
    rw [persist_fsm]

theorem handleUnknownState_writes (phase : Phase) (c frm dst : String) (a : Value)
    (r : CallbackResult) (s : St σ) (k : String)
    (hf : r.Status ≠ StatusFailure) (hu : r.Status = StatusUnknown) :
    (handleUnknownState env condition frm args s).2.fsm.metadata k = s.fsm.metadata k ∨
      (Event.hook phase c frm dst a r).writes k = true := by
  simp only [Event.writes]
  rw [if_neg hf, if_pos hu]
  by_cases hk : k = "unknown_state"
  · exact Or.inr (by simp [hk])
  · exact Or.inl (handleUnknownState_metadata env condition args frm s k hk)

theorem executeTransition_after_writes (frm dst : String) (s : St σ) :
    ∃ l, (executeTransition_after env condition args frm dst s).2.trace = s.trace ++ l ∧
      ∀ k, (executeTransition_after env condition args frm dst s).2.fsm.metadata k
          = s.fsm.metadata k ∨ ∃ e ∈ l, e.writes k = true := by
  rcases executeTransition_after_cases env condition args frm dst s with
    ⟨_, hr⟩ | ⟨cb, _, ⟨hf, hr⟩ | ⟨hnf, hu, hr⟩ | ⟨hnf, hnu, hr⟩⟩
  · rw [hr]
    exact ⟨[], by simp, fun _ => Or.inl rfl⟩
  · rw [hr]
    refine ⟨[Event.hook Phase.after condition frm dst args
      (cb condition frm dst args s.world).1], rfl, ?_⟩
    intro k
    exact (handleCallbackError_writes env condition Phase.after condition frm dst args
      (cb condition frm dst args s.world).1 _ _ k hf).imp id
      (fun h => ⟨_, List.mem_singleton.mpr rfl, h⟩)
  · rw [hr]
    obtain ⟨l, hl⟩ := handleUnknownState_trace env condition args frm
      (hooked Phase.after condition frm dst args (cb condition frm dst args s.world) s)
    refine ⟨Event.hook Phase.after condition frm dst args
      (cb condition frm dst args s.world).1 :: l, by rw [hl]; simp, ?_⟩
    intro k
    exact (handleUnknownState_writes env condition args Phase.after condition frm dst args
      (cb condition frm dst args s.world).1 _ k hnf hu).imp id
      (fun h => ⟨_, List.mem_cons_self _ _, h⟩)
  · rw [hr]
    refine ⟨[Event.hook Phase.after condition frm dst args
      (cb condition frm dst args s.world).1], by simp, ?_⟩
    intro k
    exact (mergeMetadata_writes Phase.after condition frm dst args
      (cb condition frm dst args s.world).1 _ k hnf hnu).imp id
      (fun h => ⟨_, List.mem_singleton.mpr rfl, h⟩)

theorem executeTransition_change_writes (frm dst : String) (s : St σ) :
    ∃ l, (executeTransition_change env condition args frm dst s).2.trace = s.trace ++ l ∧
      ∀ k, (executeTransition_change env condition args frm dst s).2.fsm.metadata k
          = s.fsm.metadata k ∨ ∃ e ∈ l, e.writes k = true := by
  obtain ⟨lp, hlp, _⟩ := persist_trace Ctx.caller (moved dst s)
  have hfsm : (persist Ctx.caller (moved dst s)).2.fsm = (moved dst s).fsm := persist_fsm _ _
  rcases executeTransition_change_cases env condition args frm dst s with
    ⟨err, _, hr⟩ | ⟨_, hr⟩
  · rw [hr]
    refine ⟨lp, by rw [← moved_trace dst s, ← hlp]; rfl, ?_⟩
    intro k
    left
    show (persist Ctx.caller (moved dst s)).2.fsm.metadata k = s.fsm.metadata k
    rw [hfsm]
    rfl
  · rw [hr]
    obtain ⟨la, hla, hw⟩ := executeTransition_after_writes env condition args frm dst
      (persist Ctx.caller (moved dst s)).2
    refine ⟨lp ++ la, by rw [hla, hlp, moved_trace, List.append_assoc], ?_⟩
    intro k
    rcases hw k with h | ⟨e, he, h⟩
    · left
      rw [h, hfsm]
      rfl
    · exact Or.inr ⟨e, List.mem_append_right _ he, h⟩

/-- An attempt changes the metadata only at keys that a logged hook invocation
wrote. -/
theorem executeTransition_writes (s : St σ) :
    ∃ l, (executeTransition env condition args s).2.trace = s.trace ++ l ∧
      ∀ k, (executeTransition env condition args s).2.fsm.metadata k = s.fsm.metadata k ∨
        ∃ e ∈ l, e.writes k = true := by
  rcases executeTransition_cases env condition args s with
    ⟨_, hr⟩ | ⟨dst, hl, ⟨hcb, hr⟩ | ⟨cb, hcb, ⟨hf, hr⟩ | ⟨hnf, hu, hr⟩ | ⟨hnf, hnu, hr⟩⟩⟩
  · rw [hr]
    exact ⟨[Event.attempt s.fsm.current condition], rfl, fun _ => Or.inl rfl⟩
  · rw [hr]
    obtain ⟨lc, hlc, hw⟩ := executeTransition_change_writes env condition args
      s.fsm.current dst (entered condition s)
    refine ⟨[Event.attempt s.fsm.current condition] ++ lc, by rw [hlc]; simp, ?_⟩
    intro k
    rcases hw k with h | ⟨e, he, h⟩
    · exact Or.inl h
    · exact Or.inr ⟨e, List.mem_append_right _ he, h⟩
  · rw [hr]
    refine ⟨[Event.attempt s.fsm.current condition,
      Event.hook Phase.before condition s.fsm.current dst args
        (cb condition s.fsm.current dst args s.world).1], by simp, ?_⟩
    intro k
    exact (handleCallbackError_writes env condition Phase.before condition s.fsm.current
      dst args (cb condition s.fsm.current dst args s.world).1 _ _ k hf).imp id
      (fun h => ⟨_, by simp, h⟩)
  · rw [hr]
    obtain ⟨l, hl⟩ := handleUnknownState_trace env condition args s.fsm.current
      (hooked Phase.before condition s.fsm.current dst args
        (cb condition s.fsm.current dst args s.world) (entered condition s))
    refine ⟨Event.attempt s.fsm.current condition ::
      Event.hook Phase.before condition s.fsm.current dst args
        (cb condition s.fsm.current dst args s.world).1 :: l, by rw [hl]; simp, ?_⟩
    intro k
    exact (handleUnknownState_writes env condition args Phase.before condition
      s.fsm.current dst args (cb condition s.fsm.current dst args s.world).1 _ k
      hnf hu).imp id (fun h => ⟨_, by simp, h⟩)
  · rw [hr]
    obtain ⟨lc, hlc, hw⟩ := executeTransition_change_writes env condition args
      s.fsm.current dst
      (mergeMetadata (cb condition s.fsm.current dst args s.world).1.Metadata
        (hooked Phase.before condition s.fsm.current dst args
          (cb condition s.fsm.current dst args s.world) (entered condition s)))
    refine ⟨[Event.attempt s.fsm.current condition,
      Event.hook Phase.before condition s.fsm.current dst args
        (cb condition s.fsm.current dst args s.world).1] ++ lc, by rw [hlc]; simp, ?_⟩
    intro k
    rcases hw k with h | ⟨e, he, h⟩
    · rw [h]
      exact (mergeMetadata_writes Phase.before condition s.fsm.current dst args
        (cb condition s.fsm.current dst args s.world).1 _ k hnf hnu).imp id
        (fun h => ⟨_, by simp, h⟩)
    · exact Or.inr ⟨e, List.mem_append_right _ he, h⟩

/-- A call changes the metadata only at keys that a logged hook invocation wrote. -/
theorem transitionLoop_writes (config : transitionConfig σ) (attempt : Int) (s : St σ) :
    ∃ l, (transitionLoop env config condition args attempt s).2.trace = s.trace ++ l ∧
      ∀ k, (transitionLoop env config condition args attempt s).2.fsm.metadata k
          = s.fsm.metadata k ∨ ∃ e ∈ l, e.writes k = true := by
  refine transitionLoop_preserves env config condition args
    (fun s' => ∃ l, s'.trace = s.trace ++ l ∧
      ∀ k, s'.fsm.metadata k = s.fsm.metadata k ∨ ∃ e ∈ l, e.writes k = true)
    ?_ ?_ attempt s ⟨[], by simp, fun _ => Or.inl rfl⟩
  · rintro s' ⟨l, hl, hw⟩
    obtain ⟨la, hla, hwa⟩ := executeTransition_writes env condition args s'
    refine ⟨l ++ la, by rw [hla, hl, List.append_assoc], ?_⟩
    intro k
    rcases hwa k with h | ⟨e, he, h⟩
    · rw [h]
      exact (hw k).imp id (fun ⟨e, he, h⟩ => ⟨e, List.mem_append_left _ he, h⟩)
    · exact Or.inr ⟨e, List.mem_append_right _ he, h⟩
  · rintro k s' ⟨l, hl, hw⟩
    refine ⟨l ++ [Event.backoff k (config.backoff k s'.world).1,
      Event.wait (config.backoff k s'.world).1 (cancelledAt env config k s')],
      by rw [afterWait_trace, hl, List.append_assoc], ?_⟩
    intro key
    exact (hw key).imp id (fun ⟨e, he, h⟩ => ⟨e, List.mem_append_left _ he, h⟩)

end Writes

/-! ## Claim on the metadata invariant -/

/-- C14: metadata is only ever merged.  Registration leaves `Metadata()` as it is.  A
`Transition` call, whatever its outcome, keeps every key that was present, and it
changes the entry of a key only if a hook invocation it logged wrote that key: a
merged delta that has the key, `callback_error` after a reported failure, or
`unknown_state` after a reported unknown. -/
theorem C14_metadata_is_only_merged {σ : Type} (env : Env σ) (condition : String)
    (args : Value) (opts : List (TransitionOption σ)) (s : St σ) :
    (∀ frm dst c, Metadata (AddTransition s.fsm frm dst c) = Metadata s.fsm) ∧
    (∀ c cb, Metadata (RegisterBefore s.fsm c cb) = Metadata s.fsm) ∧
    (∀ c cb, Metadata (RegisterAfter s.fsm c cb) = Metadata s.fsm) ∧
    (∀ k, Metadata s.fsm k ≠ none →
      Metadata (Transition env condition args opts s).2.fsm k ≠ none) ∧
    (∀ evs, (Transition env condition args opts s).2.trace = s.trace ++ evs →
      ∀ k, Metadata (Transition env condition args opts s).2.fsm k = Metadata s.fsm k ∨
        ∃ e ∈ evs, e.writes k = true) := by
  refine ⟨fun _ _ _ => rfl, fun _ _ => rfl, fun _ _ => rfl, ?_, ?_⟩
  · intro k hk
    exact transitionLoop_keeps env (applyOptions opts) condition args 0 s k hk
  · intro evs hevs k
    obtain ⟨l, hl, hw⟩ := transitionLoop_writes env condition args (applyOptions opts) 0 s
    have e1 : l = evs := List.append_cancel_left (hl.symm.trans hevs)
    subst e1
    exact hw k

/-- Witness for C14: the call `open` on `parcelSt`, which logs `openEvents`. -/
theorem C14_metadata_is_only_merged_witness :
    (Transition quietEnv "open" Value.nil [] parcelSt).2.trace
      = parcelSt.trace ++ openEvents ∧
    ∀ k, Metadata (Transition quietEnv "open" Value.nil [] parcelSt).2.fsm k
        = Metadata parcelSt.fsm k ∨ ∃ e ∈ openEvents, e.writes k = true :=
  have ht : (Transition quietEnv "open" Value.nil [] parcelSt).2.trace
      = parcelSt.trace ++ openEvents := by
    rw [parcel_open]
    rfl
  ⟨ht, (C14_metadata_is_only_merged quietEnv "open" Value.nil [] parcelSt).2.2.2.2
    openEvents ht⟩

/-! ## What a call returns -/

section Returned

variable {σ : Type} (env : Env σ) (condition : String) (args : Value)

theorem persist_error_logged (ctx : Ctx) (s : St σ) (err : Error)
    (h : (persist ctx s).1 = some err) :
    ∃ id st m, Event.save ctx id st m (some err) ∈ (persist ctx s).2.trace := by
  unfold persist at h ⊢
  cases hr : s.fsm.repo with
  | none =>
    rw [hr] at h
    cases h
  | some repo =>
    rw [hr] at h
    dsimp only at h ⊢
    rw [h]
    exact ⟨s.fsm.id, s.fsm.current, s.fsm.metadata, by simp⟩

/-- The errors an attempt returns: the sentinel for a missing entry, a hook's message,
the unknown-state sentinel, or a storage error wrapped as `persistence failed`. -/
theorem executeTransition_error_form (s : St σ) (e : Error)
    (h : (executeTransition env condition args s).1 = some e) :
    e = Error.ErrInvalidTransition ∨ (∃ m, e = Error.new m) ∨
    e = Error.ErrUnknownState ∨
    ∃ err, e = Error.errorf "persistence failed" err ∧
      ∃ id st m, Event.save Ctx.caller id st m (some err)
        ∈ (executeTransition env condition args s).2.trace := by
  have after_form : ∀ frm dst (s2 : St σ),
      (executeTransition_after env condition args frm dst s2).1 = some e →
      (∃ m, e = Error.new m) ∨ e = Error.ErrUnknownState := by
    intro frm dst s2 h2
    rcases executeTransition_after_cases env condition args frm dst s2 with
      ⟨_, hr⟩ | ⟨cb, _, ⟨_, hr⟩ | ⟨_, _, hr⟩ | ⟨_, _, hr⟩⟩
    · rw [hr] at h2
      cases h2
    · rw [hr] at h2
      cases h2
      exact Or.inl ⟨_, rfl⟩
    · rw [hr] at h2
      cases h2
      exact Or.inr rfl
    · rw [hr] at h2
      cases h2
  have change_form : ∀ frm dst (s1 : St σ),
      (executeTransition_change env condition args frm dst s1).1 = some e →
      (∃ m, e = Error.new m) ∨ e = Error.ErrUnknownState ∨
      ∃ err, e = Error.errorf "persistence failed" err ∧
        ∃ id st m, Event.save Ctx.caller id st m (some err)
          ∈ (executeTransition_change env condition args frm dst s1).2.trace := by
    intro frm dst s1 h1
    rcases executeTransition_change_cases env condition args frm dst s1 with
      ⟨err, hp, hr⟩ | ⟨_, hr⟩
    · rw [hr] at h1 ⊢
      cases h1
      exact Or.inr (Or.inr ⟨err, rfl, persist_error_logged Ctx.caller _ err hp⟩)
    · rw [hr] at h1
      rcases after_form frm dst _ h1 with h' | h'
      · exact Or.inl h'
      · exact Or.inr (Or.inl h')
  rcases executeTransition_cases env condition args s with
    ⟨_, hr⟩ | ⟨dst, hl, ⟨hcb, hr⟩ | ⟨cb, hcb, ⟨_, hr⟩ | ⟨_, _, hr⟩ | ⟨_, _, hr⟩⟩⟩
  · rw [hr] at h
    cases h
    exact Or.inl rfl
  · rw [hr] at h ⊢
    exact Or.inr (change_form _ _ _ h)
  · rw [hr] at h
    cases h
    exact Or.inr (Or.inl ⟨_, rfl⟩)
  · rw [hr] at h
    cases h
    exact Or.inr (Or.inr (Or.inl rfl))
  · rw [hr] at h ⊢
    exact Or.inr (change_form _ _ _ h)

theorem chain_of_Is_unknown (e : Error) (h : Error.Is e Error.ErrUnknownState = true)
    (m : String) : Error.new m ∉ Error.chain e := by
  induction e with
  | errorf text wrapped ih =>
    simp only [Error.Is] at h
    simp only [Error.chain, List.mem_cons, not_or]
    exact ⟨by simp, ih h⟩
  | ErrUnknownState => simp [Error.chain]
  | ErrInvalidTransition => simp [Error.Is] at h
  | ErrMaxRetriesExceeded => simp [Error.Is] at h
  | ErrNotFound => simp [Error.Is] at h
  | new _ => simp [Error.Is] at h
  | context _ => simp [Error.Is] at h
  | external _ => simp [Error.Is] at h

theorem wrapper_of_Is_unknown (e : Error) (h : Error.Is e Error.ErrUnknownState = true)
    (text : String) (err : Error) (hm : Error.errorf text err ∈ Error.chain e) :
    Error.Is err Error.ErrUnknownState = true := by
  induction e with
  | errorf text' wrapped ih =>
    simp only [Error.Is] at h
    simp only [Error.chain, List.mem_cons] at hm
    rcases hm with hm | hm
    · cases hm
      exact h
    · exact ih h hm
  | ErrUnknownState => simp [Error.chain] at hm
  | ErrInvalidTransition => simp [Error.Is] at h
  | ErrMaxRetriesExceeded => simp [Error.Is] at h
  | ErrNotFound => simp [Error.Is] at h
  | new _ => simp [Error.Is] at h
  | context _ => simp [Error.Is] at h
  | external _ => simp [Error.Is] at h

end Returned

/-- C19, as stated, fails: on `offlineRepo` no hook exists, the save fails with a
storage error that wraps `ErrUnknownState`, and `Transition` returns that storage
error to the caller, inside the unknown-state abort. -/
theorem C19_counterexample :
    hookCalls (Transition quietEnv "process" Value.nil [] offlineSt).2.trace = 0 ∧
    failedSaveCalls (Transition quietEnv "process" Value.nil [] offlineSt).2.trace = 1 ∧
    (offlineRepo.Save Ctx.caller "order-123" "processing" GoMap.empty ()).1
      = some (Error.errorf "disk offline" Error.ErrUnknownState) ∧
    (Transition quietEnv "process" Value.nil [] offlineSt).1
      = some (Error.errorf "operation aborted due to unknown state"
          (Error.errorf "persistence failed"
            (Error.errorf "disk offline" Error.ErrUnknownState))) ∧
    Error.errorf "disk offline" Error.ErrUnknownState
      ∈ Error.chain (Error.errorf "operation aborted due to unknown state"
          (Error.errorf "persistence failed"
            (Error.errorf "disk offline" Error.ErrUnknownState))) := by
  have hx : (executeTransition quietEnv "process" Value.nil offlineSt).1
      = some (Error.errorf "persistence failed"
          (Error.errorf "disk offline" Error.ErrUnknownState)) := by decide
  have hr := transitionLoop_unknown quietEnv (applyOptions []) "process" Value.nil 0
    offlineSt _ (by decide) hx (by decide)
  unfold Transition
  rw [hr]
  exact ⟨by decide, by decide, rfl, rfl, by decide⟩

/-- C19, amended: `Transition` returns nil, an error wrapping `ErrUnknownState`, the
context's error or `ErrMaxRetriesExceeded`.  The unknown-state abort wraps either the
sentinel itself or a storage error that is or wraps `ErrUnknownState`; apart from
that case no storage error is returned, and a hook's failure message never is.
With the default options every failed attempt other than unknown-state yields
`ErrMaxRetriesExceeded`. -/
theorem C19_what_transition_returns {σ : Type} (env : Env σ) (condition : String)
    (args : Value) (opts : List (TransitionOption σ)) (s : St σ) :
    ((Transition env condition args opts s).1 = none ∨
      (∃ e, (Transition env condition args opts s).1 = some e ∧
        Error.Is e Error.ErrUnknownState = true) ∨
      (∃ c, (Transition env condition args opts s).1 = some (Error.context c)) ∨
      (Transition env condition args opts s).1 = some Error.ErrMaxRetriesExceeded) ∧
    (∀ e, (Transition env condition args opts s).1 = some e →
      Error.Is e Error.ErrUnknownState = true →
      e = Error.errorf "operation aborted due to unknown state" Error.ErrUnknownState ∨
      ∃ err, e = Error.errorf "operation aborted due to unknown state"
          (Error.errorf "persistence failed" err) ∧
        Error.Is err Error.ErrUnknownState = true ∧
        ∃ id st m, Event.save Ctx.caller id st m (some err)
          ∈ (Transition env condition args opts s).2.trace) ∧
    (∀ e m, (Transition env condition args opts s).1 = some e →
      Error.new m ∉ Error.chain e) ∧
    (∀ e text err, (Transition env condition args opts s).1 = some e →
      Error.errorf text err ∈ Error.chain e →
      Error.Is err Error.ErrUnknownState = true) ∧
    (∀ e, (executeTransition env condition args s).1 = some e →
      Error.Is e Error.ErrUnknownState = false →
      (Transition env condition args [] s).1 = some Error.ErrMaxRetriesExceeded) := by
  have fin := transitionLoop_finished env (applyOptions opts) condition args
    (fun _ _ => True) (fun _ _ _ _ _ _ _ _ => trivial) (fun _ _ _ _ _ => trivial)
    _ 0 s rfl trivial
  refine ⟨?_, ?_, ?_, ?_, ?_⟩
  · unfold Transition
    generalize transitionLoop env (applyOptions opts) condition args 0 s = r at fin
    cases fin with
    | exhausted k s' hk hP => exact Or.inr (Or.inr (Or.inr rfl))
    | ok k s' hk hP hx => exact Or.inl rfl
    | unknown k s' e hk hP hx hu => exact Or.inr (Or.inl ⟨_, rfl, by simpa [Error.Is] using hu⟩)
    | cancelled k s' e hk hP hx hu hc => exact Or.inr (Or.inr (Or.inl ⟨_, rfl⟩))
  · unfold Transition
    generalize transitionLoop env (applyOptions opts) condition args 0 s = r at fin
    intro e he hIs
    cases fin with
    | exhausted k s' hk hP =>
      cases he
      simp [Error.Is] at hIs
    | ok k s' hk hP hx => cases he
    | cancelled k s' e' hk hP hx hu hc =>
      cases he
      simp [Error.Is] at hIs
    | unknown k s' e' hk hP hx hu =>
      cases he
      rcases executeTransition_error_form env condition args s' e' hx with
        h | ⟨m, h⟩ | h | ⟨err, h, hlog⟩
      · subst h
        simp [Error.Is] at hu
      · subst h
        simp [Error.Is] at hu
      · subst h
        exact Or.inl rfl
      · subst h
        exact Or.inr ⟨err, rfl, by simpa [Error.Is] using hu, hlog⟩
  · unfold Transition
    generalize transitionLoop env (applyOptions opts) condition args 0 s = r at fin
    intro e m he
    cases fin with
    | exhausted k s' hk hP =>
      cases he
      simp [Error.chain]
    | ok k s' hk hP hx => cases he
    | cancelled k s' e' hk hP hx hu hc =>
      cases he
      simp [Error.chain]
    | unknown k s' e' hk hP hx hu =>
      cases he
      exact chain_of_Is_unknown _ (by simpa [Error.Is] using hu) m
  · unfold Transition
    generalize transitionLoop env (applyOptions opts) condition args 0 s = r at fin
    intro e text err he hm
    cases fin with
    | exhausted k s' hk hP =>
      cases he
      simp [Error.chain] at hm
    | ok k s' hk hP hx => cases he
    | cancelled k s' e' hk hP hx hu hc =>
      cases he
      simp [Error.chain] at hm
    | unknown k s' e' hk hP hx hu =>
      cases he
      exact wrapper_of_Is_unknown _ (by simpa [Error.Is] using hu) text err hm
  · intro e hx hu
    unfold Transition
    have h := transitionLoop_last env (applyOptions []) condition args s e hx hu
    exact congrArg Prod.fst h

/-- Witness for C19 (amended): `refusingHook` before `process`, default options. -/
theorem C19_what_transition_returns_witness :
    (executeTransition quietEnv "process" Value.nil refusedSt).1
      = some (Error.new "refused") ∧
    Error.Is (Error.new "refused") Error.ErrUnknownState = false ∧
    (Transition quietEnv "process" Value.nil [] refusedSt).1
      = some Error.ErrMaxRetriesExceeded :=
  ⟨by decide, by decide,
    (C19_what_transition_returns quietEnv "process" Value.nil [] refusedSt).2.2.2.2
      (Error.new "refused") (by decide) (by decide)⟩

/-! ## Two runs whose hooks report the same statuses -/

section TwoRuns

variable {σ : Type} (R : σ → σ → Prop) (env : Env σ) (condition : String) (args : Value)

theorem related_transfer (s1 s2 t1 t2 : St σ) (h : related R condition s1 s2)
    (h1 : sameSetup s1.fsm t1.fsm) (h2 : sameSetup s2.fsm t2.fsm)
    (hc : t1.fsm.current = t2.fsm.current) (hw : R t1.world t2.world) :
    related R condition t1 t2 := by
  obtain ⟨a1, a2, _, a4, a5, a6, a7, _⟩ := h
  obtain ⟨b1, b2, b3, b4, b5⟩ := h1
  obtain ⟨c1, c2, c3, c4, c5⟩ := h2
  unfold related
  rw [b1, b2, b3, b4, b5, c1, c2, c3, c4, c5]
  exact ⟨a1, a2, hc, a4, a5, a6, a7, hw⟩

theorem handleUnknownState_resolved (frm : String) (s : St σ) :
    (handleUnknownState env condition frm args s).2.fsm.current
        = (resolved condition frm args s).fsm.current ∧
    (handleUnknownState env condition frm args s).2.world
        = (resolved condition frm args s).world ∧
    (handleUnknownState env condition frm args s).2.trace
        = (resolved condition frm args s).trace :=
  ⟨rfl, rfl, rfl⟩

theorem persist_world_of_none (ctx : Ctx) (s : St σ) (h : s.fsm.repo = none) :
    persist ctx s = (none, s) := by
  unfold persist
  rw [h]

theorem persist_sim (ctx : Ctx) (s1 s2 : St σ) (h : related R condition s1 s2) :
    (persist ctx s1).1 = (persist ctx s2).1 ∧
    related R condition (persist ctx s1).2 (persist ctx s2).2 := by
  have hst := h.2.2.2.1
  unfold storageAgrees at hst
  cases h1 : s1.fsm.repo with
  | none =>
    cases h2 : s2.fsm.repo with
    | none =>
      rw [persist_world_of_none ctx s1 h1, persist_world_of_none ctx s2 h2]
      exact ⟨rfl, h⟩
    | some b =>
      rw [h1, h2] at hst
      exact absurd hst id
  | some a =>
    cases h2 : s2.fsm.repo with
    | none =>
      rw [h1, h2] at hst
      exact absurd hst id
    | some b =>
      rw [h1, h2] at hst
      rw [persist_of_repo ctx s1 a h1, persist_of_repo ctx s2 b h2]
      have hs := hst ctx s2.fsm.id s2.fsm.current s1.fsm.metadata s2.fsm.metadata
        s1.world s2.world h.2.2.2.2.2.2.2
      dsimp only
      rw [h.1, h.2.2.1]
      refine ⟨hs.1, ?_⟩
      exact related_transfer R condition s1 s2 _ _ h (sameSetup_refl _) (sameSetup_refl _)
        h.2.2.1 hs.2

theorem resolved_sameSetup (frm : String) (s : St σ) :
    sameSetup s.fsm (resolved condition frm args s).fsm := by
  unfold resolved
  cases s.fsm.unknownStateHandler with
  | none => exact sameSetup_refl _
  | some h =>
    dsimp only
    rw [persist_fsm]
    exact ⟨rfl, rfl, rfl, rfl, rfl⟩

theorem resolved_sim (frm : String) (s1 s2 : St σ) (h : related R condition s1 s2) :
    related R condition (resolved condition frm args s1) (resolved condition frm args s2) := by
  have hres := h.2.2.2.2.2.2.1
  unfold resolverAgrees at hres
  unfold resolved
  cases h1 : s1.fsm.unknownStateHandler with
  | none =>
    cases h2 : s2.fsm.unknownStateHandler with
    | none => exact h
    | some b =>
      rw [h1, h2] at hres
      exact absurd hres id
  | some a =>
    cases h2 : s2.fsm.unknownStateHandler with
    | none =>
      rw [h1, h2] at hres
      exact absurd hres id
    | some b =>
      rw [h1, h2] at hres
      dsimp only
      have hr := hres frm condition args s1.world s2.world h.2.2.2.2.2.2.2
      refine (persist_sim R condition Ctx.background _ _ ?_).2
      exact related_transfer R condition s1 s2 _ _ h ⟨rfl, rfl, rfl, rfl, rfl⟩
        ⟨rfl, rfl, rfl, rfl, rfl⟩ hr.1 hr.2

theorem handleUnknownState_sim (frm : String) (s1 s2 : St σ)
    (h : related R condition s1 s2) :
    related R condition (handleUnknownState env condition frm args s1).2
      (handleUnknownState env condition frm args s2).2 := by
  have hr := resolved_sim R condition args frm s1 s2 h
  exact related_transfer R condition s1 s2 _ _ h
    (handleUnknownState_sameSetup env condition args frm s1)
    (handleUnknownState_sameSetup env condition args frm s2) hr.2.2.1 hr.2.2.2.2.2.2.2

theorem executeTransition_after_none (frm dst : String) (s : St σ)
    (hcb : s.fsm.callbacks.after condition = none) :
    executeTransition_after env condition args frm dst s = (none, s) := by
  rcases executeTransition_after_cases env condition args frm dst s with
    ⟨_, hr⟩ | ⟨cb, hcb', _⟩
  · exact hr
  · rw [hcb] at hcb'
    cases hcb'

theorem executeTransition_after_pass (frm dst : String) (s : St σ) (cb : CallbackFunc σ)
    (hcb : s.fsm.callbacks.after condition = some cb)
    (hnf : (cb condition frm dst args s.world).1.Status ≠ StatusFailure)
    (hnu : (cb condition frm dst args s.world).1.Status ≠ StatusUnknown) :
    executeTransition_after env condition args frm dst s
      = (none, mergeMetadata (cb condition frm dst args s.world).1.Metadata
          (hooked Phase.after condition frm dst args
            (cb condition frm dst args s.world) s)) := by
  rcases executeTransition_after_cases env condition args frm dst s with
    ⟨hcb', _⟩ | ⟨cb', hcb', h⟩
  · rw [hcb] at hcb'
    cases hcb'
  · rw [hcb] at hcb'
    cases hcb'
    rcases h with ⟨hf, _⟩ | ⟨_, hu, _⟩ | ⟨_, _, hr⟩
    · exact absurd hf hnf
    · exact absurd hu hnu
    · exact hr

theorem executeTransition_change_fail (frm dst : String) (s : St σ) (err : Error)
    (hp : (persist Ctx.caller (moved dst s)).1 = some err) :
    executeTransition_change env condition args frm dst s
      = (some (Error.errorf "persistence failed" err),
          moved frm (persist Ctx.caller (moved dst s)).2) := by
  rcases executeTransition_change_cases env condition args frm dst s with
    ⟨err', hp', hr⟩ | ⟨hp', _⟩
  · rw [hp] at hp'
    cases hp'
    exact hr
  · rw [hp] at hp'
    cases hp'

theorem executeTransition_change_commit (frm dst : String) (s : St σ)
    (hp : (persist Ctx.caller (moved dst s)).1 = none) :
    executeTransition_change env condition args frm dst s
      = executeTransition_after env condition args frm dst
          (persist Ctx.caller (moved dst s)).2 := by
  rcases executeTransition_change_cases env condition args frm dst s with
    ⟨err', hp', _⟩ | ⟨_, hr⟩
  · rw [hp] at hp'
    cases hp'
  · exact hr

theorem sameOutcome_new (m1 m2 : String) :
    sameOutcome (some (Error.new m1)) (some (Error.new m2)) :=
  ⟨rfl, fun h => by simp [Error.Is] at h⟩

theorem sameOutcome_same (e : Error) : sameOutcome (some e) (some e) :=
  ⟨rfl, fun _ => rfl⟩

theorem related_hooked (phase : Phase) (frm dst : String) (s1 s2 : St σ)
    (r1 r2 : CallbackResult × σ) (h : related R condition s1 s2) (hw : R r1.2 r2.2) :
    related R condition (hooked phase condition frm dst args r1 s1)
      (hooked phase condition frm dst args r2 s2) :=
  related_transfer R condition s1 s2 _ _ h (sameSetup_refl _) (sameSetup_refl _) h.2.2.1 hw

theorem related_merge (u1 u2 : Option (GoMap Value)) (s1 s2 : St σ)
    (h : related R condition s1 s2) :
    related R condition (mergeMetadata u1 s1) (mergeMetadata u2 s2) := by
  refine related_transfer R condition s1 s2 _ _ h ?_ ?_ ?_ ?_
  · cases u1 <;> exact ⟨rfl, rfl, rfl, rfl, rfl⟩
  · cases u2 <;> exact ⟨rfl, rfl, rfl, rfl, rfl⟩
  · rw [mergeMetadata_current, mergeMetadata_current]
    exact h.2.2.1
  · rw [mergeMetadata_world, mergeMetadata_world]
    exact h.2.2.2.2.2.2.2

theorem related_handleCallbackError (frm dst m1 m2 : String) (s1 s2 : St σ)
    (h : related R condition s1 s2) :
    related R condition (handleCallbackError env condition frm dst m1 s1).2
      (handleCallbackError env condition frm dst m2 s2).2 :=
  related_transfer R condition s1 s2 _ _ h ⟨rfl, rfl, rfl, rfl, rfl⟩
    ⟨rfl, rfl, rfl, rfl, rfl⟩ h.2.2.1 h.2.2.2.2.2.2.2

theorem executeTransition_after_sim (frm dst : String) (s1 s2 : St σ)
    (h : related R condition s1 s2) :
    sameOutcome (executeTransition_after env condition args frm dst s1).1
      (executeTransition_after env condition args frm dst s2).1 ∧
    related R condition (executeTransition_after env condition args frm dst s1).2
      (executeTransition_after env condition args frm dst s2).2 := by
  have ha := h.2.2.2.2.2.1
  unfold hooksAgree at ha
  cases h1 : s1.fsm.callbacks.after condition with
  | none =>
    cases h2 : s2.fsm.callbacks.after condition with
    | none =>
      rw [executeTransition_after_none env condition args frm dst s1 h1,
        executeTransition_after_none env condition args frm dst s2 h2]
      exact ⟨trivial, h⟩
    | some b =>
      rw [h1, h2] at ha
      exact absurd ha id
  | some a =>
    cases h2 : s2.fsm.callbacks.after condition with
    | none =>
      rw [h1, h2] at ha
      exact absurd ha id
    | some b =>
      rw [h1, h2] at ha
      have hs := ha condition frm dst args s1.world s2.world h.2.2.2.2.2.2.2
      have hk := related_hooked R condition args Phase.after frm dst s1 s2
        (a condition frm dst args s1.world) (b condition frm dst args s2.world) h hs.2
      by_cases hf : (a condition frm dst args s1.world).1.Status = StatusFailure
      · rw [executeTransition_after_failure env condition args frm dst s1 a h1 hf,
          executeTransition_after_failure env condition args frm dst s2 b h2
            (hs.1 ▸ hf)]
        exact ⟨sameOutcome_new _ _, related_handleCallbackError R env condition _ _ _ _ _ _ hk⟩
      · by_cases hu : (a condition frm dst args s1.world).1.Status = StatusUnknown
        · rw [executeTransition_after_unknown env condition args frm dst s1 a h1 hu,
            executeTransition_after_unknown env condition args frm dst s2 b h2
              (hs.1 ▸ hu)]
          exact ⟨sameOutcome_same _, handleUnknownState_sim R env condition args _ _ _ hk⟩
        · rw [executeTransition_after_pass env condition args frm dst s1 a h1 hf hu,
            executeTransition_after_pass env condition args frm dst s2 b h2
              (hs.1 ▸ hf) (hs.1 ▸ hu)]
          exact ⟨trivial, related_merge R condition _ _ _ _ hk⟩

theorem executeTransition_change_sim (frm dst : String) (s1 s2 : St σ)
    (h : related R condition s1 s2) :
    sameOutcome (executeTransition_change env condition args frm dst s1).1
      (executeTransition_change env condition args frm dst s2).1 ∧
    related R condition (executeTransition_change env condition args frm dst s1).2
      (executeTransition_change env condition args frm dst s2).2 := by
  have hm : related R condition (moved dst s1) (moved dst s2) :=
    related_transfer R condition s1 s2 _ _ h ⟨rfl, rfl, rfl, rfl, rfl⟩
      ⟨rfl, rfl, rfl, rfl, rfl⟩ rfl h.2.2.2.2.2.2.2
  obtain ⟨he, hp⟩ := persist_sim R condition Ctx.caller _ _ hm
  cases h1 : (persist Ctx.caller (moved dst s1)).1 with
  | none =>
    rw [executeTransition_change_commit env condition args frm dst s1 h1,
      executeTransition_change_commit env condition args frm dst s2 (he ▸ h1)]
    exact executeTransition_after_sim R env condition args frm dst _ _ hp
  | some err =>
    rw [executeTransition_change_fail env condition args frm dst s1 err h1,
      executeTransition_change_fail env condition args frm dst s2 err (he ▸ h1)]
    refine ⟨sameOutcome_same _, ?_⟩
    exact related_transfer R condition _ _ _ _ hp ⟨rfl, rfl, rfl, rfl, rfl⟩
      ⟨rfl, rfl, rfl, rfl, rfl⟩ rfl hp.2.2.2.2.2.2.2

theorem related_entered (s1 s2 : St σ) (h : related R condition s1 s2) :
    related R condition (entered condition s1) (entered condition s2) :=
  related_transfer R condition s1 s2 _ _ h (sameSetup_refl _) (sameSetup_refl _) h.2.2.1
    h.2.2.2.2.2.2.2

/-- Two attempts from related states have the same outcome and end in related
states. -/
theorem executeTransition_sim (s1 s2 : St σ) (h : related R condition s1 s2) :
    sameOutcome (executeTransition env condition args s1).1
      (executeTransition env condition args s2).1 ∧
    related R condition (executeTransition env condition args s1).2
      (executeTransition env condition args s2).2 := by
  have hcur := h.2.2.1
  have hent := related_entered R condition s1 s2 h
  have hlook : lookupTransition s2.fsm.transitions s2.fsm.current condition
      = lookupTransition s1.fsm.transitions s1.fsm.current condition := by
    rw [h.2.1, hcur]
  cases hl : lookupTransition s1.fsm.transitions s1.fsm.current condition with
  | none =>
    rw [executeTransition_invalid env condition args s1 hl,
      executeTransition_invalid env condition args s2 (hlook.trans hl)]
    exact ⟨sameOutcome_same _, hent⟩
  | some dst =>
    have hl2 := hlook.trans hl
    have hb := h.2.2.2.2.1
    unfold hooksAgree at hb
    cases h1 : s1.fsm.callbacks.before condition with
    | none =>
      cases h2 : s2.fsm.callbacks.before condition with
      | none =>
        rw [passesBefore_executeTransition env condition args s1 dst _
            ⟨hl, Or.inl ⟨h1, rfl⟩⟩,
          passesBefore_executeTransition env condition args s2 dst _
            ⟨hl2, Or.inl ⟨h2, rfl⟩⟩, hcur]
        exact executeTransition_change_sim R env condition args _ dst _ _ hent
      | some b =>
        rw [h1, h2] at hb
        exact absurd hb id
    | some a =>
      cases h2 : s2.fsm.callbacks.before condition with
      | none =>
        rw [h1, h2] at hb
        exact absurd hb id
      | some b =>
        rw [h1, h2] at hb
        have hs := hb condition s1.fsm.current dst args s1.world s2.world
          h.2.2.2.2.2.2.2
        have hs2 : (a condition s1.fsm.current dst args s1.world).1.Status
            = (b condition s2.fsm.current dst args s2.world).1.Status := by
          rw [← hcur]
          exact hs.1
        have hk : related R condition
            (hooked Phase.before condition s1.fsm.current dst args
              (a condition s1.fsm.current dst args s1.world) (entered condition s1))
            (hooked Phase.before condition s2.fsm.current dst args
              (b condition s2.fsm.current dst args s2.world) (entered condition s2)) := by
          refine related_transfer R condition _ _ _ _ hent (sameSetup_refl _)
            (sameSetup_refl _) hcur ?_
          show R (a condition s1.fsm.current dst args s1.world).2
            (b condition s2.fsm.current dst args s2.world).2
          rw [← hcur]
          exact hs.2
        by_cases hf : (a condition s1.fsm.current dst args s1.world).1.Status
            = StatusFailure
        · rw [executeTransition_eq_before_failure env condition args s1 dst a hl h1 hf,
            executeTransition_eq_before_failure env condition args s2 dst b hl2 h2
              (hs2 ▸ hf)]
          refine ⟨sameOutcome_new _ _, ?_⟩
          exact related_transfer R condition _ _ _ _ hk ⟨rfl, rfl, rfl, rfl, rfl⟩
            ⟨rfl, rfl, rfl, rfl, rfl⟩ hk.2.2.1 hk.2.2.2.2.2.2.2
        · by_cases hu : (a condition s1.fsm.current dst args s1.world).1.Status
              = StatusUnknown
          · rw [executeTransition_eq_before_unknown env condition args s1 dst a hl h1 hu,
              executeTransition_eq_before_unknown env condition args s2 dst b hl2 h2
                (hs2 ▸ hu), hcur]
            rw [hcur] at hk
            exact ⟨sameOutcome_same _, handleUnknownState_sim R env condition args _ _ _ hk⟩
          · rw [passesBefore_executeTransition env condition args s1 dst _
                ⟨hl, Or.inr ⟨a, h1, hf, hu, rfl⟩⟩,
              passesBefore_executeTransition env condition args s2 dst _
                ⟨hl2, Or.inr ⟨b, h2, hs2 ▸ hf, hs2 ▸ hu, rfl⟩⟩, hcur]
            rw [hcur] at hk
            exact executeTransition_change_sim R env condition args _ dst _ _
              (related_merge R condition _ _ _ _ hk)

theorem persist_attemptCalls (ctx : Ctx) (s : St σ) :
    attemptCalls (persist ctx s).2.trace = attemptCalls s.trace := by
  unfold persist
  cases s.fsm.repo <;> simp [attemptCalls, Event.isAttempt]

theorem handleUnknownState_attemptCalls (frm : String) (s : St σ) :
    attemptCalls (handleUnknownState env condition frm args s).2.trace
      = attemptCalls s.trace := by
  unfold handleUnknownState
  cases s.fsm.unknownStateHandler with
  | none => rfl
  | some h =>
    dsimp only
    rw [persist_attemptCalls]
    simp [attemptCalls, Event.isAttempt]

theorem executeTransition_after_attemptCalls (frm dst : String) (s : St σ) :
    attemptCalls (executeTransition_after env condition args frm dst s).2.trace
      = attemptCalls s.trace := by
  rcases executeTransition_after_cases env condition args frm dst s with
    ⟨_, hr⟩ | ⟨cb, _, ⟨_, hr⟩ | ⟨_, _, hr⟩ | ⟨_, _, hr⟩⟩
  · rw [hr]
  · rw [hr]
    simp [attemptCalls, Event.isAttempt]
  · rw [hr, handleUnknownState_attemptCalls]
    simp [attemptCalls, Event.isAttempt]
  · rw [hr]
    simp [attemptCalls, Event.isAttempt]

theorem executeTransition_change_attemptCalls (frm dst : String) (s : St σ) :
    attemptCalls (executeTransition_change env condition args frm dst s).2.trace
      = attemptCalls s.trace := by
  rcases executeTransition_change_cases env condition args frm dst s with
    ⟨err, _, hr⟩ | ⟨_, hr⟩
  · rw [hr]
    show attemptCalls (persist Ctx.caller (moved dst s)).2.trace = _
    rw [persist_attemptCalls]
    rfl
  · rw [hr, executeTransition_after_attemptCalls, persist_attemptCalls]
    rfl

/-- Every attempt logs itself once. -/
theorem executeTransition_attemptCalls (s : St σ) :
    attemptCalls (executeTransition env condition args s).2.trace
      = attemptCalls s.trace + 1 := by
  rcases executeTransition_cases env condition args s with
    ⟨_, hr⟩ | ⟨dst, hl, ⟨hcb, hr⟩ | ⟨cb, hcb, ⟨_, hr⟩ | ⟨_, _, hr⟩ | ⟨_, _, hr⟩⟩⟩
  · rw [hr]
    simp [attemptCalls, Event.isAttempt]
  · rw [hr, executeTransition_change_attemptCalls]
    simp [attemptCalls, Event.isAttempt]
  · rw [hr]
    simp [attemptCalls, Event.isAttempt]
  · rw [hr, handleUnknownState_attemptCalls]
    simp [attemptCalls, Event.isAttempt]
  · rw [hr, executeTransition_change_attemptCalls]
    simp [attemptCalls, Event.isAttempt]

theorem afterWait_sim (config : transitionConfig σ) (hresp : respects R env config)
    (k : Int) (s1 s2 : St σ) (h : related R condition s1 s2) :
    cancelledAt env config k s1 = cancelledAt env config k s2 ∧
    related R condition (afterWait env config k s1) (afterWait env config k s2) := by
  obtain ⟨hwait, _, hback⟩ := hresp
  have hb := hback k s1.world s2.world h.2.2.2.2.2.2.2
  have hw := hwait (config.backoff k s1.world).1 _ _ hb.2
  unfold cancelledAt
  constructor
  · rw [hw.1, hb.1]
  · refine related_transfer R condition s1 s2 _ _ h (sameSetup_refl _) (sameSetup_refl _)
      h.2.2.1 ?_
    show R (env.wait (config.backoff k s1.world).1 (config.backoff k s1.world).2).2
      (env.wait (config.backoff k s2.world).1 (config.backoff k s2.world).2).2
    rw [← hb.1]
    exact hw.2

/-- Two runs of the retry loop from related states return the same value, end in
related states and make the same number of attempts. -/
theorem transitionLoop_sim (config : transitionConfig σ) (hresp : respects R env config)
    (n : Nat) : ∀ (attempt : Int) (s1 s2 : St σ),
    (config.maxRetries + 1 - attempt).toNat = n → related R condition s1 s2 →
    (transitionLoop env config condition args attempt s1).1
      = (transitionLoop env config condition args attempt s2).1 ∧
    related R condition (transitionLoop env config condition args attempt s1).2
      (transitionLoop env config condition args attempt s2).2 ∧
    ∃ m, attemptCalls (transitionLoop env config condition args attempt s1).2.trace
        = attemptCalls s1.trace + m ∧
      attemptCalls (transitionLoop env config condition args attempt s2).2.trace
        = attemptCalls s2.trace + m := by
  induction n with
  | zero =>
    intro attempt s1 s2 hn h
    have hk : ¬ attempt ≤ config.maxRetries := by omega
    rw [transitionLoop_exit env config condition args attempt s1 hk,
      transitionLoop_exit env config condition args attempt s2 hk]
    exact ⟨rfl, h, 0, rfl, rfl⟩
  | succ n ih =>
    intro attempt s1 s2 hn h
    have hle : attempt ≤ config.maxRetries := by omega
    obtain ⟨ho, hrel⟩ := executeTransition_sim R env condition args s1 s2 h
    have hc1 := executeTransition_attemptCalls env condition args s1
    have hc2 := executeTransition_attemptCalls env condition args s2
    cases hx1 : (executeTransition env condition args s1).1 with
    | none =>
      cases hx2 : (executeTransition env condition args s2).1 with
      | none =>
        rw [transitionLoop_ok env config condition args attempt s1 hle hx1,
          transitionLoop_ok env config condition args attempt s2 hle hx2]
        exact ⟨rfl, hrel, 1, hc1, hc2⟩
      | some b =>
        rw [hx1, hx2] at ho
        exact absurd ho id
    | some a =>
      cases hx2 : (executeTransition env condition args s2).1 with
      | none =>
        rw [hx1, hx2] at ho
        exact absurd ho id
      | some b =>
        rw [hx1, hx2] at ho
        obtain ⟨hIs, hEq⟩ := ho
        cases hu : Error.Is a Error.ErrUnknownState with
        | true =>
          have hab : a = b := hEq hu
          subst hab
          rw [transitionLoop_unknown env config condition args attempt s1 a hle hx1 hu,
            transitionLoop_unknown env config condition args attempt s2 a hle hx2 hu]
          exact ⟨rfl, hrel, 1, hc1, hc2⟩
        | false =>
          have hu2 : Error.Is b Error.ErrUnknownState = false := by
            rw [← hIs]
            exact hu
          rcases lt_or_eq_of_le hle with hlt | heq
          · obtain ⟨hcan, hwrel⟩ := afterWait_sim R env condition config hresp attempt _ _ hrel
            have hw1 := afterWait_counts env config attempt
              (executeTransition env condition args s1).2
            have hw2 := afterWait_counts env config attempt
              (executeTransition env condition args s2).2
            cases hc : cancelledAt env config attempt
                (executeTransition env condition args s1).2 with
            | true =>
              rw [transitionLoop_cancel env config condition args attempt s1 a hlt hx1 hu hc,
                transitionLoop_cancel env config condition args attempt s2 b hlt hx2 hu2
                  (hcan ▸ hc)]
              refine ⟨?_, hwrel, 1, ?_, ?_⟩
              · rw [hresp.2.1 _ _ hwrel.2.2.2.2.2.2.2]
              · rw [hw1.1, hc1]
              · rw [hw2.1, hc2]
            | false =>
              rw [transitionLoop_retry env config condition args attempt s1 a hlt hx1 hu hc,
                transitionLoop_retry env config condition args attempt s2 b hlt hx2 hu2
                  (hcan ▸ hc)]
              obtain ⟨he, hr, m, hm1, hm2⟩ := ih (attempt + 1) _ _ (by omega) hwrel
              refine ⟨he, hr, m + 1, ?_, ?_⟩
              · rw [hm1, hw1.1, hc1]
                omega
              · rw [hm2, hw2.1, hc2]
                omega
          · subst heq
            rw [transitionLoop_last env config condition args s1 a hx1 hu,
              transitionLoop_last env config condition args s2 b hx2 hu2]
            exact ⟨rfl, hrel, 1, hc1, hc2⟩

end TwoRuns

/-! ## Claim on the status as the sole authority -/

/-- C15: status is the sole authority for control flow.  Take two runs of
`Transition` with the same condition, args, options and context, from states with
the same id, table and current state, whose storage, resolver, backoff and
cancellation behave alike, and whose hooks report the same status at each
invocation, whatever message, metadata delta and retry delay they return.  The two
runs return the same value, end with the same `Current()` and make the same number
of attempts. -/
theorem C15_status_is_the_sole_authority {σ : Type} (R : σ → σ → Prop) (env : Env σ)
    (condition : String) (args : Value) (opts : List (TransitionOption σ)) (s1 s2 : St σ)
    (hresp : respects R env (applyOptions opts))
    (hrel : related R condition s1 s2) :
    (Transition env condition args opts s1).1 = (Transition env condition args opts s2).1 ∧
    Current (Transition env condition args opts s1).2.fsm
      = Current (Transition env condition args opts s2).2.fsm ∧
    ∃ n, attemptCalls (Transition env condition args opts s1).2.trace
        = attemptCalls s1.trace + n ∧
      attemptCalls (Transition env condition args opts s2).2.trace
        = attemptCalls s2.trace + n := by
  obtain ⟨he, hr, hn⟩ := transitionLoop_sim R env condition args (applyOptions opts) hresp
    _ 0 s1 s2 rfl hrel
  exact ⟨he, hr.2.2.1, hn⟩

theorem refused_related :
    related (fun _ _ => True) "process" refusedSt verboseRefusedSt :=
  ⟨rfl, rfl, rfl, trivial, fun _ _ _ _ _ _ _ => ⟨rfl, trivial⟩, trivial, trivial, trivial⟩

theorem quietEnv_respects (opts : List (TransitionOption Unit)) :
    respects (fun _ _ => True) quietEnv (applyOptions opts) :=
  ⟨fun _ _ _ _ => ⟨rfl, trivial⟩, fun _ _ _ => rfl,
    fun _ w1 w2 _ => ⟨by cases w1; cases w2; rfl, trivial⟩⟩

/-- Witness for C15: `refusingHook` and `verboseRefusingHook` report the same status
with different messages, deltas and retry delays; two retries allowed. -/
theorem C15_status_is_the_sole_authority_witness :
    respects (fun _ _ => True) quietEnv
      (applyOptions ([WithRetry 2 noDelay] : List (TransitionOption Unit))) ∧
    related (fun _ _ => True) "process" refusedSt verboseRefusedSt ∧
    ((Transition quietEnv "process" Value.nil [WithRetry 2 noDelay] refusedSt).1
        = (Transition quietEnv "process" Value.nil [WithRetry 2 noDelay] verboseRefusedSt).1 ∧
      Current (Transition quietEnv "process" Value.nil [WithRetry 2 noDelay] refusedSt).2.fsm
        = Current
            (Transition quietEnv "process" Value.nil [WithRetry 2 noDelay]
              verboseRefusedSt).2.fsm ∧
      ∃ n,
        attemptCalls
            (Transition quietEnv "process" Value.nil [WithRetry 2 noDelay] refusedSt).2.trace
          = attemptCalls refusedSt.trace + n ∧
        attemptCalls
            (Transition quietEnv "process" Value.nil [WithRetry 2 noDelay]
              verboseRefusedSt).2.trace
          = attemptCalls verboseRefusedSt.trace + n) :=
  ⟨quietEnv_respects _, refused_related,
    C15_status_is_the_sole_authority (fun _ _ => True) quietEnv "process" Value.nil
      [WithRetry 2 noDelay] refusedSt verboseRefusedSt (quietEnv_respects _)
      refused_related⟩

/-! ## Claim on the resolver's first argument -/

section ResolverArgument

variable {σ : Type} (env : Env σ) (condition : String) (args : Value)

theorem persist_resolverArg (ctx : Ctx) (s : St σ) :
    ∃ l, (persist ctx s).2.trace = s.trace ++ l ∧ ∀ e ∈ l, e.resolverArg = none := by
  unfold persist
  cases s.fsm.repo with
  | none => exact ⟨[], by simp, by simp⟩
  | some repo => exact ⟨[_], rfl, by simp [Event.resolverArg]⟩

theorem handleUnknownState_resolverArg (frm : String) (s : St σ) :
    ∃ l, (handleUnknownState env condition frm args s).2.trace = s.trace ++ l ∧
      ∀ e ∈ l, ∀ a, e.resolverArg = some a → a = frm := by
  unfold handleUnknownState
  cases s.fsm.unknownStateHandler with
  | none => exact ⟨[], by simp, by simp⟩
  | some h =>
    dsimp only
    obtain ⟨l, hl, hn⟩ := persist_resolverArg Ctx.background
      ({ fsm := { s.fsm with current := (h frm condition args s.world).1 }
         world := (h frm condition args s.world).2
         trace := s.trace ++ [Event.resolver frm condition args
           (h frm condition args s.world).1] } : St σ)
    refine ⟨Event.resolver frm condition args (h frm condition args s.world).1 :: l,
      by rw [hl]; simp, ?_⟩
    intro e he a ha
    rcases List.mem_cons.mp he with rfl | he
    · exact (Option.some.inj ha).symm
    · rw [hn e he] at ha
      cases ha

theorem executeTransition_after_resolverArg (frm dst : String) (s : St σ) :
    ∃ l, (executeTransition_after env condition args frm dst s).2.trace = s.trace ++ l ∧
      ∀ e ∈ l, ∀ a, e.resolverArg = some a → a = frm := by
  rcases executeTransition_after_cases env condition args frm dst s with
    ⟨_, hr⟩ | ⟨cb, _, ⟨_, hr⟩ | ⟨_, _, hr⟩ | ⟨_, _, hr⟩⟩
  · rw [hr]
    exact ⟨[], by simp, by simp⟩
  · rw [hr]
    refine ⟨[Event.hook Phase.after condition frm dst args
      (cb condition frm dst args s.world).1], rfl, ?_⟩
    intro e he a ha
    rw [List.mem_singleton.mp he] at ha
    cases ha
  · rw [hr]
    obtain ⟨l, hl, hn⟩ := handleUnknownState_resolverArg env condition args frm
      (hooked Phase.after condition frm dst args (cb condition frm dst args s.world) s)
    refine ⟨Event.hook Phase.after condition frm dst args
      (cb condition frm dst args s.world).1 :: l, by rw [hl]; simp [hooked], ?_⟩
    intro e he a ha
    rcases List.mem_cons.mp he with rfl | he
    · cases ha
    · exact hn e he a ha
  · rw [hr]
    refine ⟨[Event.hook Phase.after condition frm dst args
      (cb condition frm dst args s.world).1], by simp, ?_⟩
    intro e he a ha
    rw [List.mem_singleton.mp he] at ha
    cases ha

theorem executeTransition_change_resolverArg (frm dst : String) (s : St σ) :
    ∃ l, (executeTransition_change env condition args frm dst s).2.trace = s.trace ++ l ∧
      ∀ e ∈ l, ∀ a, e.resolverArg = some a → a = frm := by
  obtain ⟨lp, hlp, hnp⟩ := persist_resolverArg Ctx.caller (moved dst s)
  rcases executeTransition_change_cases env condition args frm dst s with
    ⟨err, _, hr⟩ | ⟨_, hr⟩
  · rw [hr]
    refine ⟨lp, by rw [← moved_trace dst s, ← hlp]; rfl, ?_⟩
    intro e he a ha
    rw [hnp e he] at ha
    cases ha
  · rw [hr]
    obtain ⟨la, hla, hna⟩ := executeTransition_after_resolverArg env condition args frm dst
      (persist Ctx.caller (moved dst s)).2
    refine ⟨lp ++ la, by rw [hla, hlp, moved_trace, List.append_assoc], ?_⟩
    intro e he a ha
    rcases List.mem_append.mp he with he | he
    · rw [hnp e he] at ha
      cases ha
    · exact hna e he a ha

/-- Every resolver invocation an attempt logs was given the state the attempt started
from. -/
theorem executeTransition_resolverArg (s : St σ) :
    ∃ l, (executeTransition env condition args s).2.trace = s.trace ++ l ∧
      ∀ e ∈ l, ∀ a, e.resolverArg = some a → a = s.fsm.current := by
  rcases executeTransition_cases env condition args s with
    ⟨_, hr⟩ | ⟨dst, _, ⟨_, hr⟩ | ⟨cb, _, ⟨_, hr⟩ | ⟨_, _, hr⟩ | ⟨_, _, hr⟩⟩⟩
  · rw [hr]
    refine ⟨[Event.attempt s.fsm.current condition], rfl, ?_⟩
    intro e he a ha
    rw [List.mem_singleton.mp he] at ha
    cases ha
  · rw [hr]
    obtain ⟨lc, hlc, hn⟩ := executeTransition_change_resolverArg env condition args
      s.fsm.current dst (entered condition s)
    refine ⟨[Event.attempt s.fsm.current condition] ++ lc, by rw [hlc]; simp [entered], ?_⟩
    intro e he a ha
    rcases List.mem_append.mp he with he | he
    · rw [List.mem_singleton.mp he] at ha
      cases ha
    · exact hn e he a ha
  · rw [hr]
    refine ⟨[Event.attempt s.fsm.current condition,
      Event.hook Phase.before condition s.fsm.current dst args
        (cb condition s.fsm.current dst args s.world).1],
      by simp [handleCallbackError, hooked, entered], ?_⟩
    intro e he a ha
    rcases List.mem_cons.mp he with rfl | he
    · cases ha
    · rw [List.mem_singleton.mp he] at ha
      cases ha
  · rw [hr]
    obtain ⟨l, hl, hn⟩ := handleUnknownState_resolverArg env condition args s.fsm.current
      (hooked Phase.before condition s.fsm.current dst args
        (cb condition s.fsm.current dst args s.world) (entered condition s))
    refine ⟨Event.attempt s.fsm.current condition ::
      Event.hook Phase.before condition s.fsm.current dst args
        (cb condition s.fsm.current dst args s.world).1 :: l,
      by rw [hl]; simp [hooked, entered], ?_⟩
    intro e he a ha
    rcases List.mem_cons.mp he with rfl | he
    · cases ha
    · rcases List.mem_cons.mp he with rfl | he
      · cases ha
      · exact hn e he a ha
  · rw [hr]
    obtain ⟨lc, hlc, hn⟩ := executeTransition_change_resolverArg env condition args
      s.fsm.current dst
      (mergeMetadata (cb condition s.fsm.current dst args s.world).1.Metadata
        (hooked Phase.before condition s.fsm.current dst args
          (cb condition s.fsm.current dst args s.world) (entered condition s)))
    refine ⟨Event.attempt s.fsm.current condition ::
      Event.hook Phase.before condition s.fsm.current dst args
        (cb condition s.fsm.current dst args s.world).1 :: lc,
      by rw [hlc, mergeMetadata_trace]; simp [hooked, entered], ?_⟩
    intro e he a ha
    rcases List.mem_cons.mp he with rfl | he
    · cases ha
    · rcases List.mem_cons.mp he with rfl | he
      · cases ha
      · exact hn e he a ha

end ResolverArgument

/-- C17, amended: whenever the unknown-state resolver is invoked, its first argument
equals the state the attempt started from.  Every resolver invocation an attempt logs
carries that state.  On the before-hook path `handleUnknownState` is entered with that
state while it is still the entity's current state; on the after-hook path it is
entered with that state while the entity's current state is the committed
destination. -/
theorem C17_resolver_is_given_the_attempt_source {σ : Type} (env : Env σ)
    (condition : String) (args : Value) (s : St σ) :
    (∃ l, (executeTransition env condition args s).2.trace = s.trace ++ l ∧
      ∀ e ∈ l, ∀ a, e.resolverArg = some a → a = Current s.fsm) ∧
    (∀ dst cb,
      lookupTransition s.fsm.transitions s.fsm.current condition = some dst →
      s.fsm.callbacks.before condition = some cb →
      (cb condition s.fsm.current dst args s.world).1.Status = StatusUnknown →
      executeTransition env condition args s
        = (some Error.ErrUnknownState,
            (handleUnknownState env condition (Current s.fsm) args
              (hooked Phase.before condition s.fsm.current dst args
                (cb condition s.fsm.current dst args s.world) (entered condition s))).2) ∧
      Current (hooked Phase.before condition s.fsm.current dst args
        (cb condition s.fsm.current dst args s.world) (entered condition s)).fsm
        = Current s.fsm) ∧
    (∀ dst s2 cb,
      commits condition args s dst s2 →
      s2.fsm.callbacks.after condition = some cb →
      (cb condition s.fsm.current dst args s2.world).1.Status = StatusUnknown →
      executeTransition env condition args s
        = (some Error.ErrUnknownState,
            (handleUnknownState env condition (Current s.fsm) args
              (hooked Phase.after condition s.fsm.current dst args
                (cb condition s.fsm.current dst args s2.world) s2)).2) ∧
      Current (hooked Phase.after condition s.fsm.current dst args
        (cb condition s.fsm.current dst args s2.world) s2).fsm = dst) := by
  refine ⟨executeTransition_resolverArg env condition args s, ?_, ?_⟩
  · intro dst cb hl hcb hu
    exact ⟨executeTransition_eq_before_unknown env condition args s dst cb hl hcb hu, rfl⟩
  · intro dst s2 cb hc hcb hu
    refine ⟨?_, (commits_setup condition args s dst s2 hc).2.1⟩
    rw [commits_executeTransition env condition args s dst s2 hc]
    exact executeTransition_after_unknown env condition args s.fsm.current dst s2 cb hcb hu

/-- Witness for C17: on `gatewaySt` the before-hook of `process` reports unknown and the
resolver is given `created`, the current state; on `auditSt` the after-hook reports
unknown once `processing` is committed and the resolver is given `created` again. -/
theorem C17_resolver_is_given_the_attempt_source_witness :
    (lookupTransition gatewaySt.fsm.transitions gatewaySt.fsm.current "process"
        = some "processing" ∧
      gatewaySt.fsm.callbacks.before "process" = some timeoutHook ∧
      (timeoutHook "process" gatewaySt.fsm.current "processing" Value.nil
        gatewaySt.world).1.Status = StatusUnknown) ∧
    (executeTransition quietEnv "process" Value.nil gatewaySt
        = (some Error.ErrUnknownState,
            (handleUnknownState quietEnv "process" (Current gatewaySt.fsm) Value.nil
              (hooked Phase.before "process" gatewaySt.fsm.current "processing" Value.nil
                (timeoutHook "process" gatewaySt.fsm.current "processing" Value.nil
                  gatewaySt.world) (entered "process" gatewaySt))).2) ∧
      Current (hooked Phase.before "process" gatewaySt.fsm.current "processing" Value.nil
        (timeoutHook "process" gatewaySt.fsm.current "processing" Value.nil
          gatewaySt.world) (entered "process" gatewaySt)).fsm
        = Current gatewaySt.fsm) ∧
    (commits "process" Value.nil auditSt "processing" auditCommitted ∧
      auditCommitted.fsm.callbacks.after "process" = some timeoutHook ∧
      (timeoutHook "process" auditSt.fsm.current "processing" Value.nil
        auditCommitted.world).1.Status = StatusUnknown) ∧
    (executeTransition quietEnv "process" Value.nil auditSt
        = (some Error.ErrUnknownState,
            (handleUnknownState quietEnv "process" (Current auditSt.fsm) Value.nil
              (hooked Phase.after "process" auditSt.fsm.current "processing" Value.nil
                (timeoutHook "process" auditSt.fsm.current "processing" Value.nil
                  auditCommitted.world) auditCommitted)).2) ∧
      Current (hooked Phase.after "process" auditSt.fsm.current "processing" Value.nil
        (timeoutHook "process" auditSt.fsm.current "processing" Value.nil
          auditCommitted.world) auditCommitted).fsm = "processing") :=
  ⟨⟨by decide, rfl, rfl⟩,
    (C17_resolver_is_given_the_attempt_source quietEnv "process" Value.nil gatewaySt).2.1
      "processing" timeoutHook (by decide) rfl rfl,
    ⟨auditSt_commits, rfl, rfl⟩,
    (C17_resolver_is_given_the_attempt_source quietEnv "process" Value.nil auditSt).2.2
      "processing" auditCommitted timeoutHook auditSt_commits rfl rfl⟩

end GoFsm
